import Mathlib

/-!
CmdThrottlePolicy: the D3D12 matrix-multiplication benchmark.

A shallow embedding of `D3D12MatMul.cpp` and `CmdThrottlePolicy.cpp`.

Conventions of the embedding.

* `int32_t` values are integers (`Int`); an operation whose result can leave the
  32-bit range is followed by `wrap32`, the two's-complement result of the
  machine instruction (C++ leaves signed overflow undefined).
* `UINT64` values are naturals reduced modulo `2 ^ 64`.
* The counter of a loop `for (i = 0; i < n; ++i)` is a natural below `n`; the
  sizes `mM`, `mN`, `mK` are `int32_t` members, and every index or element
  count computed from them (`y * mK + x1`, `mM * mN`) is computed in `int32_t`
  (`index32`, `mul32`).  A `std::vector` is a list; an access out of its
  bounds, which C++ leaves undefined, ends the run with `none`, and so does
  the construction of a vector with a negative element count.
* A finite `float` is the dyadic rational `num / 2 ^ scale` (structure `F32`);
  every arithmetic operation computes the exact result and rounds it to 24
  significant bits, to nearest, ties to even.  The exponent range (overflow to
  infinity, subnormal numbers) and the sign of zero are not represented.
* Calls into Direct3D 12 and into the Intel extension library are recorded, in
  program order, in a list of `Call`s.  `ThrowIfFailed` ends the process when
  a call fails; unless stated otherwise the model follows the run in which
  the guarded calls succeed.
* Values from outside the repository are parameters: the macros `RAND_MAX` and
  `D3D12_CONSTANT_BUFFER_DATA_PLACEMENT_ALIGNMENT`, the results of `rand()`, the
  descriptor size and the heap addresses that the device returns.
* Properties of the whole sequence of calls are stated by replaying the
  recorded calls through a step function that returns `none` at the first
  call that is out of order (`stepStates` for the states of the buffers,
  `stepPhase` for the command list).
-/

namespace CmdThrottlePolicy

/-! ## Machine integers -/

/-- The two's-complement `int32_t` that has the same low 32 bits as `i`. -/
def wrap32 (i : Int) : Int := (i + 2147483648) % 4294967296 - 2147483648

/-- Reading a 32-bit pattern as `int32_t`
(`*reinterpret_cast<const int32_t*>(&value)`). -/
def toInt32 (bits : Nat) : Int := wrap32 (Int.ofNat bits)

/-- Multiplication of two `int32_t` values. -/
def mul32 (a b : Int) : Int := wrap32 (a * b)

/-- Subtraction of two `int32_t` values. -/
def sub32 (a b : Int) : Int := wrap32 (a - b)

/-- The function `abs` on `int32_t`: the magnitude, which for `INT_MIN` is not
representable and comes back as `INT_MIN`. -/
def abs32 (a : Int) : Int := wrap32 (Int.ofNat a.natAbs)

/-- Reduction of a natural number to `UINT64`. -/
def wrap64 (n : Nat) : Nat := n % 18446744073709551616

/-! ## Single-precision floating point -/

/-- A finite `float`: the number `num / 2 ^ scale`, kept in lowest terms
(`scale = 0` or `num` odd). -/
structure F32 where
  num : Int
  scale : Nat
deriving DecidableEq

/-- Lowest-terms form of `num / 2 ^ scale`. -/
def F32.norm : Int → Nat → F32
  | num, 0 => ⟨num, 0⟩
  | num, s + 1 => if num % 2 = 0 then F32.norm (num / 2) s else ⟨num, s + 1⟩

/-- Numerator of `(n / d) / 2 ^ k` over the denominator `roundDen d k`. -/
def roundNum (n : Nat) (k : Int) : Nat := n * 2 ^ (-k).toNat

/-- Denominator of `(n / d) / 2 ^ k` under the numerator `roundNum n k`. -/
def roundDen (d : Nat) (k : Int) : Nat := d * 2 ^ k.toNat

/-- Position of the leading bit of `n`, searched in at most `fuel` halvings. -/
def bitLog2Aux : Nat → Nat → Nat
  | 0, _ => 0
  | fuel + 1, n => if n ≤ 1 then 0 else bitLog2Aux fuel (n / 2) + 1

/-- Position of the leading bit of `n`: `2 ^ bitLog2 n ≤ n < 2 ^ (bitLog2 n + 1)`
for `n > 0`. -/
def bitLog2 (n : Nat) : Nat := bitLog2Aux n n

/-- The exponent `l` with `2 ^ l ≤ n / d < 2 ^ (l + 1)`, for `n, d > 0`. -/
def floorLog2 (n d : Nat) : Int :=
  let c : Int := Int.ofNat (bitLog2 n) - Int.ofNat (bitLog2 d)
  if roundDen d c ≤ roundNum n c then c else c - 1

/-- The 24-bit significand of `n / d` at unit `2 ^ e`: the integer nearest to
`(n / d) / 2 ^ e`, the even one of the two when it lies halfway. -/
def roundSignificand (n d : Nat) (e : Int) : Nat :=
  let q := roundNum n e / roundDen d e
  let r := roundNum n e % roundDen d e
  if 2 * r < roundDen d e then q
  else if roundDen d e < 2 * r then q + 1
  else if q % 2 = 0 then q else q + 1

/-- Rounding of the rational `± n / d` (`d > 0`) to `float`: nearest value with
24 significant bits, ties to even. -/
def f32Round (negative : Bool) (n d : Nat) : F32 :=
  if n = 0 then ⟨0, 0⟩
  else
    let e : Int := floorLog2 n d - 23
    let m : Int := Int.ofNat (roundSignificand n d e)
    let sm : Int := if negative then -m else m
    F32.norm (sm * 2 ^ e.toNat) (-e).toNat

/-- The conversion `float(i)` of an `int32_t`. -/
def f32OfInt32 (i : Int) : F32 := f32Round (decide (i < 0)) i.natAbs 1

/-- Sum of two floats. -/
def f32Add (a b : F32) : F32 :=
  let s := a.num * 2 ^ b.scale + b.num * 2 ^ a.scale
  f32Round (decide (s < 0)) s.natAbs (2 ^ (a.scale + b.scale))

/-- Product of two floats. -/
def f32Mul (a b : F32) : F32 :=
  let p := a.num * b.num
  f32Round (decide (p < 0)) p.natAbs (2 ^ (a.scale + b.scale))

/-- Quotient of two floats; `none` when the divisor is zero (the result is an
infinity or a NaN). -/
def f32Div (a b : F32) : Option F32 :=
  if b.num = 0 then none
  else
    some (f32Round (decide (a.num < 0) != decide (b.num < 0))
      (a.num.natAbs * 2 ^ b.scale) (b.num.natAbs * 2 ^ a.scale))

/-- The function `ceil`: the least integer not below the argument, as a float. -/
def f32Ceil (a : F32) : F32 := ⟨-((-a.num) / 2 ^ a.scale), 0⟩

/-- The conversion `static_cast<int32_t>(a)`: truncation toward zero; `none`
when the truncated value is outside the `int32_t` range. -/
def f32ToInt32 (a : F32) : Option Int :=
  let t := Int.tdiv a.num (2 ^ a.scale)
  if -2147483648 ≤ t ∧ t ≤ 2147483647 then some t else none

/-! ## `D3D12MatMul::DoMatMul`: the dispatch grid -/

/-- The constant `kRowPerThread` of `DoMatMul`. -/
def kRowPerThread : Int := 4

/-- The constant `kColPerThread` of `DoMatMul`. -/
def kColPerThread : Int := 4

/-- The expression `static_cast<int32_t>(ceil(float(size) / float(tile)))`. -/
def ceilDivFloat (size tile : Int) : Option Int :=
  (f32Div (f32OfInt32 size) (f32OfInt32 tile)).bind fun q => f32ToInt32 (f32Ceil q)

/-- The pair `(dispatchX, dispatchY)` that `DoMatMul` computes from the members
`mM`, `mN`, `mLocalGroupSizeX` and `mLocalGroupSizeY`. -/
def dispatchGrid (mM mN mLocalGroupSizeX mLocalGroupSizeY : Int) : Option (Int × Int) :=
  let tileM := mul32 mLocalGroupSizeY kRowPerThread
  let tileN := mul32 mLocalGroupSizeX kColPerThread
  (ceilDivFloat mN tileN).bind fun dispatchX =>
    (ceilDivFloat mM tileM).bind fun dispatchY => some (dispatchX, dispatchY)

/-! ## `D3D12MatMul::DoMatMul`: the elapsed time -/

/-- The expression
`((pTimestamps[1] - pTimestamps[0]) * 1000000) / mTimestampFrequency` over
`UINT64`, for ticks below `2 ^ 64`; `none` when the frequency is zero (division
by zero). -/
def gpuTimeUS (beginTick endTick mTimestampFrequency : Nat) : Option Nat :=
  if mTimestampFrequency = 0 then none
  else
    some (wrap64 (wrap64 (endTick + 18446744073709551616 - beginTick) * 1000000)
      / mTimestampFrequency)

/-! ## Loops and vectors -/

/-- The loop `for (i = 0; i < n; ++i) body`, threading the state `s`; a body
that fails (`none`) ends the run. -/
def forLoop {σ : Type} (n : Nat) (body : Nat → σ → Option σ) (s : σ) : Option σ :=
  (List.range n).foldlM (fun st i => body i st) s

/-- The assignment `v[i] = a` on a `std::vector`; `none` when `i` is out of
bounds. -/
def vecSet {α : Type} (v : List α) (i : Nat) (a : α) : Option (List α) :=
  if i < v.length then some (v.set i a) else none

/-- The `int32_t` expression `a * b + c` of an index. -/
def index32 (a b c : Int) : Int := wrap32 (mul32 a b + c)

/-- The read `v[i]` at an `int32_t` index; `none` when `i` is out of bounds: a
negative index converts to a `size_t` beyond every size. -/
def vecGet {α : Type} (v : List α) (i : Int) : Option α :=
  if 0 ≤ i then v[i.toNat]? else none

/-- The assignment `v[i] = a` at an `int32_t` index; `none` when `i` is out of
bounds. -/
def vecSetAt {α : Type} (v : List α) (i : Int) (a : α) : Option (List α) :=
  if 0 ≤ i then vecSet v i.toNat a else none

/-- The construction `std::vector<T> v(count)` from an `int32_t` count, every
element `a`; `none` when the count is negative: it converts to a `size_t`
beyond `max_size()`, and the constructor throws. -/
def vecNew {α : Type} (count : Int) (a : α) : Option (List α) :=
  if 0 ≤ count then some (List.replicate count.toNat a) else none

/-! ## `D3D12MatMul::CheckGPUResult`: the CPU reference -/

/-- The arithmetic of the element type of the matrices: the value of the
literal `0`, addition and multiplication. -/
structure Arith (F : Type) where
  zero : F
  add : F → F → F
  mul : F → F → F

/-- Arithmetic of `float`. -/
def f32Arith : Arith F32 := ⟨f32OfInt32 0, f32Add, f32Mul⟩

/-- The three vectors that the CPU reference loop writes. -/
structure CpuState (F : Type) where
  outputDataCPU : List F
  inputData1 : List F
  inputData2 : List F

/-- The loop over `x1`: `inputData1[x1] = mInputData1[y * mK + x1]`. -/
def copyRow {F : Type} (mK : Int) (mInputData1 : List F) (y : Nat) (inputData1 : List F) :
    Option (List F) :=
  forLoop mK.toNat
    (fun x1 v => (vecGet mInputData1 (index32 y mK x1)).bind fun a => vecSet v x1 a) inputData1

/-- The loop over `x2`: `inputData2[x2] = mInputData2[x2 * mK + x]`. -/
def copyColumn {F : Type} (mK : Int) (mInputData2 : List F) (x : Nat) (inputData2 : List F) :
    Option (List F) :=
  forLoop mK.toNat
    (fun x2 v => (vecGet mInputData2 (index32 x2 mK x)).bind fun a => vecSet v x2 a) inputData2

/-- The loop over `outputIndex`:
`output += inputData1[outputIndex] * inputData2[outputIndex]`. -/
def accumulate {F : Type} (A : Arith F) (mK : Nat) (inputData1 inputData2 : List F) (output : F) :
    Option F :=
  forLoop mK (fun outputIndex out =>
    (inputData1[outputIndex]?).bind fun a =>
      (inputData2[outputIndex]?).bind fun b => some (A.add out (A.mul a b))) output

/-- The body of the loop over `x` for the cell `(y, x)`; the output index
`y * mN + x` is an `int32_t`. -/
def cpuCell {F : Type} (A : Arith F) (mN mK : Int) (mInputData1 mInputData2 : List F)
    (y x : Nat) (s : CpuState F) : Option (CpuState F) :=
  (copyRow mK mInputData1 y s.inputData1).bind fun inputData1 =>
    (copyColumn mK mInputData2 x s.inputData2).bind fun inputData2 =>
      (accumulate A mK.toNat inputData1 inputData2 A.zero).bind fun output =>
        (vecSetAt s.outputDataCPU (index32 y mN x) output).bind fun outputDataCPU =>
          some ⟨outputDataCPU, inputData1, inputData2⟩

/-- The CPU reference of `CheckGPUResult`: the vectors `outputDataCPU(mM * mN)`,
with the count an `int32_t` product, `inputData1(mK)` and `inputData2(mK)` start
filled with zeros, then the loops over `y` and `x` run.  The result is the
final `outputDataCPU`; `none` when a vector cannot be constructed or is indexed
out of bounds. -/
def cpuReference {F : Type} (A : Arith F) (mM mN mK : Int) (mInputData1 mInputData2 : List F) :
    Option (List F) :=
  (vecNew (mul32 mM mN) A.zero).bind fun outputDataCPU =>
    (vecNew mK A.zero).bind fun inputData1 =>
      (vecNew mK A.zero).bind fun inputData2 =>
        (forLoop mM.toNat
          (fun y s =>
            forLoop mN.toNat (fun x st => cpuCell A mN mK mInputData1 mInputData2 y x st) s)
          ⟨outputDataCPU, inputData1, inputData2⟩).map
          fun s => s.outputDataCPU

/-- The sum of the claim: starting from the value of `0`, the products
`a k * b k` are added for `k = 0, 1, .., mK - 1` in this order. -/
def accumulatedSum {F : Type} (A : Arith F) (mK : Nat) (a b : Nat → F) : F :=
  (List.range mK).foldl (fun acc k => A.add acc (A.mul (a k) (b k))) A.zero

/-- The value that the reference loop computes for the cell `(y, x)`: the
second factor is read at `k * mK + x`, as the source does. -/
def cellValue {F : Type} (A : Arith F) (mK : Nat) (mInputData1 mInputData2 : List F)
    (y x : Nat) : F :=
  accumulatedSum A mK (fun k => mInputData1.getD (y * mK + k) A.zero)
    (fun k => mInputData2.getD (k * mK + x) A.zero)

/-- Invariant of the reference loops: the scratch vectors keep their size,
`outputDataCPU` keeps its size, and the cells of the rows before `y` and of the
first `j` columns of row `y` hold their values. -/
def cpuInvariant {F : Type} (A : Arith F) (mM mN mK : Nat) (mInputData1 mInputData2 : List F)
    (y j : Nat) (s : CpuState F) : Prop :=
  s.inputData1.length = mK ∧ s.inputData2.length = mK ∧ s.outputDataCPU.length = mM * mN ∧
    ∀ y' x', x' < mN → (y' < y ∨ (y' = y ∧ x' < j)) →
      s.outputDataCPU[y' * mN + x']? = some (cellValue A mK mInputData1 mInputData2 y' x')

/-! ## `D3D12MatMul::CheckGPUResult`: the comparison -/

/-- The constant `kToleranceULP`. -/
def kToleranceULP : Nat := 3

/-- The constant `kToleranceInBytes = 1 << kToleranceULP`. -/
def kToleranceInBytes : Int := Int.ofNat (1 <<< kToleranceULP)

/-- The condition `abs(outputDataGPUBytes - outputDataCPUBytes) > kToleranceInBytes`
on the bit patterns of the GPU and the CPU value of a cell. -/
def exceedsTolerance (gpuBits cpuBits : Nat) : Bool :=
  decide (kToleranceInBytes < abs32 (sub32 (toInt32 gpuBits) (toInt32 cpuBits)))

/-- What `CheckGPUResult` prints while comparing: a line
`At (x, y): GPU: .. CPU: ..` with the two values of the cell, or the final
acceptance message. -/
inductive CheckLine where
  | mismatch (x y gpu cpu : Nat)
  | acceptable
deriving DecidableEq

/-- State of the comparison loop: the lines printed so far and the flag
`acceptGPUResult`. -/
structure CompareState where
  printed : List CheckLine
  acceptGPUResult : Bool
deriving DecidableEq

/-- The body of the comparison loop for the cell `(y, x)`; the index
`y * mN + x` of both reads is an `int32_t`. -/
def compareCell (mN : Int) (outputData outputDataCPU : List Nat) (y x : Nat)
    (s : CompareState) : Option CompareState :=
  (vecGet outputData (index32 y mN x)).bind fun gpu =>
    (vecGet outputDataCPU (index32 y mN x)).bind fun cpu =>
      if exceedsTolerance gpu cpu then
        some ⟨s.printed ++ [CheckLine.mismatch x y gpu cpu], false⟩
      else some s

/-- The two nested comparison loops, started with `acceptGPUResult = true`. -/
def compareLoop (mM mN : Int) (outputData outputDataCPU : List Nat) : Option CompareState :=
  forLoop mM.toNat
    (fun y s => forLoop mN.toNat (fun x st => compareCell mN outputData outputDataCPU y x st) s)
    ⟨[], true⟩

/-- Everything the comparison prints: the lines of the loop, then the
acceptance message when `acceptGPUResult` is still set. -/
def compareOutput (mM mN : Int) (outputData outputDataCPU : List Nat) : Option (List CheckLine) :=
  (compareLoop mM mN outputData outputDataCPU).map fun s =>
    if s.acceptGPUResult then s.printed ++ [CheckLine.acceptable] else s.printed

/-- The line for the cell `(y, x)`, when its comparison exceeds the tolerance. -/
def cellLine (mN : Nat) (outputData outputDataCPU : List Nat) (y x : Nat) : Option CheckLine :=
  if exceedsTolerance (outputData.getD (y * mN + x) 0) (outputDataCPU.getD (y * mN + x) 0) then
    some (CheckLine.mismatch x y (outputData.getD (y * mN + x) 0)
      (outputDataCPU.getD (y * mN + x) 0))
  else none

/-- The lines for the first `n` cells of row `y`, by increasing `x`. -/
def rowLines (mN : Nat) (outputData outputDataCPU : List Nat) (y n : Nat) : List CheckLine :=
  (List.range n).filterMap (cellLine mN outputData outputDataCPU y)

/-- The report of the claim: over all `mM * mN` cells in row-major order (rows
by increasing `y`, each row by increasing `x`), one line for each cell whose
comparison exceeds the tolerance. -/
def allLines (mM mN : Nat) (outputData outputDataCPU : List Nat) : List CheckLine :=
  (List.range mM).flatMap fun y => rowLines mN outputData outputDataCPU y mN

/-! ## The object `D3D12MatMul`: calls and state -/

/-- The buffers of the program. -/
inductive Buffer where
  | mConstantBuffer | mInputBuffer1 | mInputBuffer2 | mOutputBuffer | mTimestampBuffer
  | uploadBuffer1 | uploadBuffer2 | uploadBufferForConstantBufferData | readbackBuffer
deriving DecidableEq

/-- The resource states `D3D12_RESOURCE_STATE_*` that the program names. -/
inductive ResourceState where
  | COPY_DEST | NON_PIXEL_SHADER_RESOURCE | VERTEX_AND_CONSTANT_BUFFER
  | UNORDERED_ACCESS | COPY_SOURCE | GENERIC_READ
deriving DecidableEq

/-- The struct `INTCExtensionVersion`. -/
structure INTCExtensionVersion where
  HWFeatureLevel : Nat
  APIVersion : Nat
  Revision : Nat
deriving DecidableEq

/-- A call into Direct3D 12, the Intel extension library or the operating
system, with the arguments that the properties below speak about. -/
inductive Call where
  | INTC_LoadExtensionsLibrary
  | INTC_D3D12_GetSupportedVersions
  | INTC_D3D12_CreateDeviceExtensionContext (requested : INTCExtensionVersion)
  | INTC_D3D12_CreateCommandQueue_MAX_PERFORMANCE
  | CreateCommandQueue
  | GetTimestampFrequency
  | CreateFence (initialValue : Nat)
  | CreateEvent
  | Map (resource : Buffer)
  | Unmap (resource : Buffer)
  | CopyBufferRegion (dst src : Buffer)
  | ResourceBarrier (resource : Buffer) (before after : ResourceState)
  | Reset
  | Close
  | ExecuteCommandLists
  | Signal (value : Nat)
  | SetEventOnCompletion (value : Nat)
  | WaitForSingleObjectEx
  | EndQuery (index : Nat)
  | SetDescriptorHeaps
  | SetComputeRootSignature
  | SetComputeRootDescriptorTable (rootParameterIndex : Nat)
  | SetPipelineState
  | Dispatch
  | ResolveQueryData
deriving DecidableEq

/-- A `printf` of the class: a fixed text, or a text with formatted values. -/
inductive Printed where
  | text (s : String)
  | locating (required : INTCExtensionVersion)
  | located (found : INTCExtensionVersion)
  | noMatch (found required : INTCExtensionVersion)
  | deviceInfo
deriving DecidableEq

/-- The members of `D3D12MatMul` that the synchronisation and the queue
creation use, with the calls made and the lines printed so far. -/
structure D3D12MatMul where
  mINTCExtensionContext : Nat
  mFenceValue : Nat
  mTimestampFrequency : Nat
  calls : List Call
  printed : List Printed
deriving DecidableEq

/-- The struct `Settings`. -/
structure Settings where
  disableCommandThrottlePolicyExtension : Bool
deriving DecidableEq

/-- Results of the calls whose failure the constructor handles: `true` (or
`some`) stands for `SUCCEEDED`.  `createDeviceExtensionContext` gives, for the
requested version, the result and the pointer stored in
`mINTCExtensionContext`; `getSupportedVersions` gives the entries reported by
the second call of `INTC_D3D12_GetSupportedVersions`. -/
structure DeviceEnv where
  loadExtensionsLibrary : Bool
  getSupportedVersionsCount : Option Nat
  getSupportedVersions : Option (List INTCExtensionVersion)
  createDeviceExtensionContext : INTCExtensionVersion → Bool × Nat
  intcCreateCommandQueue : Bool
  createCommandQueue : Bool
  getTimestampFrequency : Option Nat
  createFence : Bool
  createEvent : Bool

/-- The exception thrown by `ThrowIfFailed`, at the named call. -/
inductive Fatal where
  | failed (call : Call)
deriving DecidableEq

/-- Appending calls to the record of the object. -/
def D3D12MatMul.call (s : D3D12MatMul) (cs : List Call) : D3D12MatMul :=
  { s with calls := s.calls ++ cs }

/-- Appending printed lines to the record of the object. -/
def D3D12MatMul.print (s : D3D12MatMul) (ps : List Printed) : D3D12MatMul :=
  { s with printed := s.printed ++ ps }

/-- The constant `kRequiredVersion` of `InitIntelExtension`. -/
def kRequiredVersion : INTCExtensionVersion := ⟨1, 0, 0⟩

/-- The loop of `InitIntelExtension` over the supported versions: the value
left in `intcExtensionInfo.RequestedExtensionVersion` (all zero when no entry
matches) and the lines printed. -/
def locateVersion : List INTCExtensionVersion → INTCExtensionVersion × List Printed
  | [] => (⟨0, 0, 0⟩, [])
  | v :: rest =>
    if kRequiredVersion.HWFeatureLevel ≤ v.HWFeatureLevel ∧
        kRequiredVersion.APIVersion ≤ v.APIVersion ∧
        kRequiredVersion.Revision ≤ v.Revision then
      (v, [Printed.located v])
    else
      ((locateVersion rest).1, Printed.noMatch v kRequiredVersion :: (locateVersion rest).2)

/-- The method `D3D12MatMul::InitIntelExtension`: its return value and the
object afterwards. -/
def InitIntelExtension (env : DeviceEnv) (s : D3D12MatMul) : Bool × D3D12MatMul :=
  let s1 := s.call [Call.INTC_LoadExtensionsLibrary]
  if env.loadExtensionsLibrary then
    let s2 := (s1.print [Printed.text "SUCCESS: INTC_LoadExtensionsLibrary succeeded.\n"]).call
      [Call.INTC_D3D12_GetSupportedVersions]
    match env.getSupportedVersionsCount with
    | none =>
      (false, s2.print [Printed.text "ERROR: INTC_D3D12_GetSupportedVersions 1 of 2 failed.\n"])
    | some _ =>
      let s3 := (s2.print
        [Printed.text "SUCCESS: INTC_D3D12_GetSupportedVersions 1 of 2 succeeded.\n"]).call
        [Call.INTC_D3D12_GetSupportedVersions]
      match env.getSupportedVersions with
      | none =>
        (false, s3.print [Printed.text "ERROR: INTC_D3D12_GetSupportedVersions 2 of 2 failed.\n"])
      | some versions =>
        let s4 := s3.print
          ([Printed.text "SUCCESS: INTC_D3D12_GetSupportedVersions 2 of 2 succeeded.\n",
            Printed.locating kRequiredVersion] ++ (locateVersion versions).2)
        let requested := (locateVersion versions).1
        let s5 := s4.call [Call.INTC_D3D12_CreateDeviceExtensionContext requested]
        if (env.createDeviceExtensionContext requested).1 then
          (true, { s5 with
            mINTCExtensionContext := (env.createDeviceExtensionContext requested).2 }.print
            [Printed.deviceInfo, Printed.text "Done reporting intcExtensionInfo\n\n"])
        else
          (false, { s5 with mINTCExtensionContext := 0 }.print
            [Printed.text "ERROR: INTC_D3D12_CreateDeviceExtensionContext failed.\n"])
  else
    (false, s1.print [Printed.text "ERROR: INTC_LoadExtensionsLibrary failed.\n"])

/-- The notice printed when the extension is not used. -/
def disabledNotice : Printed :=
  Printed.text "The Command Throttle Policy Extension is disabled.\n\n"

/-- The two lines printed when the extension is used. -/
def enabledNotice : List Printed :=
  [Printed.text "The Command Throttle Policy Extension is enabled.\n",
   Printed.text ("You can disable the Command Throttle Policy Extension with " ++
     "--disable-command-throttle-policy-extension.\n\n")]

/-- How a part of the constructor ends: the object with the calls made so
far, and the exception when a call under `ThrowIfFailed` failed. -/
structure Outcome where
  fatal : Option Fatal
  object : D3D12MatMul
deriving DecidableEq

/-- The method `D3D12MatMul::InitQueue`.  Each call under `ThrowIfFailed` is
looked up in `env`; a failed one ends the method with `Fatal`. -/
def InitQueue (env : DeviceEnv) (s : D3D12MatMul) : Outcome :=
  let create : Call :=
    if s.mINTCExtensionContext ≠ 0 then Call.INTC_D3D12_CreateCommandQueue_MAX_PERFORMANCE
    else Call.CreateCommandQueue
  let created : Bool :=
    if s.mINTCExtensionContext ≠ 0 then env.intcCreateCommandQueue else env.createCommandQueue
  let s1 := s.call [create]
  if created then
    let s2 := s1.call [Call.GetTimestampFrequency]
    match env.getTimestampFrequency with
    | none => ⟨some (Fatal.failed Call.GetTimestampFrequency), s2⟩
    | some frequency =>
      let s3 := { s2 with mTimestampFrequency := frequency }.call [Call.CreateFence 0]
      if env.createFence then
        let s4 := { s3 with mFenceValue := 1 }.call [Call.CreateEvent]
        if env.createEvent then ⟨none, s4⟩ else ⟨some (Fatal.failed Call.CreateEvent), s4⟩
      else ⟨some (Fatal.failed (Call.CreateFence 0)), s3⟩
  else ⟨some (Fatal.failed create), s1⟩

/-- The object when the body of the constructor starts: the default member
initialiser makes `mINTCExtensionContext` null, `mFenceValue` and
`mTimestampFrequency` are not initialised yet. -/
def newObject (fenceValue timestampFrequency : Nat) : D3D12MatMul :=
  ⟨0, fenceValue, timestampFrequency, [], []⟩

/-- The constructor `D3D12MatMul::D3D12MatMul` from the test of the settings
to the end of `InitQueue`; `s` is the object after `InitDevice`.  The operator
`||` does not evaluate `InitIntelExtension()` when the flag is set. -/
def constructQueue (env : DeviceEnv) (settings : Settings) (s : D3D12MatMul) : Outcome :=
  if settings.disableCommandThrottlePolicyExtension then
    InitQueue env (s.print [disabledNotice])
  else
    if (InitIntelExtension env s).1 then
      InitQueue env ((InitIntelExtension env s).2.print enabledNotice)
    else
      InitQueue env ((InitIntelExtension env s).2.print [disabledNotice])

/-- The method `D3D12MatMul::WaitForGPUCompletion`: signal the current fence
value, wait for it, then increment `mFenceValue` (a `UINT64`). -/
def WaitForGPUCompletion (s : D3D12MatMul) : D3D12MatMul :=
  { s with
    mFenceValue := wrap64 (s.mFenceValue + 1)
    calls := s.calls ++ [Call.Signal s.mFenceValue, Call.SetEventOnCompletion s.mFenceValue,
      Call.WaitForSingleObjectEx] }

/-- The method `D3D12MatMul::InitBufferData`, as the calls it makes. -/
def InitBufferData (s : D3D12MatMul) : D3D12MatMul :=
  WaitForGPUCompletion (s.call
    [Call.Map Buffer.uploadBuffer1, Call.Unmap Buffer.uploadBuffer1,
     Call.Map Buffer.uploadBuffer2, Call.Unmap Buffer.uploadBuffer2,
     Call.CopyBufferRegion Buffer.mInputBuffer1 Buffer.uploadBuffer1,
     Call.CopyBufferRegion Buffer.mInputBuffer2 Buffer.uploadBuffer2,
     Call.Map Buffer.uploadBufferForConstantBufferData,
     Call.Unmap Buffer.uploadBufferForConstantBufferData,
     Call.CopyBufferRegion Buffer.mConstantBuffer Buffer.uploadBufferForConstantBufferData,
     Call.ResourceBarrier Buffer.mInputBuffer1 ResourceState.COPY_DEST
       ResourceState.NON_PIXEL_SHADER_RESOURCE,
     Call.ResourceBarrier Buffer.mInputBuffer2 ResourceState.COPY_DEST
       ResourceState.NON_PIXEL_SHADER_RESOURCE,
     Call.ResourceBarrier Buffer.mConstantBuffer ResourceState.COPY_DEST
       ResourceState.VERTEX_AND_CONSTANT_BUFFER,
     Call.Close, Call.ExecuteCommandLists])

/-- The method `D3D12MatMul::DoMatMul`, as the calls it makes. -/
def DoMatMul (s : D3D12MatMul) : D3D12MatMul :=
  (WaitForGPUCompletion (s.call
    [Call.Reset, Call.EndQuery 0, Call.SetDescriptorHeaps, Call.SetComputeRootSignature,
     Call.SetComputeRootDescriptorTable 0, Call.SetComputeRootDescriptorTable 1,
     Call.SetComputeRootDescriptorTable 2, Call.SetPipelineState, Call.Dispatch,
     Call.EndQuery 1, Call.ResolveQueryData, Call.Close, Call.ExecuteCommandLists])).call
    [Call.Map Buffer.mTimestampBuffer, Call.Unmap Buffer.mTimestampBuffer]

/-- The method `D3D12MatMul::CheckGPUResult`, as the calls it makes. -/
def CheckGPUResult (s : D3D12MatMul) : D3D12MatMul :=
  (WaitForGPUCompletion (s.call
    [Call.Reset,
     Call.ResourceBarrier Buffer.mOutputBuffer ResourceState.UNORDERED_ACCESS
       ResourceState.COPY_SOURCE,
     Call.CopyBufferRegion Buffer.readbackBuffer Buffer.mOutputBuffer,
     Call.ResourceBarrier Buffer.mOutputBuffer ResourceState.COPY_SOURCE
       ResourceState.UNORDERED_ACCESS,
     Call.Close, Call.ExecuteCommandLists])).call
    [Call.Map Buffer.readbackBuffer, Call.Unmap Buffer.readbackBuffer]

/-- The methods that run after `InitQueue`. -/
inductive Method where
  | InitBufferData | DoMatMul | CheckGPUResult | WaitForGPUCompletion
deriving DecidableEq

/-- Running one method. -/
def runMethod : Method → D3D12MatMul → D3D12MatMul
  | Method.InitBufferData => InitBufferData
  | Method.DoMatMul => DoMatMul
  | Method.CheckGPUResult => CheckGPUResult
  | Method.WaitForGPUCompletion => WaitForGPUCompletion

/-- Running a sequence of methods, first to last. -/
def runMethods (ms : List Method) (s : D3D12MatMul) : D3D12MatMul :=
  ms.foldl (fun st m => runMethod m st) s

/-! ## `main` -/

/-- The lines of `PrintUsage`. -/
def PrintUsage : List String :=
  ["Supported command line parameters:\n",
   "--disable-command-throttle-policy-extension Don't use Command Throttle Policy Extension. " ++
     "By default we will set the command throttle policy to MAX_PERFORMANCE with Command " ++
     "Throttle Policy Extension.\n",
   "--check-gpu-result Do matrix multiplication on CPU and compare the result with the one on " ++
     "GPU.\n",
   "-h Print helper information.\n"]

/-- What `main` does with the class after the arguments are parsed. -/
inductive Action where
  | construct (settings : Settings)
  | DoMatMul
  | CheckGPUResult
deriving DecidableEq

/-- The outcome of `main`: the lines it prints itself, the steps it runs on
`D3D12MatMul`, and the value of its `return` statement (an exception thrown
by a step on the class is not part of this record). -/
structure MainResult where
  printed : List String
  actions : List Action
  exitCode : Int
deriving DecidableEq

/-- The loop of `main` over `argv[i]`, from the first argument not yet read,
with the current `checkGPUResult` and `settings`, followed by the rest of
`main` when the loop ends. -/
def mainLoop : List String → Bool → Settings → MainResult
  | [], checkGPUResult, settings =>
    ⟨[], [Action.construct settings, Action.DoMatMul] ++
      (if checkGPUResult then [Action.CheckGPUResult] else []), 0⟩
  | arg :: rest, checkGPUResult, settings =>
    if arg = "-h" then ⟨PrintUsage, [], 0⟩
    else if arg = "--disable-command-throttle-policy-extension" then
      mainLoop rest checkGPUResult { settings with disableCommandThrottlePolicyExtension := true }
    else if arg = "--check-gpu-result" then mainLoop rest true settings
    else ⟨("Unsupported command line parameter: " ++ arg ++ "\n\n") :: PrintUsage, [], 0⟩

/-- The function `main`; `argv` holds `argv[0]` (the program name) and the
arguments. -/
def main (argv : List String) : MainResult := mainLoop (argv.drop 1) false ⟨false⟩

/-- The calls of `InitIntelExtension`. -/
def isNegotiationCall : Call → Bool
  | Call.INTC_LoadExtensionsLibrary => true
  | Call.INTC_D3D12_GetSupportedVersions => true
  | Call.INTC_D3D12_CreateDeviceExtensionContext _ => true
  | _ => false

/-- One of the four calls of `InitIntelExtension` fails: loading the library,
either query of the supported versions, or the creation of the context for
the version that the loop over the supported versions selects. -/
def negotiationFails (env : DeviceEnv) : Prop :=
  env.loadExtensionsLibrary = false ∨ env.getSupportedVersionsCount = none ∨
    env.getSupportedVersions = none ∨
    ∃ versions, env.getSupportedVersions = some versions ∧
      (env.createDeviceExtensionContext (locateVersion versions).1).1 = false

/-! ## Sample inputs -/

/-- A device on which every call succeeds and the extension offers version
1.0.0, with the context stored at address 4096. -/
def sampleEnv : DeviceEnv where
  loadExtensionsLibrary := true
  getSupportedVersionsCount := some 1
  getSupportedVersions := some [⟨1, 0, 0⟩]
  createDeviceExtensionContext := fun _ => (true, 4096)
  intcCreateCommandQueue := true
  createCommandQueue := true
  getTimestampFrequency := some 1000000
  createFence := true
  createEvent := true

/-- A device without the extension library, every other call succeeding. -/
def plainEnv : DeviceEnv where
  loadExtensionsLibrary := false
  getSupportedVersionsCount := none
  getSupportedVersions := none
  createDeviceExtensionContext := fun _ => (false, 0)
  intcCreateCommandQueue := false
  createCommandQueue := true
  getTimestampFrequency := some 1000000
  createFence := true
  createEvent := true

/-! ## The product of an `mM x mK` and an `mK x mN` matrix -/

/-- The cell `(y, x)` of the product of an `mM x mK` and an `mK x mN` row-major
matrix, the sizes that the header gives for input 1 and input 2: the second
factor is the element `mInputData2[k * mN + x]`. -/
def productCell {F : Type} (A : Arith F) (mN mK : Nat) (mInputData1 mInputData2 : List F)
    (y x : Nat) : F :=
  accumulatedSum A mK (fun k => mInputData1.getD (y * mK + k) A.zero)
    (fun k => mInputData2.getD (k * mN + x) A.zero)

/-- The `mM x mN` row-major product, cell by cell. -/
def productMatrix {F : Type} (A : Arith F) (mM mN mK : Nat) (mInputData1 mInputData2 : List F) :
    List F :=
  (List.range mM).flatMap fun y =>
    (List.range mN).map fun x => productCell A mN mK mInputData1 mInputData2 y x

/-! ## `D3D12MatMul::InitBufferData`: the kernel parameters -/

/-- Conversion of an `int32_t` to `uint32_t`. -/
def toUInt32 (i : Int) : Nat := (i % 4294967296).toNat

/-- The struct `ConstantBufferData`, its members in the order of their
declaration: `M`, `K`, `N`, `TILE_K`. -/
structure ConstantBufferData where
  M : Nat
  K : Nat
  N : Nat
  TILE_K : Nat
deriving DecidableEq

/-- The 32-bit words of a `ConstantBufferData` in memory: four `uint32_t`
members without padding, each at the place of its declaration. -/
def ConstantBufferData.words (c : ConstantBufferData) : List Nat := [c.M, c.K, c.N, c.TILE_K]

/-- The value `sizeof(ConstantBufferData)`, in bytes. -/
def sizeofConstantBufferData : Nat := 4 * 4

/-- The assignments of `InitBufferData` to the mapped `ConstantBufferData`:
`M = mM`, `N = mN`, `K = mK`, `TILE_K = mTileK`. -/
def constantBufferData (mM mN mK mTileK : Int) : ConstantBufferData :=
  { M := toUInt32 mM, N := toUInt32 mN, K := toUInt32 mK, TILE_K := toUInt32 mTileK }

/-! ## `D3D12MatMul::CreateBuffers` and the buffers of the methods -/

/-- The heap types `D3D12_HEAP_TYPE_*` that the program names. -/
inductive HeapType where
  | DEFAULT | UPLOAD | READBACK
deriving DecidableEq

/-- The arguments of a call of `CreateBuffer`: heap type, size in bytes and
initial state. -/
structure BufferDesc where
  heapType : HeapType
  size : Nat
  initialState : ResourceState
deriving DecidableEq

/-- The expression `a * b * sizeof(float)` assigned to a `uint64_t`: the product
of the two `int32_t` members, converted to `size_t`, times 4. -/
def floatBytes (a b : Int) : Nat := wrap64 ((mul32 a b % 18446744073709551616).toNat * 4)

/-- The macro `D3D12_CONSTANT_BUFFER_DATA_PLACEMENT_ALIGNMENT` of `d3d12.h`,
which is not part of the repository: 256 bytes.  The definitions below take
the value as a parameter. -/
def D3D12_CONSTANT_BUFFER_DATA_PLACEMENT_ALIGNMENT : Nat := 256

/-- The method `D3D12MatMul::CreateBuffers`: the five buffers it creates, in
order, with the arguments of `CreateBuffer`; `alignment` is the macro
`D3D12_CONSTANT_BUFFER_DATA_PLACEMENT_ALIGNMENT`. -/
def CreateBuffers (alignment : Nat) (mM mN mK : Int) : List (Buffer × BufferDesc) :=
  [(Buffer.mConstantBuffer, ⟨HeapType.DEFAULT, alignment, ResourceState.COPY_DEST⟩),
   (Buffer.mInputBuffer1, ⟨HeapType.DEFAULT, floatBytes mM mK, ResourceState.COPY_DEST⟩),
   (Buffer.mInputBuffer2, ⟨HeapType.DEFAULT, floatBytes mK mN, ResourceState.COPY_DEST⟩),
   (Buffer.mOutputBuffer, ⟨HeapType.DEFAULT, floatBytes mM mN, ResourceState.UNORDERED_ACCESS⟩),
   (Buffer.mTimestampBuffer, ⟨HeapType.READBACK, 2 * 8, ResourceState.COPY_DEST⟩)]

/-- The three upload buffers that `InitBufferData` creates, in order, with the
arguments of `CreateBuffer`. -/
def uploadBuffers (mM mN mK : Int) : List (Buffer × BufferDesc) :=
  [(Buffer.uploadBuffer1, ⟨HeapType.UPLOAD, floatBytes mM mK, ResourceState.GENERIC_READ⟩),
   (Buffer.uploadBuffer2, ⟨HeapType.UPLOAD, floatBytes mK mN, ResourceState.GENERIC_READ⟩),
   (Buffer.uploadBufferForConstantBufferData,
     ⟨HeapType.UPLOAD, sizeofConstantBufferData, ResourceState.GENERIC_READ⟩)]

/-- The three calls of `CopyBufferRegion` in `InitBufferData`: destination,
source and number of bytes, in the order of the source text. -/
def uploadCopies (mM mN mK : Int) : List (Buffer × Buffer × Nat) :=
  [(Buffer.mInputBuffer1, Buffer.uploadBuffer1, floatBytes mM mK),
   (Buffer.mInputBuffer2, Buffer.uploadBuffer2, floatBytes mK mN),
   (Buffer.mConstantBuffer, Buffer.uploadBufferForConstantBufferData, sizeofConstantBufferData)]

/-- The readback buffer that `CheckGPUResult` creates. -/
def readbackBufferDesc (mM mN : Int) : BufferDesc :=
  ⟨HeapType.READBACK, floatBytes mM mN, ResourceState.COPY_DEST⟩

/-- The size with which a buffer of the list was created. -/
def createdSize (buffers : List (Buffer × BufferDesc)) (b : Buffer) : Option Nat :=
  (buffers.lookup b).map fun d => d.size

/-! ## `InitializeUploadBufferForInputBuffer`: the generated input -/

/-- The order `a ≤ b` of two floats, by cross multiplication. -/
def F32.le (a b : F32) : Prop := a.num * 2 ^ b.scale ≤ b.num * 2 ^ a.scale

/-- The order `a < b` of two floats, by cross multiplication. -/
def F32.lt (a b : F32) : Prop := a.num * 2 ^ b.scale < b.num * 2 ^ a.scale

/-- The order `a ≤ b` is decided by comparing the two integers. -/
instance (a b : F32) : Decidable (F32.le a b) := by unfold F32.le; infer_instance

/-- The order `a < b` is decided by comparing the two integers. -/
instance (a b : F32) : Decidable (F32.lt a b) := by unfold F32.lt; infer_instance

/-- The expression `static_cast<float>(rand()) / static_cast<float>(RAND_MAX)`
for the result `r` of `rand()`.  `RAND_MAX` is a macro of the C library and a
parameter here. -/
def inputElement (RAND_MAX r : Int) : Option F32 :=
  f32Div (f32OfInt32 r) (f32OfInt32 RAND_MAX)

/-- The vector that `InitializeUploadBufferForInputBuffer` fills:
`bufferSize / sizeof(float)` elements, the `i`-th from the `i`-th result
`rand i` of `rand()`. -/
def InitializeUploadBufferForInputBuffer (RAND_MAX : Int) (bufferSize : Nat) (rand : Nat → Int) :
    Option (List F32) :=
  (List.range (bufferSize / 4)).mapM fun i => inputElement RAND_MAX (rand i)

/-! ## The descriptor heap and the root descriptor tables -/

/-- The kinds of view: `D3D12_DESCRIPTOR_RANGE_TYPE_CBV`, `_SRV` and `_UAV`; a
view made by `CreateConstantBufferView`, `CreateShaderResourceView` or
`CreateUnorderedAccessView` has the kind of that name. -/
inductive DescriptorRangeType where
  | CBV | SRV | UAV
deriving DecidableEq

/-- A view written into the descriptor heap: the handle `ptr` it is written at,
its kind and the buffer it views. -/
structure DescriptorWrite where
  ptr : Nat
  rangeType : DescriptorRangeType
  resource : Buffer
deriving DecidableEq

/-- The field `NumDescriptors` of the heap made by `CreateDescriptorHeap`. -/
def heapNumDescriptors : Nat := 4

/-- The product `mCBVSRCUAVDescriptorSize * k` of the `uint32_t` member. -/
def descriptorOffset (mCBVSRCUAVDescriptorSize k : Nat) : Nat :=
  (mCBVSRCUAVDescriptorSize * k) % 4294967296

/-- The method `D3D12MatMul::CreateBufferViews`: the four views in the order in
which they are created, each at its CPU handle; `heapStart` is the result of
`GetCPUDescriptorHandleForHeapStart`. -/
def CreateBufferViews (heapStart mCBVSRCUAVDescriptorSize : Nat) : List DescriptorWrite :=
  [⟨heapStart, DescriptorRangeType.CBV, Buffer.mConstantBuffer⟩,
   ⟨wrap64 (heapStart + mCBVSRCUAVDescriptorSize), DescriptorRangeType.SRV,
     Buffer.mInputBuffer1⟩,
   ⟨wrap64 (heapStart + descriptorOffset mCBVSRCUAVDescriptorSize 2), DescriptorRangeType.SRV,
     Buffer.mInputBuffer2⟩,
   ⟨wrap64 (heapStart + descriptorOffset mCBVSRCUAVDescriptorSize 3), DescriptorRangeType.UAV,
     Buffer.mOutputBuffer⟩]

/-- The array `descriptorRanges` of `CreateRootSignature`: `RangeType` and
`NumDescriptors` of the range of root parameter 0, 1 and 2. -/
def descriptorRanges : List (DescriptorRangeType × Nat) :=
  [(DescriptorRangeType.CBV, 1), (DescriptorRangeType.SRV, 2), (DescriptorRangeType.UAV, 1)]

/-- The GPU handles that `DoMatMul` passes to `SetComputeRootDescriptorTable`
for the root parameters 0, 1 and 2; `heapStart` is the result of
`GetGPUDescriptorHandleForHeapStart`. -/
def rootDescriptorTables (heapStart mCBVSRCUAVDescriptorSize : Nat) : List Nat :=
  [heapStart, wrap64 (heapStart + mCBVSRCUAVDescriptorSize),
   wrap64 (heapStart + descriptorOffset mCBVSRCUAVDescriptorSize 3)]

/-- The descriptors that a table starting at the handle `table` covers with a
range of `n` descriptors of kind `t`: `n` consecutive handles, one descriptor
size apart. -/
def tableDescriptors (mCBVSRCUAVDescriptorSize table : Nat) (t : DescriptorRangeType) (n : Nat) :
    List (Nat × DescriptorRangeType) :=
  (List.range n).map fun j => (table + j * mCBVSRCUAVDescriptorSize, t)

/-- Every descriptor that the kernel reaches through the three root tables, in
the order of the root parameters, with the kind its range declares. -/
def boundDescriptors (heapStart mCBVSRCUAVDescriptorSize : Nat) :
    List (Nat × DescriptorRangeType) :=
  ((rootDescriptorTables heapStart mCBVSRCUAVDescriptorSize).zip descriptorRanges).flatMap
    fun p => tableDescriptors mCBVSRCUAVDescriptorSize p.1 p.2.1 p.2.2

/-! ## The run of the program and the states of its buffers -/

/-- The object after a run: the constructor from the test of the settings on
(`InitQueue`, then `InitResources`, which ends with `InitBufferData`), then
`DoMatMul`, then `checks` calls of `CheckGPUResult`; `main` makes one such call
with `--check-gpu-result` and none without.  An exception of `InitQueue` ends
the run; the calls of `InitResources` under `ThrowIfFailed` are taken to
succeed. -/
def runProgram (env : DeviceEnv) (settings : Settings) (checks fenceValue timestampFrequency : Nat) :
    D3D12MatMul :=
  match (constructQueue env settings (newObject fenceValue timestampFrequency)).fatal with
  | some _ => (constructQueue env settings (newObject fenceValue timestampFrequency)).object
  | none =>
    CheckGPUResult^[checks] (DoMatMul (InitBufferData
      (constructQueue env settings (newObject fenceValue timestampFrequency)).object))

/-- Every call of `CreateBuffer` in the program: the five of `CreateBuffers`,
the three of `InitBufferData` and the one of `CheckGPUResult`, which creates
its readback buffer anew on each call. -/
def createdBuffers (alignment : Nat) (mM mN mK : Int) : List (Buffer × BufferDesc) :=
  CreateBuffers alignment mM mN mK ++ uploadBuffers mM mN mK ++
    [(Buffer.readbackBuffer, readbackBufferDesc mM mN)]

/-- The state in which a buffer is created: the argument `initialState` of its
call of `CreateBuffer`. -/
def creationState (alignment : Nat) (mM mN mK : Int) (b : Buffer) : ResourceState :=
  match (createdBuffers alignment mM mN mK).lookup b with
  | some d => d.initialState
  | none => ResourceState.COPY_DEST

/-- A state from which a copy may read: `COPY_SOURCE`, or `GENERIC_READ`, the
state of a buffer on an upload heap, which includes it. -/
def readableByCopy : ResourceState → Bool
  | ResourceState.COPY_SOURCE => true
  | ResourceState.GENERIC_READ => true
  | _ => false

/-- The states of the buffers after a transition of `r` to `after`. -/
def setState (st : Buffer → ResourceState) (r : Buffer) (after : ResourceState) :
    Buffer → ResourceState :=
  fun b => if b = r then after else st b

/-- The effect of one call on the states of the buffers; `none` when the call
does not find a buffer in the state it needs: a barrier needs its buffer in
the state `before`, a copy its destination in `COPY_DEST` and its source
readable, the dispatch of the kernel the constant buffer, the two inputs and
the output in the states of their views, the resolve of the queries the
timestamp buffer in `COPY_DEST`. -/
def stepStates (st : Buffer → ResourceState) : Call → Option (Buffer → ResourceState)
  | Call.ResourceBarrier r before after =>
    if st r = before then some (setState st r after) else none
  | Call.CopyBufferRegion dst src =>
    if st dst = ResourceState.COPY_DEST ∧ readableByCopy (st src) = true then some st else none
  | Call.Dispatch =>
    if st Buffer.mConstantBuffer = ResourceState.VERTEX_AND_CONSTANT_BUFFER ∧
        st Buffer.mInputBuffer1 = ResourceState.NON_PIXEL_SHADER_RESOURCE ∧
        st Buffer.mInputBuffer2 = ResourceState.NON_PIXEL_SHADER_RESOURCE ∧
        st Buffer.mOutputBuffer = ResourceState.UNORDERED_ACCESS then some st else none
  | Call.ResolveQueryData =>
    if st Buffer.mTimestampBuffer = ResourceState.COPY_DEST then some st else none
  | _ => some st

/-- The states of the buffers after a sequence of calls, when each call found
the states it needs. -/
def replayStates (st : Buffer → ResourceState) (calls : List Call) :
    Option (Buffer → ResourceState) :=
  calls.foldlM stepStates st

/-- The transition barriers among a sequence of calls. -/
def barriersOf (calls : List Call) : List Call :=
  calls.filter fun c =>
    match c with
    | Call.ResourceBarrier _ _ _ => true
    | _ => false

/-! ## The command list between recording and completion -/

/-- Where the command list stands: open for recording; closed, with nothing in
flight; submitted by `ExecuteCommandLists`; submitted with the fence signalled
for the value `v`; submitted with the event armed for that value. -/
inductive ListPhase where
  | recording
  | closed
  | submitted
  | signalled (v : Nat)
  | waiting
deriving DecidableEq

/-- The calls that record a command into the list. -/
def isRecordedCommand : Call → Bool
  | Call.CopyBufferRegion _ _ => true
  | Call.ResourceBarrier _ _ _ => true
  | Call.EndQuery _ => true
  | Call.SetDescriptorHeaps => true
  | Call.SetComputeRootSignature => true
  | Call.SetComputeRootDescriptorTable _ => true
  | Call.SetPipelineState => true
  | Call.Dispatch => true
  | Call.ResolveQueryData => true
  | _ => false

/-- The effect of one call on the phase of the list; `none` when the call is
out of order.  After a submission only the three calls of
`WaitForGPUCompletion` are in order: the signal, the arming of the event for
the signalled value, and the wait; a submission needs a closed list, a `Reset`
too, and commands are recorded only into an open list. -/
def stepPhase : ListPhase → Call → Option ListPhase
  | ListPhase.submitted, Call.Signal v => some (ListPhase.signalled v)
  | ListPhase.submitted, _ => none
  | ListPhase.signalled v, Call.SetEventOnCompletion w =>
    if v = w then some ListPhase.waiting else none
  | ListPhase.signalled _, _ => none
  | ListPhase.waiting, Call.WaitForSingleObjectEx => some ListPhase.closed
  | ListPhase.waiting, _ => none
  | ListPhase.recording, Call.Close => some ListPhase.closed
  | ListPhase.recording, Call.ExecuteCommandLists => none
  | ListPhase.recording, Call.Reset => none
  | ListPhase.recording, _ => some ListPhase.recording
  | ListPhase.closed, Call.ExecuteCommandLists => some ListPhase.submitted
  | ListPhase.closed, Call.Reset => some ListPhase.recording
  | ListPhase.closed, Call.Close => none
  | ListPhase.closed, c => if isRecordedCommand c then none else some ListPhase.closed

/-- The phase of the list after a sequence of calls, when each was in order. -/
def replayPhase (p : ListPhase) (calls : List Call) : Option ListPhase :=
  calls.foldlM stepPhase p

/-- The submissions among a sequence of calls. -/
def submissionsOf (calls : List Call) : List Call :=
  calls.filter fun c =>
    match c with
    | Call.ExecuteCommandLists => true
    | _ => false


/-- The calls of `InitIntelExtension` and of `InitQueue`. -/
def isSetupCall : Call → Bool
  | Call.INTC_LoadExtensionsLibrary => true
  | Call.INTC_D3D12_GetSupportedVersions => true
  | Call.INTC_D3D12_CreateDeviceExtensionContext _ => true
  | Call.INTC_D3D12_CreateCommandQueue_MAX_PERFORMANCE => true
  | Call.CreateCommandQueue => true
  | Call.GetTimestampFrequency => true
  | Call.CreateFence _ => true
  | Call.CreateEvent => true
  | _ => false

/-- The states of the nine buffers, in the order of `Buffer`. -/
def snapshot (st : Buffer → ResourceState) : List ResourceState :=
  [st Buffer.mConstantBuffer, st Buffer.mInputBuffer1, st Buffer.mInputBuffer2,
   st Buffer.mOutputBuffer, st Buffer.mTimestampBuffer, st Buffer.uploadBuffer1,
   st Buffer.uploadBuffer2, st Buffer.uploadBufferForConstantBufferData,
   st Buffer.readbackBuffer]

/-! ## Machine arithmetic: lemmas -/

theorem wrap32_of_range (i : Int) (h1 : -2147483648 ≤ i) (h2 : i < 2147483648) :
    wrap32 i = i := by
  unfold wrap32; omega

theorem toInt32_low (b : Nat) (h : b < 2147483648) : toInt32 b = Int.ofNat b := by
  unfold toInt32 wrap32
  have : Int.ofNat b = (b : Int) := rfl
  omega

theorem toInt32_high (b : Nat) (h1 : 2147483648 ≤ b) (h2 : b < 4294967296) :
    toInt32 b = Int.ofNat b - 4294967296 := by
  unfold toInt32 wrap32
  have : Int.ofNat b = (b : Int) := rfl
  omega

theorem kToleranceInBytes_eq : kToleranceInBytes = 8 := by decide

/-- Without overflow the comparison is the mathematical one: when the
distance of the two signed values is below `2 ^ 31`, the cell is rejected
exactly when the distance exceeds 8. -/
theorem exceedsTolerance_of_small_distance (g c : Nat)
    (h : (toInt32 g - toInt32 c).natAbs < 2147483648) :
    exceedsTolerance g c = decide (8 < (toInt32 g - toInt32 c).natAbs) := by
  unfold exceedsTolerance abs32 sub32
  rw [kToleranceInBytes_eq]
  generalize toInt32 g - toInt32 c = d at h ⊢
  have h1 : wrap32 d = d := by
    unfold wrap32; omega
  rw [h1]
  have h0 : Int.ofNat d.natAbs = (d.natAbs : Int) := rfl
  have h2 : wrap32 (Int.ofNat d.natAbs) = Int.ofNat d.natAbs := by
    unfold wrap32; omega
  rw [h2, h0, decide_eq_decide]
  omega


/-! ## The comparison of one cell -/

/-- C3, evaluated at GPU value `-1.0f` (bits `0xBF800000`) against CPU value
`1.0f` (bits `0x3F800000`): the signed values are `-1082130432` and
`1065353216`, their distance `2147483648` is far above 8, the subtraction
gives `INT_MIN`, whose `abs` is `INT_MIN` again, so the comparison does not
reject the cell and the run over this single cell prints the acceptance
message. -/
theorem exceedsTolerance_sign_flip_accepted :
    toInt32 0xBF800000 = -1082130432 ∧ toInt32 0x3F800000 = 1065353216 ∧
    8 < (toInt32 0xBF800000 - toInt32 0x3F800000).natAbs ∧
    sub32 (toInt32 0xBF800000) (toInt32 0x3F800000) = -2147483648 ∧
    abs32 (-2147483648) = -2147483648 ∧
    exceedsTolerance 0xBF800000 0x3F800000 = false ∧
    compareOutput 1 1 [0xBF800000] [0x3F800000] = some [CheckLine.acceptable] := by
  decide

/-- C4: two 32-bit patterns with the same upper 29 bits are accepted by the
comparison of `CheckGPUResult`: the condition is false, so the cell prints
nothing and leaves `acceptGPUResult` as it was. -/
theorem exceedsTolerance_same_upper_bits (gpuBits cpuBits : Nat)
    (hg : gpuBits < 4294967296) (hc : cpuBits < 4294967296)
    (h : gpuBits / 8 = cpuBits / 8) :
    exceedsTolerance gpuBits cpuBits = false ∧
    ∀ (mN : Int) (y x : Nat) (outputData outputDataCPU : List Nat) (s : CompareState),
      vecGet outputData (index32 y mN x) = some gpuBits →
      vecGet outputDataCPU (index32 y mN x) = some cpuBits →
      compareCell mN outputData outputDataCPU y x s = some s := by
  have hd : (toInt32 gpuBits - toInt32 cpuBits).natAbs ≤ 7 := by
    have e1 : Int.ofNat gpuBits = (gpuBits : Int) := rfl
    have e2 : Int.ofNat cpuBits = (cpuBits : Int) := rfl
    by_cases hlow : gpuBits < 2147483648
    · have hlow2 : cpuBits < 2147483648 := by omega
      rw [toInt32_low _ hlow, toInt32_low _ hlow2, e1, e2]
      omega
    · have hhigh2 : 2147483648 ≤ cpuBits := by omega
      rw [toInt32_high _ (by omega) hg, toInt32_high _ hhigh2 hc, e1, e2]
      omega
  have hfalse : exceedsTolerance gpuBits cpuBits = false := by
    rw [exceedsTolerance_of_small_distance _ _ (by omega)]
    simp only [decide_eq_false_iff_not]
    omega
  refine ⟨hfalse, ?_⟩
  intro mN y x outputData outputDataCPU s h1 h2
  unfold compareCell
  rw [h1, h2]
  rw [Option.some_bind, Option.some_bind, hfalse]
  rfl

/-- Witness of C4: the patterns `0x3F800001` and `0x3F800006` differ in the low
three bits only. -/
theorem exceedsTolerance_same_upper_bits_witness :
    exceedsTolerance 0x3F800001 0x3F800006 = false ∧
    ∀ (mN : Int) (y x : Nat) (outputData outputDataCPU : List Nat) (s : CompareState),
      vecGet outputData (index32 y mN x) = some 0x3F800001 →
      vecGet outputDataCPU (index32 y mN x) = some 0x3F800006 →
      compareCell mN outputData outputDataCPU y x s = some s :=
  exceedsTolerance_same_upper_bits 0x3F800001 0x3F800006 (by decide) (by decide) (by decide)

/-! ## The elapsed time -/

/-- C6: for 64-bit ticks `beginTick ≤ endTick` and a non-zero frequency, when
`(endTick - beginTick) * 1000000` fits in 64 bits the elapsed time of
`DoMatMul` is `⌊(endTick - beginTick) * 1000000 / frequency⌋` microseconds; for
ticks 1000 and 5000 at 1000000 ticks per second it is 4000. -/
theorem gpuTimeUS_eq_floor (beginTick endTick frequency : Nat)
    (hle : beginTick ≤ endTick) (hfreq : 0 < frequency)
    (hmul : (endTick - beginTick) * 1000000 < 18446744073709551616) :
    gpuTimeUS beginTick endTick frequency = some ((endTick - beginTick) * 1000000 / frequency) ∧
    gpuTimeUS 1000 5000 1000000 = some 4000 := by
  refine ⟨?_, by decide⟩
  unfold gpuTimeUS wrap64
  have h1 : (endTick + 18446744073709551616 - beginTick) % 18446744073709551616
      = endTick - beginTick := by omega
  rw [if_neg (by omega), h1, Nat.mod_eq_of_lt hmul]

/-- Witness of C6 at ticks 1000 and 5000 and frequency 1000000. -/
theorem gpuTimeUS_eq_floor_witness :
    gpuTimeUS 1000 5000 1000000 = some ((5000 - 1000) * 1000000 / 1000000) ∧
    gpuTimeUS 1000 5000 1000000 = some 4000 :=
  gpuTimeUS_eq_floor 1000 5000 1000000 (by decide) (by decide) (by decide)


/-! ## The fence counter -/

theorem wrap64_of_lt (n : Nat) (h : n < 18446744073709551616) : wrap64 n = n := by
  unfold wrap64; omega

theorem InitQueue_mFenceValue (env : DeviceEnv) (s : D3D12MatMul)
    (hok : (InitQueue env s).fatal = none) : (InitQueue env s).object.mFenceValue = 1 := by
  unfold InitQueue at hok ⊢
  generalize (if s.mINTCExtensionContext ≠ 0 then env.intcCreateCommandQueue
    else env.createCommandQueue) = created at hok ⊢
  cases created <;> cases hf : env.getTimestampFrequency <;> cases h3 : env.createFence <;>
    cases h4 : env.createEvent <;> simp_all [D3D12MatMul.call]

theorem WaitForGPUCompletion_mFenceValue (s : D3D12MatMul) :
    (WaitForGPUCompletion s).mFenceValue = wrap64 (s.mFenceValue + 1) := rfl

theorem WaitForGPUCompletion_calls (s : D3D12MatMul) :
    (WaitForGPUCompletion s).calls = s.calls ++ [Call.Signal s.mFenceValue,
      Call.SetEventOnCompletion s.mFenceValue, Call.WaitForSingleObjectEx] := rfl

theorem runMethod_mFenceValue (m : Method) (s : D3D12MatMul) :
    (runMethod m s).mFenceValue = wrap64 (s.mFenceValue + 1) := by
  cases m <;> rfl

theorem iterate_mFenceValue (s : D3D12MatMul) (k : Nat) :
    (WaitForGPUCompletion^[k] s).mFenceValue = wrap64 (wrap64 s.mFenceValue + k) ∨
    (k = 0 ∧ (WaitForGPUCompletion^[k] s).mFenceValue = s.mFenceValue) := by
  induction k with
  | zero => right; exact ⟨rfl, rfl⟩
  | succ n ih =>
    left
    rw [Function.iterate_succ_apply', WaitForGPUCompletion_mFenceValue]
    rcases ih with h | ⟨h0, h⟩
    · rw [h]; unfold wrap64; omega
    · rw [h]; unfold wrap64; omega

theorem iterate_mFenceValue_of_lt (s : D3D12MatMul) (h : s.mFenceValue < 18446744073709551616)
    (k : Nat) : (WaitForGPUCompletion^[k] s).mFenceValue = wrap64 (s.mFenceValue + k) := by
  rcases iterate_mFenceValue s k with h1 | ⟨h0, h1⟩
  · rw [h1, wrap64_of_lt _ h]
  · rw [h1, h0, Nat.add_zero, wrap64_of_lt _ h]

theorem runMethods_mFenceValue (ms : List Method) (s : D3D12MatMul)
    (h : s.mFenceValue < 18446744073709551616) :
    (runMethods ms s).mFenceValue = wrap64 (s.mFenceValue + ms.length) := by
  unfold runMethods
  induction ms using List.reverseRecOn with
  | nil => simp [wrap64_of_lt _ h]
  | append_singleton l m ih =>
    rw [List.foldl_append, List.foldl_cons, List.foldl_nil, runMethod_mFenceValue, ih,
      List.length_append, List.length_singleton]
    unfold wrap64; omega

/-- C7, as stated, fails at `k = 2 ^ 64 - 1`: the counter is a `UINT64`, so after
that many calls it holds 0 and not `1 + k`. -/
theorem mFenceValue_wraps_to_zero :
    (InitQueue plainEnv (newObject 7 0)).fatal = none ∧
    (WaitForGPUCompletion^[18446744073709551615]
      (InitQueue plainEnv (newObject 7 0)).object).mFenceValue = 0 ∧
    (WaitForGPUCompletion^[18446744073709551615]
      (InitQueue plainEnv (newObject 7 0)).object).mFenceValue ≠ 1 + 18446744073709551615 := by
  have hok : (InitQueue plainEnv (newObject 7 0)).fatal = none := by decide
  have h1 := InitQueue_mFenceValue plainEnv (newObject 7 0) hok
  have h2 := iterate_mFenceValue_of_lt (InitQueue plainEnv (newObject 7 0)).object
    (by rw [h1]; decide) 18446744073709551615
  rw [h1] at h2
  have h3 : wrap64 (1 + 18446744073709551615) = 0 := by decide
  rw [h3] at h2
  refine ⟨hok, h2, ?_⟩
  rw [h2]
  decide

/-- C7 (amended): after `InitQueue` has set `mFenceValue` to 1, `k` calls of
`WaitForGPUCompletion` with `1 + k < 2 ^ 64` leave it at `1 + k`, and so does
every sequence of `k` methods of the class, each of which makes one such call
and touches the counter in no other way; for every number `j` of calls the
counter is `(1 + j) mod 2 ^ 64`. -/
theorem mFenceValue_after_calls (env : DeviceEnv) (s : D3D12MatMul)
    (hok : (InitQueue env s).fatal = none) (k : Nat) (hk : 1 + k < 18446744073709551616) :
    (WaitForGPUCompletion^[k] (InitQueue env s).object).mFenceValue = 1 + k ∧
    (∀ ms : List Method, ms.length = k →
      (runMethods ms (InitQueue env s).object).mFenceValue = 1 + k) ∧
    (∀ j : Nat, (WaitForGPUCompletion^[j] (InitQueue env s).object).mFenceValue
      = wrap64 (1 + j)) := by
  have h1 := InitQueue_mFenceValue env s hok
  have hlt : (InitQueue env s).object.mFenceValue < 18446744073709551616 := by rw [h1]; decide
  refine ⟨?_, ?_, ?_⟩
  · rw [iterate_mFenceValue_of_lt _ hlt, h1, wrap64_of_lt _ hk]
  · intro ms hms
    rw [runMethods_mFenceValue _ _ hlt, h1, hms, wrap64_of_lt _ hk]
  · intro j
    rw [iterate_mFenceValue_of_lt _ hlt, h1]

/-- Witness of C7 (amended): three calls after `InitQueue` on a device without
the extension. -/
theorem mFenceValue_after_calls_witness :
    (WaitForGPUCompletion^[3] (InitQueue plainEnv (newObject 7 0)).object).mFenceValue = 1 + 3 ∧
    (∀ ms : List Method, ms.length = 3 →
      (runMethods ms (InitQueue plainEnv (newObject 7 0)).object).mFenceValue = 1 + 3) ∧
    (∀ j : Nat, (WaitForGPUCompletion^[j] (InitQueue plainEnv (newObject 7 0)).object).mFenceValue
      = wrap64 (1 + j)) :=
  mFenceValue_after_calls plainEnv (newObject 7 0) (by decide) 3 (by decide)

/-- C8, as stated, fails at the first call (`k = 1`): it passes 1, the value
the counter had before the increment, to `Signal` and to
`SetEventOnCompletion`; the value after the increment, `1 + 1`, is passed to
neither. -/
theorem first_call_signals_old_value :
    (WaitForGPUCompletion^[1] (InitQueue plainEnv (newObject 7 0)).object).calls =
      (InitQueue plainEnv (newObject 7 0)).object.calls ++
        [Call.Signal 1, Call.SetEventOnCompletion 1, Call.WaitForSingleObjectEx] ∧
    (WaitForGPUCompletion^[1] (InitQueue plainEnv (newObject 7 0)).object).mFenceValue = 1 + 1 ∧
    Call.Signal (1 + 1) ∉
      (WaitForGPUCompletion^[1] (InitQueue plainEnv (newObject 7 0)).object).calls ∧
    Call.SetEventOnCompletion (1 + 1) ∉
      (WaitForGPUCompletion^[1] (InitQueue plainEnv (newObject 7 0)).object).calls := by
  decide

/-- C8 (amended): for `1 ≤ k < 2 ^ 64` the `k`-th call of `WaitForGPUCompletion`
after `InitQueue` finds the counter at `k`, passes that value (the initial
value plus `k - 1`, the counter before this call's increment) to `Signal` and
then to `SetEventOnCompletion`, waits, and only then increments the counter. -/
theorem kth_call_signals_old_value (env : DeviceEnv) (s : D3D12MatMul)
    (hok : (InitQueue env s).fatal = none) (k : Nat) (h1 : 1 ≤ k)
    (hk : k < 18446744073709551616) :
    (WaitForGPUCompletion^[k - 1] (InitQueue env s).object).mFenceValue = k ∧
    (WaitForGPUCompletion^[k] (InitQueue env s).object).calls =
      (WaitForGPUCompletion^[k - 1] (InitQueue env s).object).calls ++
        [Call.Signal k, Call.SetEventOnCompletion k, Call.WaitForSingleObjectEx] ∧
    (WaitForGPUCompletion^[k] (InitQueue env s).object).mFenceValue = wrap64 (k + 1) := by
  have hf := InitQueue_mFenceValue env s hok
  have hlt : (InitQueue env s).object.mFenceValue < 18446744073709551616 := by rw [hf]; decide
  obtain ⟨j, rfl⟩ : ∃ j, k = j + 1 := ⟨k - 1, by omega⟩
  have hj : (WaitForGPUCompletion^[j] (InitQueue env s).object).mFenceValue = j + 1 := by
    rw [iterate_mFenceValue_of_lt _ hlt, hf, wrap64_of_lt _ (by omega)]
    omega
  rw [Nat.add_sub_cancel, Function.iterate_succ_apply', WaitForGPUCompletion_calls,
    WaitForGPUCompletion_mFenceValue, hj]
  exact ⟨rfl, rfl, rfl⟩

/-- Witness of C8 (amended): the second call after `InitQueue`. -/
theorem kth_call_signals_old_value_witness :
    (WaitForGPUCompletion^[2 - 1] (InitQueue plainEnv (newObject 7 0)).object).mFenceValue = 2 ∧
    (WaitForGPUCompletion^[2] (InitQueue plainEnv (newObject 7 0)).object).calls =
      (WaitForGPUCompletion^[2 - 1] (InitQueue plainEnv (newObject 7 0)).object).calls ++
        [Call.Signal 2, Call.SetEventOnCompletion 2, Call.WaitForSingleObjectEx] ∧
    (WaitForGPUCompletion^[2] (InitQueue plainEnv (newObject 7 0)).object).mFenceValue
      = wrap64 (2 + 1) :=
  kth_call_signals_old_value plainEnv (newObject 7 0) (by decide) 2 (by decide) (by decide)

/-! ## The arguments of `main` -/

theorem mainLoop_stop (arg : String) (rest : List String) (checkGPUResult : Bool)
    (settings : Settings)
    (harg : arg = "-h" ∨ (arg ≠ "--disable-command-throttle-policy-extension" ∧
      arg ≠ "--check-gpu-result")) :
    mainLoop (arg :: rest) checkGPUResult settings =
      ⟨if arg = "-h" then PrintUsage
        else ("Unsupported command line parameter: " ++ arg ++ "\n\n") :: PrintUsage, [], 0⟩ := by
  unfold mainLoop
  by_cases h : arg = "-h"
  · rw [if_pos h, if_pos h]
  · rcases harg with h1 | ⟨h2, h3⟩
    · exact absurd h1 h
    · rw [if_neg h, if_neg h2, if_neg h3, if_neg h]

theorem mainLoop_skip (pre : List String) (tail : List String)
    (hpre : ∀ p ∈ pre, p = "--disable-command-throttle-policy-extension" ∨
      p = "--check-gpu-result") (checkGPUResult : Bool) (settings : Settings) :
    ∃ (c : Bool) (st : Settings),
      mainLoop (pre ++ tail) checkGPUResult settings = mainLoop tail c st := by
  induction pre generalizing checkGPUResult settings with
  | nil => exact ⟨checkGPUResult, settings, rfl⟩
  | cons p ps ih =>
    have hps : ∀ q ∈ ps, q = "--disable-command-throttle-policy-extension" ∨
        q = "--check-gpu-result" := fun q hq => hpre q (List.mem_cons_of_mem _ hq)
    rcases hpre p (List.mem_cons_self _ _) with h | h
    · subst h
      obtain ⟨c, st, hc⟩ := ih hps checkGPUResult
        { settings with disableCommandThrottlePolicyExtension := true }
      refine ⟨c, st, ?_⟩
      rw [List.cons_append, mainLoop, if_neg (by decide), if_pos rfl]
      exact hc
    · subst h
      obtain ⟨c, st, hc⟩ := ih hps true settings
      refine ⟨c, st, ?_⟩
      rw [List.cons_append, mainLoop, if_neg (by decide), if_neg (by decide), if_pos rfl]
      exact hc

theorem mainLoop_unrecognised (args : List String) (checkGPUResult : Bool) (settings : Settings)
    (h : ∃ a ∈ args, a ≠ "-h" ∧ a ≠ "--disable-command-throttle-policy-extension" ∧
      a ≠ "--check-gpu-result") :
    (mainLoop args checkGPUResult settings).exitCode = 0 ∧
      (mainLoop args checkGPUResult settings).actions = [] := by
  induction args generalizing checkGPUResult settings with
  | nil => obtain ⟨a, ha, _⟩ := h; simp at ha
  | cons arg rest ih =>
    unfold mainLoop
    by_cases h1 : arg = "-h"
    · rw [if_pos h1]; exact ⟨rfl, rfl⟩
    · rw [if_neg h1]
      have hrest : (arg = "--disable-command-throttle-policy-extension" ∨
          arg = "--check-gpu-result") →
          ∃ a ∈ rest, a ≠ "-h" ∧ a ≠ "--disable-command-throttle-policy-extension" ∧
            a ≠ "--check-gpu-result" := by
        intro harg
        obtain ⟨a, ha, hn1, hn2, hn3⟩ := h
        rcases List.mem_cons.1 ha with rfl | hmem
        · rcases harg with h' | h'
          · exact absurd h' hn2
          · exact absurd h' hn3
        · exact ⟨a, hmem, hn1, hn2, hn3⟩
      by_cases h2 : arg = "--disable-command-throttle-policy-extension"
      · rw [if_pos h2]; exact ih _ _ (hrest (Or.inl h2))
      · rw [if_neg h2]
        by_cases h3 : arg = "--check-gpu-result"
        · rw [if_pos h3]; exact ih _ _ (hrest (Or.inr h3))
        · rw [if_neg h3]; exact ⟨rfl, rfl⟩

/-- C9: when the arguments before `arg` are recognised flags and `arg` is `-h`
or is neither of the two flags, `main` prints the usage text (after the line
naming `arg` when it is not `-h`), returns 0 and neither constructs
`D3D12MatMul` nor runs `DoMatMul` or `CheckGPUResult`; and whenever an
unrecognised argument occurs anywhere among the arguments, `main` returns 0
without touching the class. -/
theorem main_stops_at_first_other_argument (program : String) (pre : List String)
    (arg : String) (rest : List String)
    (hpre : ∀ p ∈ pre, p = "--disable-command-throttle-policy-extension" ∨
      p = "--check-gpu-result")
    (harg : arg = "-h" ∨ (arg ≠ "--disable-command-throttle-policy-extension" ∧
      arg ≠ "--check-gpu-result")) :
    main (program :: (pre ++ arg :: rest)) =
      ⟨if arg = "-h" then PrintUsage
        else ("Unsupported command line parameter: " ++ arg ++ "\n\n") :: PrintUsage, [], 0⟩ ∧
    ∀ argv : List String,
      (∃ a ∈ argv.drop 1, a ≠ "-h" ∧ a ≠ "--disable-command-throttle-policy-extension" ∧
        a ≠ "--check-gpu-result") →
      (main argv).exitCode = 0 ∧ (main argv).actions = [] := by
  refine ⟨?_, fun argv h => mainLoop_unrecognised _ _ _ h⟩
  obtain ⟨c, st, h⟩ := mainLoop_skip pre (arg :: rest) hpre false ⟨false⟩
  unfold main
  rw [List.drop_one, List.tail_cons, h]
  exact mainLoop_stop arg rest c st harg

/-- Witness of C9: a recognised flag, then an unknown argument, then more. -/
theorem main_stops_at_first_other_argument_witness :
    main ("CmdThrottlePolicy.exe" :: (["--check-gpu-result"] ++ "--verbose" :: ["-h"])) =
      ⟨if "--verbose" = "-h" then PrintUsage
        else ("Unsupported command line parameter: " ++ "--verbose" ++ "\n\n") :: PrintUsage,
        [], 0⟩ ∧
    ∀ argv : List String,
      (∃ a ∈ argv.drop 1, a ≠ "-h" ∧ a ≠ "--disable-command-throttle-policy-extension" ∧
        a ≠ "--check-gpu-result") →
      (main argv).exitCode = 0 ∧ (main argv).actions = [] :=
  main_stops_at_first_other_argument "CmdThrottlePolicy.exe" ["--check-gpu-result"] "--verbose"
    ["-h"] (by decide) (by decide)

/-! ## The queue and the extension -/

theorem InitIntelExtension_false_iff (env : DeviceEnv) (s : D3D12MatMul) :
    (InitIntelExtension env s).1 = false ↔ negotiationFails env := by
  unfold InitIntelExtension negotiationFails
  cases h1 : env.loadExtensionsLibrary <;> cases h2 : env.getSupportedVersionsCount <;>
    cases h3 : env.getSupportedVersions <;> simp
  rename_i n versions
  cases h4 : (env.createDeviceExtensionContext (locateVersion versions).1).1 <;> simp

theorem InitIntelExtension_context_of_false (env : DeviceEnv) (s : D3D12MatMul)
    (hs : s.mINTCExtensionContext = 0) (h : (InitIntelExtension env s).1 = false) :
    (InitIntelExtension env s).2.mINTCExtensionContext = 0 := by
  unfold InitIntelExtension at h ⊢
  cases h1 : env.loadExtensionsLibrary <;> cases h2 : env.getSupportedVersionsCount <;>
    cases h3 : env.getSupportedVersions <;>
    simp_all [D3D12MatMul.call, D3D12MatMul.print]
  rename_i n versions
  cases h4 : (env.createDeviceExtensionContext (locateVersion versions).1).1 <;> simp_all

theorem InitIntelExtension_context_of_true (env : DeviceEnv) (s : D3D12MatMul)
    (hctx : ∀ v, (env.createDeviceExtensionContext v).1 = true →
      (env.createDeviceExtensionContext v).2 ≠ 0)
    (h : (InitIntelExtension env s).1 = true) :
    (InitIntelExtension env s).2.mINTCExtensionContext ≠ 0 := by
  unfold InitIntelExtension at h ⊢
  cases h1 : env.loadExtensionsLibrary <;> cases h2 : env.getSupportedVersionsCount <;>
    cases h3 : env.getSupportedVersions <;>
    simp_all [D3D12MatMul.call, D3D12MatMul.print]
  rename_i n versions
  cases h4 : (env.createDeviceExtensionContext (locateVersion versions).1).1
  · simp_all
  · simp only [h4, if_true]
    exact hctx _ h4

theorem InitIntelExtension_calls (env : DeviceEnv) (s : D3D12MatMul) :
    ∃ cs, (InitIntelExtension env s).2.calls = s.calls ++ cs ∧
      ∀ c ∈ cs, isNegotiationCall c = true := by
  unfold InitIntelExtension
  cases h1 : env.loadExtensionsLibrary <;> cases h2 : env.getSupportedVersionsCount <;>
    cases h3 : env.getSupportedVersions <;>
    simp [D3D12MatMul.call, D3D12MatMul.print, isNegotiationCall]
  rename_i n versions
  cases h4 : (env.createDeviceExtensionContext (locateVersion versions).1).1 <;>
    simp [isNegotiationCall]

theorem InitQueue_calls (env : DeviceEnv) (s : D3D12MatMul) :
    ∃ cs, (InitQueue env s).object.calls = s.calls ++
        (if s.mINTCExtensionContext ≠ 0 then Call.INTC_D3D12_CreateCommandQueue_MAX_PERFORMANCE
          else Call.CreateCommandQueue) :: cs ∧
      ∀ c ∈ cs, c = Call.GetTimestampFrequency ∨ c = Call.CreateFence 0 ∨ c = Call.CreateEvent := by
  unfold InitQueue
  generalize (if s.mINTCExtensionContext ≠ 0 then env.intcCreateCommandQueue
    else env.createCommandQueue) = created
  generalize (if s.mINTCExtensionContext ≠ 0 then Call.INTC_D3D12_CreateCommandQueue_MAX_PERFORMANCE
    else Call.CreateCommandQueue) = create
  cases created <;> cases hf : env.getTimestampFrequency <;> cases h3 : env.createFence <;>
    cases h4 : env.createEvent <;> simp [D3D12MatMul.call]

theorem InitQueue_context (env : DeviceEnv) (s : D3D12MatMul) :
    (InitQueue env s).object.mINTCExtensionContext = s.mINTCExtensionContext ∧
    (InitQueue env s).object.printed = s.printed := by
  unfold InitQueue
  generalize (if s.mINTCExtensionContext ≠ 0 then env.intcCreateCommandQueue
    else env.createCommandQueue) = created
  cases created <;> cases hf : env.getTimestampFrequency <;> cases h3 : env.createFence <;>
    cases h4 : env.createEvent <;> simp [D3D12MatMul.call]

theorem InitQueue_default_not_fatal (env : DeviceEnv) (s : D3D12MatMul)
    (hs : s.mINTCExtensionContext = 0) (h1 : env.createCommandQueue = true)
    (h2 : env.getTimestampFrequency ≠ none) (h3 : env.createFence = true)
    (h4 : env.createEvent = true) : (InitQueue env s).fatal = none := by
  unfold InitQueue
  cases hf : env.getTimestampFrequency with
  | none => exact absurd hf h2
  | some frequency => simp [hs, h1, h3, h4]

theorem constructQueue_flag_set (env : DeviceEnv) (settings : Settings) (s : D3D12MatMul)
    (h : settings.disableCommandThrottlePolicyExtension = true) :
    constructQueue env settings s = InitQueue env (s.print [disabledNotice]) := by
  unfold constructQueue; rw [if_pos h]

theorem constructQueue_enabled (env : DeviceEnv) (settings : Settings) (s : D3D12MatMul)
    (h : settings.disableCommandThrottlePolicyExtension = false)
    (hr : (InitIntelExtension env s).1 = true) :
    constructQueue env settings s
      = InitQueue env ((InitIntelExtension env s).2.print enabledNotice) := by
  unfold constructQueue; rw [if_neg (by simp [h]), if_pos hr]

theorem constructQueue_failed (env : DeviceEnv) (settings : Settings) (s : D3D12MatMul)
    (h : settings.disableCommandThrottlePolicyExtension = false)
    (hr : (InitIntelExtension env s).1 = false) :
    constructQueue env settings s
      = InitQueue env ((InitIntelExtension env s).2.print [disabledNotice]) := by
  unfold constructQueue; rw [if_neg (by simp [h]), if_neg (by simp [hr])]

/-- The queue calls and nothing else follow the calls already made when the
context is null. -/
theorem InitQueue_default_path (env : DeviceEnv) (s : D3D12MatMul)
    (hs : s.mINTCExtensionContext = 0)
    (hcalls : ∀ c ∈ s.calls, isNegotiationCall c = true) :
    Call.CreateCommandQueue ∈ (InitQueue env s).object.calls ∧
    Call.INTC_D3D12_CreateCommandQueue_MAX_PERFORMANCE ∉ (InitQueue env s).object.calls := by
  obtain ⟨cs, hc, hcs⟩ := InitQueue_calls env s
  rw [hc, if_neg (by simp [hs])]
  refine ⟨by simp, ?_⟩
  intro hmem
  rcases List.mem_append.1 hmem with h | h
  · have := hcalls _ h
    simp [isNegotiationCall] at this
  · rcases List.mem_cons.1 h with h | h
    · simp at h
    · rcases hcs _ h with h | h | h <;> simp at h

theorem InitQueue_vendor_path (env : DeviceEnv) (s : D3D12MatMul)
    (hs : s.mINTCExtensionContext ≠ 0)
    (hcalls : ∀ c ∈ s.calls, isNegotiationCall c = true) :
    Call.INTC_D3D12_CreateCommandQueue_MAX_PERFORMANCE ∈ (InitQueue env s).object.calls ∧
    Call.CreateCommandQueue ∉ (InitQueue env s).object.calls := by
  obtain ⟨cs, hc, hcs⟩ := InitQueue_calls env s
  rw [hc, if_pos hs]
  refine ⟨by simp, ?_⟩
  intro hmem
  rcases List.mem_append.1 hmem with h | h
  · have := hcalls _ h
    simp [isNegotiationCall] at this
  · rcases List.mem_cons.1 h with h | h
    · simp at h
    · rcases hcs _ h with h | h | h <;> simp at h

/-- C10: on a device whose successful `INTC_D3D12_CreateDeviceExtensionContext`
stores a non-null context, the constructor creates the queue with
`INTC_D3D12_CreateCommandQueue` and `MAX_PERFORMANCE` exactly when the disable
flag is unset and `InitIntelExtension` returns true, and with the default
`CreateCommandQueue` otherwise.  With the flag set no call of
`InitIntelExtension` is made and only the notice `disabled` is printed.
`InitIntelExtension` returns false exactly when one of its four calls fails;
then the context is null afterwards, the default path is taken, the notice
`disabled` is printed, and the constructor goes on without exception as long
as the calls of the default `InitQueue` succeed. -/
theorem queue_creation_path (env : DeviceEnv) (settings : Settings)
    (fenceValue timestampFrequency : Nat)
    (hctx : ∀ v, (env.createDeviceExtensionContext v).1 = true →
      (env.createDeviceExtensionContext v).2 ≠ 0) :
    (Call.INTC_D3D12_CreateCommandQueue_MAX_PERFORMANCE ∈
        (constructQueue env settings (newObject fenceValue timestampFrequency)).object.calls ↔
      settings.disableCommandThrottlePolicyExtension = false ∧
        (InitIntelExtension env (newObject fenceValue timestampFrequency)).1 = true) ∧
    (Call.CreateCommandQueue ∈
        (constructQueue env settings (newObject fenceValue timestampFrequency)).object.calls ↔
      ¬ (settings.disableCommandThrottlePolicyExtension = false ∧
        (InitIntelExtension env (newObject fenceValue timestampFrequency)).1 = true)) ∧
    (settings.disableCommandThrottlePolicyExtension = true →
      (∀ c ∈ (constructQueue env settings
          (newObject fenceValue timestampFrequency)).object.calls, isNegotiationCall c = false) ∧
      (constructQueue env settings (newObject fenceValue timestampFrequency)).object.printed
        = [disabledNotice]) ∧
    ((InitIntelExtension env (newObject fenceValue timestampFrequency)).1 = false ↔
      negotiationFails env) ∧
    (settings.disableCommandThrottlePolicyExtension = false → negotiationFails env →
      (constructQueue env settings
        (newObject fenceValue timestampFrequency)).object.mINTCExtensionContext = 0 ∧
      Call.CreateCommandQueue ∈
        (constructQueue env settings (newObject fenceValue timestampFrequency)).object.calls ∧
      disabledNotice ∈
        (constructQueue env settings (newObject fenceValue timestampFrequency)).object.printed ∧
      (env.createCommandQueue = true → env.getTimestampFrequency ≠ none →
        env.createFence = true → env.createEvent = true →
        (constructQueue env settings (newObject fenceValue timestampFrequency)).fatal = none)) := by
  have hiff := InitIntelExtension_false_iff env (newObject fenceValue timestampFrequency)
  obtain ⟨ncs, hncs, hneg⟩ := InitIntelExtension_calls env (newObject fenceValue timestampFrequency)
  have hnew : (newObject fenceValue timestampFrequency).calls = [] := rfl
  rw [hnew, List.nil_append] at hncs
  cases hflag : settings.disableCommandThrottlePolicyExtension with
  | true =>
    rw [constructQueue_flag_set env settings _ hflag]
    have hp := InitQueue_default_path env
      ((newObject fenceValue timestampFrequency).print [disabledNotice]) rfl
      (by intro c hc; simp [D3D12MatMul.print, newObject] at hc)
    obtain ⟨cs, hc, hcs⟩ := InitQueue_calls env
      ((newObject fenceValue timestampFrequency).print [disabledNotice])
    refine ⟨⟨fun h => absurd h hp.2, fun h => by simp at h⟩, ⟨fun _ => by simp, fun _ => hp.1⟩,
      fun _ => ⟨?_, ?_⟩, hiff, fun h => by simp at h⟩
    · intro c hmem
      rw [hc] at hmem
      simp only [D3D12MatMul.print, newObject, List.nil_append, List.mem_cons] at hmem
      rcases hmem with h | h
      · simp at h; rw [h]; rfl
      · rcases hcs _ h with h | h | h <;> rw [h] <;> rfl
    · rw [(InitQueue_context env _).2]; rfl
  | false =>
    cases hr : (InitIntelExtension env (newObject fenceValue timestampFrequency)).1 with
    | true =>
      rw [constructQueue_enabled env settings _ hflag hr]
      have hne := InitIntelExtension_context_of_true env _ hctx hr
      have hp := InitQueue_vendor_path env
        ((InitIntelExtension env (newObject fenceValue timestampFrequency)).2.print enabledNotice)
        hne (by intro c hc; exact hneg c (by simpa [D3D12MatMul.print, hncs] using hc))
      have hnf : ¬ negotiationFails env := by
        intro h; rw [← hiff, hr] at h; simp at h
      refine ⟨⟨fun _ => ⟨rfl, rfl⟩, fun _ => hp.1⟩, ⟨fun h => absurd h hp.2, fun h => by simp at h⟩,
        fun h => by simp at h, ?_, fun _ h => absurd h hnf⟩
      rw [hr] at hiff
      exact hiff
    | false =>
      rw [constructQueue_failed env settings _ hflag hr]
      have hz := InitIntelExtension_context_of_false env _ rfl hr
      have hp := InitQueue_default_path env
        ((InitIntelExtension env (newObject fenceValue timestampFrequency)).2.print
          [disabledNotice])
        hz (by intro c hc; exact hneg c (by simpa [D3D12MatMul.print, hncs] using hc))
      refine ⟨⟨fun h => absurd h hp.2, fun h => by simp at h⟩, ⟨fun _ => by simp, fun _ => hp.1⟩,
        fun h => by simp at h, ?_, fun _ _ => ⟨?_, hp.1, ?_, ?_⟩⟩
      · rw [hr] at hiff; exact hiff
      · rw [(InitQueue_context env _).1]; exact hz
      · rw [(InitQueue_context env _).2]; simp [D3D12MatMul.print]
      · intro h1 h2 h3 h4
        exact InitQueue_default_not_fatal env _ hz h1 h2 h3 h4

/-- Witness of C10: the device of `sampleEnv`, with the flag unset. -/
theorem queue_creation_path_witness :
    (∀ v, (sampleEnv.createDeviceExtensionContext v).1 = true →
      (sampleEnv.createDeviceExtensionContext v).2 ≠ 0) ∧
    (Call.INTC_D3D12_CreateCommandQueue_MAX_PERFORMANCE ∈
        (constructQueue sampleEnv ⟨false⟩ (newObject 7 0)).object.calls ↔
      (⟨false⟩ : Settings).disableCommandThrottlePolicyExtension = false ∧
        (InitIntelExtension sampleEnv (newObject 7 0)).1 = true) :=
  ⟨fun _ _ => Nat.succ_ne_zero 4095,
    (queue_creation_path sampleEnv ⟨false⟩ 7 0 (fun _ _ => Nat.succ_ne_zero 4095)).1⟩

/-! ## Loops -/

theorem forLoop_zero {σ : Type} (body : Nat → σ → Option σ) (s : σ) :
    forLoop 0 body s = some s := rfl

theorem forLoop_succ {σ : Type} (n : Nat) (body : Nat → σ → Option σ) (s : σ) :
    forLoop (n + 1) body s = (forLoop n body s).bind (body n) := by
  unfold forLoop
  rw [List.range_succ, List.foldlM_append]
  simp

/-- Loop rule: an invariant that holds at the start and is kept by every
iteration, each of which succeeds, holds at the end, and the loop succeeds. -/
theorem forLoop_invariant {σ : Type} (P : Nat → σ → Prop) (n : Nat)
    (body : Nat → σ → Option σ) (s : σ) (h0 : P 0 s)
    (hstep : ∀ i, i < n → ∀ st, P i st → ∃ st', body i st = some st' ∧ P (i + 1) st') :
    ∃ st, forLoop n body s = some st ∧ P n st := by
  induction n with
  | zero => exact ⟨s, rfl, h0⟩
  | succ m ih =>
    obtain ⟨st, hst, hP⟩ := ih (fun i hi => hstep i (Nat.lt_succ_of_lt hi))
    obtain ⟨st', hb, hP'⟩ := hstep m (Nat.lt_succ_self m) st hP
    exact ⟨st', by rw [forLoop_succ, hst]; exact hb, hP'⟩

theorem cell_index_lt (mM mN y x : Nat) (hy : y < mM) (hx : x < mN) : y * mN + x < mM * mN := by
  calc y * mN + x < y * mN + mN := by omega
    _ = (y + 1) * mN := by ring
    _ ≤ mM * mN := Nat.mul_le_mul_right mN hy

/-- A loop one of whose iterations fails on every state fails. -/
theorem forLoop_fails {σ : Type} (n : Nat) (body : Nat → σ → Option σ) (s : σ) (i : Nat)
    (hi : i < n) (hfail : ∀ st, body i st = none) : forLoop n body s = none := by
  induction n with
  | zero => exact absurd hi (Nat.not_lt_zero i)
  | succ m ih =>
    rw [forLoop_succ]
    by_cases him : i = m
    · subst him
      cases forLoop i body s with
      | none => rfl
      | some st => exact hfail st
    · rw [ih (by omega)]
      rfl

/-- An index that fits in `int32_t` is computed without overflow. -/
theorem index32_of_le (y n x : Nat) (h : y * n + x ≤ 2147483647) :
    index32 (y : Int) (n : Int) (x : Int) = ((y * n + x : Nat) : Int) := by
  unfold index32 mul32
  have h1 : (y : Int) * (n : Int) = ((y * n : Nat) : Int) := by push_cast; rfl
  have h2 : wrap32 ((y * n : Nat) : Int) = ((y * n : Nat) : Int) :=
    wrap32_of_range _ (by omega) (by omega)
  rw [h1, h2, wrap32_of_range _ (by omega) (by omega)]
  omega

/-- A read at an index that fits in `int32_t`. -/
theorem vecGet_index32 {α : Type} (v : List α) (y n x : Nat) (h : y * n + x ≤ 2147483647) :
    vecGet v (index32 (y : Int) (n : Int) (x : Int)) = v[y * n + x]? := by
  unfold vecGet
  rw [index32_of_le y n x h, if_pos (by omega), Int.toNat_ofNat]

/-- An assignment at an index that fits in `int32_t`. -/
theorem vecSetAt_index32 {α : Type} (v : List α) (y n x : Nat) (a : α)
    (h : y * n + x ≤ 2147483647) :
    vecSetAt v (index32 (y : Int) (n : Int) (x : Int)) a = vecSet v (y * n + x) a := by
  unfold vecSetAt
  rw [index32_of_le y n x h, if_pos (by omega), Int.toNat_ofNat]

/-- A vector of a count that fits in `int32_t`. -/
theorem vecNew_mul32 {α : Type} (m n : Nat) (a : α) (h : m * n ≤ 2147483647) :
    vecNew (mul32 (m : Int) (n : Int)) a = some (List.replicate (m * n) a) := by
  unfold vecNew mul32
  have h1 : (m : Int) * (n : Int) = ((m * n : Nat) : Int) := by push_cast; rfl
  rw [h1, wrap32_of_range _ (by omega) (by omega), if_pos (by omega), Int.toNat_ofNat]

/-- A vector of `n` elements. -/
theorem vecNew_natCast {α : Type} (n : Nat) (a : α) :
    vecNew (n : Int) a = some (List.replicate n a) := by
  unfold vecNew
  rw [if_pos (by omega), Int.toNat_ofNat]

/-! ## The comparison loop -/

theorem rowLines_succ (mN : Nat) (outputData outputDataCPU : List Nat) (y n : Nat) :
    rowLines mN outputData outputDataCPU y (n + 1) =
      rowLines mN outputData outputDataCPU y n ++
        (cellLine mN outputData outputDataCPU y n).toList := by
  unfold rowLines
  rw [List.range_succ, List.filterMap_append]
  cases h : cellLine mN outputData outputDataCPU y n <;> simp [h]

theorem allLines_succ (mM mN : Nat) (outputData outputDataCPU : List Nat) :
    allLines (mM + 1) mN outputData outputDataCPU =
      allLines mM mN outputData outputDataCPU ++ rowLines mN outputData outputDataCPU mM mN := by
  unfold allLines
  rw [List.range_succ, List.flatMap_append]
  simp

theorem compareCell_eq (mM mN : Nat) (outputData outputDataCPU : List Nat)
    (hb : mM * mN ≤ 2147483647)
    (hg : outputData.length = mM * mN) (hc : outputDataCPU.length = mM * mN)
    (y x : Nat) (hy : y < mM) (hx : x < mN) (pre : List CheckLine) :
    compareCell (mN : Int) outputData outputDataCPU y x ⟨pre, pre.isEmpty⟩ =
      some ⟨pre ++ (cellLine mN outputData outputDataCPU y x).toList,
        (pre ++ (cellLine mN outputData outputDataCPU y x).toList).isEmpty⟩ := by
  have hi := cell_index_lt mM mN y x hy hx
  have h1 : outputData[y * mN + x]? = some (outputData.getD (y * mN + x) 0) := by
    rw [List.getD_eq_getElem?_getD, List.getElem?_eq_getElem (by omega)]; rfl
  have h2 : outputDataCPU[y * mN + x]? = some (outputDataCPU.getD (y * mN + x) 0) := by
    rw [List.getD_eq_getElem?_getD, List.getElem?_eq_getElem (by omega)]; rfl
  unfold compareCell cellLine
  rw [vecGet_index32 _ y mN x (by omega), vecGet_index32 _ y mN x (by omega), h1, h2,
    Option.some_bind, Option.some_bind]
  cases hex : exceedsTolerance (outputData.getD (y * mN + x) 0)
      (outputDataCPU.getD (y * mN + x) 0)
  · simp
  · simp

theorem compareRow_eq (mM mN : Nat) (outputData outputDataCPU : List Nat)
    (hb : mM * mN ≤ 2147483647)
    (hg : outputData.length = mM * mN) (hc : outputDataCPU.length = mM * mN)
    (y : Nat) (hy : y < mM) (pre : List CheckLine) (n : Nat) (hn : n ≤ mN) :
    forLoop n (fun x st => compareCell (mN : Int) outputData outputDataCPU y x st)
        ⟨pre, pre.isEmpty⟩ =
      some ⟨pre ++ rowLines mN outputData outputDataCPU y n,
        (pre ++ rowLines mN outputData outputDataCPU y n).isEmpty⟩ := by
  induction n with
  | zero => simp [forLoop_zero, rowLines]
  | succ m ih =>
    rw [forLoop_succ, ih (by omega), Option.some_bind,
      compareCell_eq mM mN outputData outputDataCPU hb hg hc y m hy (by omega), rowLines_succ,
      List.append_assoc]

theorem compareRows_eq (mM mN : Nat) (outputData outputDataCPU : List Nat)
    (hb : mM * mN ≤ 2147483647)
    (hg : outputData.length = mM * mN) (hc : outputDataCPU.length = mM * mN)
    (m : Nat) (hm : m ≤ mM) :
    forLoop m (fun y s =>
        forLoop mN (fun x st => compareCell (mN : Int) outputData outputDataCPU y x st) s)
        ⟨[], true⟩ =
      some ⟨allLines m mN outputData outputDataCPU,
        (allLines m mN outputData outputDataCPU).isEmpty⟩ := by
  induction m with
  | zero => rfl
  | succ k ih =>
    rw [forLoop_succ, ih (by omega), Option.some_bind,
      compareRow_eq mM mN outputData outputDataCPU hb hg hc k (by omega) _ mN (Nat.le_refl _),
      allLines_succ]

theorem mem_rowLines (mN : Nat) (outputData outputDataCPU : List Nat) (y' n : Nat)
    (x y g c : Nat) :
    CheckLine.mismatch x y g c ∈ rowLines mN outputData outputDataCPU y' n ↔
      y = y' ∧ x < n ∧ g = outputData.getD (y * mN + x) 0 ∧
        c = outputDataCPU.getD (y * mN + x) 0 ∧ exceedsTolerance g c = true := by
  unfold rowLines cellLine
  simp only [List.mem_filterMap, List.mem_range]
  constructor
  · rintro ⟨a, ha, h⟩
    split at h
    · rename_i hex
      simp only [Option.some.injEq, CheckLine.mismatch.injEq] at h
      obtain ⟨rfl, rfl, rfl, rfl⟩ := h
      exact ⟨rfl, ha, rfl, rfl, hex⟩
    · simp at h
  · rintro ⟨rfl, hx, rfl, rfl, hex⟩
    exact ⟨x, hx, by rw [if_pos hex]⟩

theorem acceptable_not_mem_allLines (mM mN : Nat) (outputData outputDataCPU : List Nat) :
    CheckLine.acceptable ∉ allLines mM mN outputData outputDataCPU := by
  unfold allLines rowLines cellLine
  simp only [List.mem_flatMap, List.mem_filterMap, List.mem_range, not_exists, not_and]
  intro y _ x _ h
  split at h <;> simp at h

/-- C5, as stated, fails at `mM = mN = 46341`, whose product `2147488281` is
above `INT_MAX`: for the cell `(y, x) = (46340, 41708)` the index
`46340 * 46341 + 41708 = 2147483648` wraps to `-2147483648` in `int32_t`, the
read is outside both arrays of `mM * mN` elements, and the loop has no defined
result. -/
theorem compareLoop_index_overflows :
    (List.replicate (46341 * 46341) 1065353216).length = 46341 * 46341 ∧
    46340 * 46341 + 41708 < 46341 * 46341 ∧
    index32 46340 46341 41708 = -2147483648 ∧
    compareLoop 46341 46341 (List.replicate (46341 * 46341) 1065353216)
      (List.replicate (46341 * 46341) 1065353216) = none ∧
    compareOutput 46341 46341 (List.replicate (46341 * 46341) 1065353216)
      (List.replicate (46341 * 46341) 1065353216) = none := by
  have hcell : ∀ (outputData outputDataCPU : List Nat) (st : CompareState),
      compareCell 46341 outputData outputDataCPU 46340 41708 st = none := by
    intro outputData outputDataCPU st
    unfold compareCell vecGet
    rw [show index32 ((46340 : Nat) : Int) 46341 ((41708 : Nat) : Int) = -2147483648 by decide,
      if_neg (by decide)]
    rfl
  have hloop : ∀ outputData outputDataCPU : List Nat,
      compareLoop 46341 46341 outputData outputDataCPU = none := by
    intro outputData outputDataCPU
    unfold compareLoop
    exact forLoop_fails _ _ _ 46340 (by decide)
      (fun s => forLoop_fails _ _ s 41708 (by decide) (hcell outputData outputDataCPU))
  refine ⟨List.length_replicate _ _, by decide, by decide, hloop _ _, ?_⟩
  unfold compareOutput
  rw [hloop]
  rfl

/-- C5 (amended): for `int32_t` sizes `mM`, `mN` whose product is at most
`INT_MAX = 2147483647`, on result arrays of `mM * mN` elements the comparison
loop of `CheckGPUResult` runs through all cells without stopping and prints
exactly `allLines`: in row-major order, one line with `(x, y)` and both values
for each cell whose comparison exceeds the tolerance.  Afterwards
`acceptGPUResult` is set, and the acceptance message printed, exactly when no
such line was printed. -/
theorem compareLoop_reports_every_mismatch (mM mN : Nat) (outputData outputDataCPU : List Nat)
    (hM : mM ≤ 2147483647) (hN : mN ≤ 2147483647) (hb : mM * mN ≤ 2147483647)
    (hg : outputData.length = mM * mN) (hc : outputDataCPU.length = mM * mN) :
    compareLoop mM mN outputData outputDataCPU =
      some ⟨allLines mM mN outputData outputDataCPU,
        (allLines mM mN outputData outputDataCPU).isEmpty⟩ ∧
    compareOutput mM mN outputData outputDataCPU =
      some (allLines mM mN outputData outputDataCPU ++
        if allLines mM mN outputData outputDataCPU = [] then [CheckLine.acceptable] else []) ∧
    (∀ x y g c : Nat, CheckLine.mismatch x y g c ∈ allLines mM mN outputData outputDataCPU ↔
      y < mM ∧ x < mN ∧ outputData[y * mN + x]? = some g ∧
        outputDataCPU[y * mN + x]? = some c ∧ exceedsTolerance g c = true) ∧
    CheckLine.acceptable ∉ allLines mM mN outputData outputDataCPU := by
  have _ := hM
  have _ := hN
  have hrows := compareRows_eq mM mN outputData outputDataCPU hb hg hc mM (Nat.le_refl _)
  have hloop : compareLoop mM mN outputData outputDataCPU =
      some ⟨allLines mM mN outputData outputDataCPU,
        (allLines mM mN outputData outputDataCPU).isEmpty⟩ := by
    unfold compareLoop
    rw [Int.toNat_ofNat, Int.toNat_ofNat]
    exact hrows
  refine ⟨hloop, ?_, ?_, acceptable_not_mem_allLines mM mN outputData outputDataCPU⟩
  · unfold compareOutput
    rw [hloop, Option.map_some']
    cases h : allLines mM mN outputData outputDataCPU <;> simp
  · intro x y g c
    unfold allLines
    simp only [List.mem_flatMap, List.mem_range, mem_rowLines]
    constructor
    · rintro ⟨y', hy', rfl, hx, rfl, rfl, hex⟩
      have hi := cell_index_lt mM mN y x hy' hx
      refine ⟨hy', hx, ?_, ?_, hex⟩
      · rw [List.getD_eq_getElem?_getD, List.getElem?_eq_getElem (by omega)]; rfl
      · rw [List.getD_eq_getElem?_getD, List.getElem?_eq_getElem (by omega)]; rfl
    · rintro ⟨hy, hx, h1, h2, hex⟩
      refine ⟨y, hy, rfl, hx, ?_, ?_, hex⟩
      · rw [List.getD_eq_getElem?_getD, h1]; rfl
      · rw [List.getD_eq_getElem?_getD, h2]; rfl

/-- Witness of C5 (amended): a 2 x 2 result in which the cells `(x, y) = (1, 0)`
and `(0, 1)` are off by 9 and 16. -/
theorem compareLoop_reports_every_mismatch_witness :
    compareLoop 2 2 [1065353216, 1065353225, 1065353232, 1065353216]
        [1065353216, 1065353216, 1065353216, 1065353220] =
      some ⟨[CheckLine.mismatch 1 0 1065353225 1065353216,
        CheckLine.mismatch 0 1 1065353232 1065353216], false⟩ ∧
    compareOutput 2 2 [1065353216, 1065353225, 1065353232, 1065353216]
        [1065353216, 1065353216, 1065353216, 1065353220] =
      some [CheckLine.mismatch 1 0 1065353225 1065353216,
        CheckLine.mismatch 0 1 1065353232 1065353216] := by
  have h := compareLoop_reports_every_mismatch 2 2
    [1065353216, 1065353225, 1065353232, 1065353216]
    [1065353216, 1065353216, 1065353216, 1065353220] (by decide) (by decide) (by decide)
    (by decide) (by decide)
  have hl : allLines 2 2 [1065353216, 1065353225, 1065353232, 1065353216]
      [1065353216, 1065353216, 1065353216, 1065353220] =
      [CheckLine.mismatch 1 0 1065353225 1065353216,
        CheckLine.mismatch 0 1 1065353232 1065353216] := by decide
  rw [hl] at h
  exact ⟨h.1, h.2.1⟩

/-! ## The CPU reference -/

/-- A loop that stores `val i` in `v[i]` for every `i < n` succeeds on a vector
of at least `n` elements and leaves these values in it. -/
theorem fill_loop {F : Type} (n : Nat) (src : Nat → Option F) (val : Nat → F) (v : List F)
    (hv : n ≤ v.length) (hsrc : ∀ i, i < n → src i = some (val i)) :
    ∃ w, forLoop n (fun i u => (src i).bind fun a => vecSet u i a) v = some w ∧
      w.length = v.length ∧ ∀ i, i < n → w[i]? = some (val i) := by
  have h := forLoop_invariant
    (fun j (u : List F) => u.length = v.length ∧ ∀ i, i < j → u[i]? = some (val i)) n
    (fun i u => (src i).bind fun a => vecSet u i a) v
    ⟨rfl, fun i hi => absurd hi (Nat.not_lt_zero i)⟩
    (by
      intro i hi u ⟨hlen, hu⟩
      refine ⟨u.set i (val i), ?_, ?_, ?_⟩
      · beta_reduce
        rw [hsrc i hi, Option.some_bind]
        unfold vecSet
        rw [if_pos (by omega)]
      · rw [List.length_set, hlen]
      · intro j hj
        by_cases hji : i = j
        · subst hji
          rw [List.getElem?_set_self (by omega)]
        · rw [List.getElem?_set_ne hji]
          exact hu j (by omega))
  obtain ⟨w, hw, hlen, hvals⟩ := h
  exact ⟨w, hw, hlen, hvals⟩

theorem accumulate_eq {F : Type} (A : Arith F) (mK : Nat) (v1 v2 : List F) (a b : Nat → F)
    (h1 : ∀ k, k < mK → v1[k]? = some (a k)) (h2 : ∀ k, k < mK → v2[k]? = some (b k))
    (n : Nat) (hn : n ≤ mK) :
    accumulate A n v1 v2 A.zero = some (accumulatedSum A n a b) := by
  unfold accumulate accumulatedSum
  induction n with
  | zero => rfl
  | succ m ih =>
    rw [forLoop_succ, ih (by omega), Option.some_bind, h1 m (by omega), h2 m (by omega),
      Option.some_bind, Option.some_bind, List.range_succ, List.foldl_append]
    rfl

theorem getElem?_of_lt_getD {F : Type} (l : List F) (i : Nat) (d : F) (h : i < l.length) :
    l[i]? = some (l.getD i d) := by
  rw [List.getD_eq_getElem?_getD, List.getElem?_eq_getElem h]; rfl

/-- One cell of the reference: when the indices it reads are in bounds, the
body of the loop succeeds, stores `cellValue` at `y * mN + x` and leaves the
rest of `outputDataCPU` alone. -/
theorem cpuCell_eq {F : Type} (A : Arith F) (mN mK : Nat) (mInputData1 mInputData2 : List F)
    (y x : Nat) (s : CpuState F)
    (hb1 : mInputData1.length ≤ 2147483648) (hb2 : mInputData2.length ≤ 2147483648)
    (hb3 : s.outputDataCPU.length ≤ 2147483648)
    (hrow : ∀ k, k < mK → y * mK + k < mInputData1.length)
    (hcol : ∀ k, k < mK → k * mK + x < mInputData2.length)
    (hs1 : s.inputData1.length = mK) (hs2 : s.inputData2.length = mK)
    (hout : y * mN + x < s.outputDataCPU.length) :
    ∃ s', cpuCell A (mN : Int) (mK : Int) mInputData1 mInputData2 y x s = some s' ∧
      s'.outputDataCPU = s.outputDataCPU.set (y * mN + x)
        (cellValue A mK mInputData1 mInputData2 y x) ∧
      s'.inputData1.length = mK ∧ s'.inputData2.length = mK := by
  obtain ⟨w1, hw1, hl1, hv1⟩ := fill_loop mK
    (fun x1 => vecGet mInputData1 (index32 (y : Int) (mK : Int) (x1 : Int)))
    (fun k => mInputData1.getD (y * mK + k) A.zero) s.inputData1 (by omega)
    (fun i hi => by
      have := hrow i hi
      beta_reduce
      rw [vecGet_index32 _ y mK i (by omega)]
      exact getElem?_of_lt_getD _ _ _ this)
  obtain ⟨w2, hw2, hl2, hv2⟩ := fill_loop mK
    (fun x2 => vecGet mInputData2 (index32 (x2 : Int) (mK : Int) (x : Int)))
    (fun k => mInputData2.getD (k * mK + x) A.zero) s.inputData2 (by omega)
    (fun i hi => by
      have := hcol i hi
      beta_reduce
      rw [vecGet_index32 _ i mK x (by omega)]
      exact getElem?_of_lt_getD _ _ _ this)
  refine ⟨⟨s.outputDataCPU.set (y * mN + x) (cellValue A mK mInputData1 mInputData2 y x),
    w1, w2⟩, ?_, rfl, by rw [hl1, hs1], by rw [hl2, hs2]⟩
  unfold cpuCell copyRow copyColumn
  rw [Int.toNat_ofNat, hw1, Option.some_bind, hw2, Option.some_bind,
    accumulate_eq A mK w1 w2 _ _ hv1 hv2 mK (Nat.le_refl _), Option.some_bind,
    vecSetAt_index32 _ y mN x _ (by omega)]
  unfold vecSet
  rw [if_pos hout, Option.some_bind]
  rfl

theorem cpuRow_invariant {F : Type} (A : Arith F) (mM mN mK : Nat)
    (mInputData1 mInputData2 : List F)
    (hMN : mM * mN ≤ 2147483647) (hMK : mM * mK ≤ 2147483647)
    (hb2 : mInputData2.length ≤ 2147483648)
    (h1 : mInputData1.length = mM * mK)
    (h2 : ∀ k x, k < mK → x < mN → k * mK + x < mInputData2.length)
    (y : Nat) (hy : y < mM) (s : CpuState F)
    (hs : cpuInvariant A mM mN mK mInputData1 mInputData2 y 0 s) :
    ∃ s', forLoop mN (fun x st => cpuCell A (mN : Int) (mK : Int) mInputData1 mInputData2 y x st)
        s = some s' ∧
      cpuInvariant A mM mN mK mInputData1 mInputData2 (y + 1) 0 s' := by
  obtain ⟨s', hrun, hinv⟩ := forLoop_invariant
    (fun j st => cpuInvariant A mM mN mK mInputData1 mInputData2 y j st) mN
    (fun x st => cpuCell A (mN : Int) (mK : Int) mInputData1 mInputData2 y x st) s hs
    (by
      intro j hj st ⟨hl1, hl2, hlo, hcells⟩
      obtain ⟨st', hcell, hout, hl1', hl2'⟩ := cpuCell_eq A mN mK mInputData1 mInputData2 y j st
        (by omega) hb2 (by omega)
        (fun k hk => by rw [h1]; exact cell_index_lt mM mK y k hy hk)
        (fun k hk => h2 k j hk hj) hl1 hl2
        (by rw [hlo]; exact cell_index_lt mM mN y j hy hj)
      refine ⟨st', hcell, hl1', hl2', by rw [hout, List.length_set, hlo], ?_⟩
      intro y' x' hx' hreg
      rw [hout]
      by_cases hsame : y * mN + j = y' * mN + x'
      · have hyy : y' = y := by
          rcases hreg with hlt | ⟨heq, _⟩
          · have := cell_index_lt y mN y' x' hlt hx'
            omega
          · exact heq
        subst hyy
        have hxj : x' = j := by omega
        subst hxj
        rw [List.getElem?_set_self (by rw [hlo]; exact cell_index_lt mM mN y' x' hy hx')]
      · rw [List.getElem?_set_ne hsame]
        apply hcells y' x' hx'
        rcases hreg with hlt | ⟨heq, hlt⟩
        · exact Or.inl hlt
        · refine Or.inr ⟨heq, ?_⟩
          subst heq
          have : x' ≠ j := fun h => hsame (by rw [h])
          omega)
  refine ⟨s', hrun, hinv.1, hinv.2.1, hinv.2.2.1, ?_⟩
  intro y' x' hx' hreg
  apply hinv.2.2.2 y' x' hx'
  rcases hreg with hlt | ⟨_, hlt⟩
  · by_cases hyy : y' = y
    · exact Or.inr ⟨hyy, hx'⟩
    · exact Or.inl (by omega)
  · exact absurd hlt (Nat.not_lt_zero _)

/-- The reference loops on `mM x mK` and `mK x mN` sizes: when every index
`k * mK + x` that the loop over `x2` reads is inside `mInputData2`, the loops
succeed and every cell `(y, x)` of the result holds `cellValue`. -/
theorem cpuReference_cells {F : Type} (A : Arith F) (mM mN mK : Nat)
    (mInputData1 mInputData2 : List F)
    (hMN : mM * mN ≤ 2147483647) (hMK : mM * mK ≤ 2147483647)
    (hb2 : mInputData2.length ≤ 2147483648)
    (h1 : mInputData1.length = mM * mK)
    (h2 : ∀ k x, k < mK → x < mN → k * mK + x < mInputData2.length) :
    ∃ out, cpuReference A (mM : Int) (mN : Int) (mK : Int) mInputData1 mInputData2 = some out ∧
      out.length = mM * mN ∧
      ∀ y x, y < mM → x < mN →
        out[y * mN + x]? = some (cellValue A mK mInputData1 mInputData2 y x) := by
  obtain ⟨s, hrun, hinv⟩ := forLoop_invariant
    (fun y st => cpuInvariant A mM mN mK mInputData1 mInputData2 y 0 st) mM
    (fun y st => forLoop mN
      (fun x st' => cpuCell A (mN : Int) (mK : Int) mInputData1 mInputData2 y x st') st)
    ⟨List.replicate (mM * mN) A.zero, List.replicate mK A.zero, List.replicate mK A.zero⟩
    ⟨List.length_replicate _ _, List.length_replicate _ _, List.length_replicate _ _,
      fun y' x' _ hreg => by
        rcases hreg with h | ⟨_, h⟩ <;> exact absurd h (Nat.not_lt_zero _)⟩
    (fun y hy st hst =>
      cpuRow_invariant A mM mN mK mInputData1 mInputData2 hMN hMK hb2 h1 h2 y hy st hst)
  refine ⟨s.outputDataCPU, ?_, hinv.2.2.1, ?_⟩
  · unfold cpuReference
    rw [vecNew_mul32 mM mN _ hMN, vecNew_natCast, Option.some_bind, Option.some_bind,
      Option.some_bind, Int.toNat_ofNat, Int.toNat_ofNat, hrun]
    rfl
  · intro y x hy hx
    exact hinv.2.2.2 y x hx (Or.inl hy)

/-- C2, as stated, fails at `n = 46341`: the element count `mM * mN` of
`outputDataCPU` is an `int32_t` product, `46341 * 46341 = 2147488281` is above
`INT_MAX` and wraps to `-2147479015`, a vector of that count cannot be
constructed, and no cell is stored, whatever the two `n x n` inputs are. -/
theorem cpuReference_count_overflows :
    (List.replicate (46341 * 46341) (f32OfInt32 1)).length = 46341 * 46341 ∧
    mul32 46341 46341 = -2147479015 ∧
    vecNew (mul32 46341 46341) (f32OfInt32 0) = none ∧
    cpuReference f32Arith 46341 46341 46341 (List.replicate (46341 * 46341) (f32OfInt32 1))
      (List.replicate (46341 * 46341) (f32OfInt32 1)) = none := by
  have hnew : vecNew (mul32 46341 46341) (f32OfInt32 0) = none := by decide
  refine ⟨List.length_replicate _ _, by decide, hnew, ?_⟩
  unfold cpuReference
  rw [show f32Arith.zero = f32OfInt32 0 from rfl, hnew]
  rfl

/-- C2 (amended): for `n ≤ 46340`, the sizes whose square fits in `int32_t`, and
`n x n` row-major inputs (`mM = mN = mK = n`) the CPU reference loop of
`CheckGPUResult` succeeds and stores in `outputDataCPU[y * n + x]`, for every
cell `(y, x)`, the sum accumulated from 0 in increasing `k` of
`input1[y * n + k] * input2[k * n + x]`, whatever the arithmetic of the element
type; in `float` arithmetic, `n = 2`, `input1 = [1, 2, 3, 4]` and
`input2 = [5, 6, 7, 8]` give `[19, 22, 43, 50]`. -/
theorem cpuReference_square {F : Type} (A : Arith F) (n : Nat) (input1 input2 : List F)
    (hn : n ≤ 46340)
    (h1 : input1.length = n * n) (h2 : input2.length = n * n) :
    (∃ out, cpuReference A n n n input1 input2 = some out ∧ out.length = n * n ∧
      ∀ y x, y < n → x < n →
        out[y * n + x]? = some (accumulatedSum A n (fun k => input1.getD (y * n + k) A.zero)
          (fun k => input2.getD (k * n + x) A.zero))) ∧
    cpuReference f32Arith 2 2 2 ([1, 2, 3, 4].map f32OfInt32) ([5, 6, 7, 8].map f32OfInt32) =
      some ([19, 22, 43, 50].map f32OfInt32) := by
  have hb : n * n ≤ 2147483647 :=
    Nat.le_trans (Nat.mul_le_mul hn hn) (by decide)
  refine ⟨?_, by decide⟩
  exact cpuReference_cells A n n n input1 input2 hb hb (by omega) h1
    (fun k x hk hx => by rw [h2]; exact cell_index_lt n n k x hk hx)

/-- Witness of C2 (amended): the 2 x 2 inputs of the claim, in `float`
arithmetic. -/
theorem cpuReference_square_witness :
    (∃ out, cpuReference f32Arith 2 2 2 ([1, 2, 3, 4].map f32OfInt32)
        ([5, 6, 7, 8].map f32OfInt32) = some out ∧ out.length = 2 * 2 ∧
      ∀ y x, y < 2 → x < 2 →
        out[y * 2 + x]? = some (accumulatedSum f32Arith 2
          (fun k => ([1, 2, 3, 4].map f32OfInt32).getD (y * 2 + k) f32Arith.zero)
          (fun k => ([5, 6, 7, 8].map f32OfInt32).getD (k * 2 + x) f32Arith.zero))) ∧
    cpuReference f32Arith 2 2 2 ([1, 2, 3, 4].map f32OfInt32) ([5, 6, 7, 8].map f32OfInt32) =
      some ([19, 22, 43, 50].map f32OfInt32) :=
  cpuReference_square f32Arith 2 ([1, 2, 3, 4].map f32OfInt32) ([5, 6, 7, 8].map f32OfInt32)
    (by decide) (by decide) (by decide)

/-! ## The dispatch grid -/

/-- C1, as stated, fails at `mM = mN = 16777217` with the default 16 x 16 groups:
`float(16777217)` is `16777216`, the quotient by the tile size 64 is exactly
`262144`, and `262144` groups of 64 rows (or columns) cover `16777216` of them,
one less than the size.  It also fails at group size `2 ^ 29`, whose tile size
`2 ^ 31` wraps to `-2 ^ 31` in `int32_t`: the grid is 0 x 0. -/
theorem dispatchGrid_misses_last_row :
    f32OfInt32 16777217 = ⟨16777216, 0⟩ ∧
    dispatchGrid 16777217 16777217 16 16 = some (262144, 262144) ∧
    (262144 : Int) * (16 * 4) < 16777217 ∧
    dispatchGrid 1024 1024 536870912 536870912 = some (0, 0) ∧
    (0 : Int) * (536870912 * 4) < 1024 := by
  decide

/-! ## Rounding to `float`: sizes up to `2 ^ 24` -/

theorem bitLog2Aux_spec (fuel n : Nat) (hfuel : n ≤ fuel) (hn : 0 < n) :
    2 ^ bitLog2Aux fuel n ≤ n ∧ n < 2 ^ (bitLog2Aux fuel n + 1) := by
  induction fuel generalizing n with
  | zero => omega
  | succ f ih =>
    unfold bitLog2Aux
    by_cases h1 : n ≤ 1
    · rw [if_pos h1]
      have : n = 1 := by omega
      subst this
      exact ⟨by decide, by decide⟩
    · rw [if_neg h1]
      obtain ⟨hlo, hhi⟩ := ih (n / 2) (by omega) (by omega)
      constructor
      · rw [pow_succ]; omega
      · rw [pow_succ] at hhi ⊢; omega

theorem bitLog2_spec (n : Nat) (hn : 0 < n) :
    2 ^ bitLog2 n ≤ n ∧ n < 2 ^ (bitLog2 n + 1) :=
  bitLog2Aux_spec n n (Nat.le_refl n) hn

/-- Lower bound of `floorLog2`: `d * 2 ^ l ≤ n` for `l = floorLog2 n d`, with the
power on the side where its exponent is not negative. -/
theorem floorLog2_le (n d : Nat) (hn : 0 < n) (hd : 0 < d) :
    roundDen d (floorLog2 n d) ≤ roundNum n (floorLog2 n d) := by
  unfold floorLog2
  simp only []
  split
  · assumption
  · obtain ⟨hn1, _⟩ := bitLog2_spec n hn
    obtain ⟨_, hd2⟩ := bitLog2_spec d hd
    unfold roundDen roundNum
    generalize bitLog2 n = bn at *
    generalize bitLog2 d = bd at *
    have e1 : Int.ofNat bn = (bn : Int) := rfl
    have e2 : Int.ofNat bd = (bd : Int) := rfl
    rw [e1, e2]
    by_cases hc : bd + 1 ≤ bn
    · have t1 : ((bn : Int) - (bd : Int) - 1).toNat = bn - bd - 1 := by omega
      have t2 : (-((bn : Int) - (bd : Int) - 1)).toNat = 0 := by omega
      rw [t1, t2, pow_zero, Nat.mul_one]
      have h3 : d * 2 ^ (bn - bd - 1) < 2 ^ (bd + 1) * 2 ^ (bn - bd - 1) :=
        Nat.mul_lt_mul_of_pos_right hd2 (Nat.pow_pos (by decide))
      rw [← pow_add] at h3
      have h4 : bd + 1 + (bn - bd - 1) = bn := by omega
      rw [h4] at h3
      omega
    · have t1 : ((bn : Int) - (bd : Int) - 1).toNat = 0 := by omega
      have t2 : (-((bn : Int) - (bd : Int) - 1)).toNat = bd + 1 - bn := by omega
      rw [t1, t2, pow_zero, Nat.mul_one]
      have h3 : 2 ^ bn * 2 ^ (bd + 1 - bn) ≤ n * 2 ^ (bd + 1 - bn) :=
        Nat.mul_le_mul_right _ hn1
      rw [← pow_add] at h3
      have h4 : bn + (bd + 1 - bn) = bd + 1 := by omega
      rw [h4] at h3
      omega

theorem norm_mul_pow (a : Int) (s : Nat) : F32.norm (a * 2 ^ s) s = ⟨a, 0⟩ := by
  induction s generalizing a with
  | zero => simp [F32.norm]
  | succ k ih =>
    unfold F32.norm
    have h1 : a * 2 ^ (k + 1) = (a * 2 ^ k) * 2 := by rw [pow_succ, mul_assoc]
    rw [h1, if_pos (Int.mul_emod_left _ _), Int.mul_ediv_cancel _ (by decide : (2 : Int) ≠ 0)]
    exact ih a

theorem f32Ceil_norm (a : Int) (s : Nat) :
    f32Ceil (F32.norm a s) = ⟨-((-a) / 2 ^ s), 0⟩ := by
  induction s generalizing a with
  | zero => rfl
  | succ k ih =>
    unfold F32.norm
    by_cases h : a % 2 = 0
    · rw [if_pos h, ih]
      have h3 : -a = 2 * (-(a / 2)) := by omega
      have h4 : (2 : Int) ^ (k + 1) = 2 * 2 ^ k := by rw [pow_succ, mul_comm]
      rw [h3, h4, Int.mul_ediv_mul_of_pos _ _ (by decide : (0 : Int) < 2)]
    · rw [if_neg h]
      rfl

/-- The least integer not below `m / P`, when `k * P < m ≤ (k + 1) * P`. -/
theorem neg_ediv_neg_of_bounds (m k P : Nat) (h1 : k * P < m) (h2 : m ≤ (k + 1) * P) :
    -((-(m : Int)) / (P : Int)) = (k : Int) + 1 := by
  have hP : 0 < P := by
    rcases Nat.eq_zero_or_pos P with h | h
    · subst h; simp at h2; omega
    · exact h
  have hPi : (0 : Int) < (P : Int) := by exact_mod_cast hP
  have h1i : (k : Int) * P < m := by exact_mod_cast h1
  have h2i : (m : Int) ≤ ((k : Int) + 1) * P := by exact_mod_cast h2
  have hlow : -((k : Int) + 1) ≤ (-(m : Int)) / (P : Int) := by
    rw [Int.le_ediv_iff_mul_le hPi]
    linarith
  have hup : (-(m : Int)) / (P : Int) < -((k : Int) + 1) + 1 := by
    rw [Int.ediv_lt_iff_lt_mul hPi]
    linarith
  omega

theorem roundSignificand_cases (n d : Nat) (e : Int) :
    (2 * (roundNum n e % roundDen d e) < roundDen d e ∧
        roundSignificand n d e = roundNum n e / roundDen d e) ∨
      (roundDen d e < 2 * (roundNum n e % roundDen d e) ∧
        roundSignificand n d e = roundNum n e / roundDen d e + 1) ∨
      (roundDen d e = 2 * (roundNum n e % roundDen d e) ∧
        (roundSignificand n d e = roundNum n e / roundDen d e ∨
          roundSignificand n d e = roundNum n e / roundDen d e + 1)) := by
  unfold roundSignificand
  simp only []
  by_cases h1 : 2 * (roundNum n e % roundDen d e) < roundDen d e
  · left; exact ⟨h1, by rw [if_pos h1]⟩
  · by_cases h2 : roundDen d e < 2 * (roundNum n e % roundDen d e)
    · right; left; exact ⟨h2, by rw [if_neg h1, if_pos h2]⟩
    · right; right
      refine ⟨by omega, ?_⟩
      rw [if_neg h1, if_neg h2]
      by_cases h3 : roundNum n e / roundDen d e % 2 = 0
      · left; rw [if_pos h3]
      · right; rw [if_neg h3]

/-- The significand of `n / t` at unit `2 ^ (-s)`, between the multiples of
`2 ^ s` next to it: for `k * t < n ≤ (k + 1) * t` it lies in
`(k * 2 ^ s, (k + 1) * 2 ^ s]`, provided the excess `n - k * t` at this unit is
more than half the divisor. -/
theorem roundSignificand_between (n t s k : Nat) (ht : 0 < t) (h1 : k * t < n)
    (h2 : n ≤ (k + 1) * t) (htP : t < 2 * ((n - k * t) * 2 ^ s)) :
    k * 2 ^ s < roundSignificand n t (-(s : Int)) ∧
      roundSignificand n t (-(s : Int)) ≤ (k + 1) * 2 ^ s := by
  have hN : roundNum n (-(s : Int)) = n * 2 ^ s := by
    unfold roundNum
    rw [show (-(-(s : Int))).toNat = s by omega]
  have hD : roundDen t (-(s : Int)) = t := by
    unfold roundDen
    rw [show (-(s : Int)).toNat = 0 by omega, pow_zero, Nat.mul_one]
  have hcases := roundSignificand_cases n t (-(s : Int))
  rw [hN, hD] at hcases
  generalize roundSignificand n t (-(s : Int)) = m at hcases ⊢
  generalize 2 ^ s = P at *
  have h2' : n ≤ k * t + t := by rw [Nat.add_mul, Nat.one_mul] at h2; exact h2
  obtain ⟨δ, hδ⟩ : ∃ δ, n = k * t + δ := ⟨n - k * t, by omega⟩
  have hδ' : n - k * t = δ := by omega
  rw [hδ'] at htP
  have hδt : δ ≤ t := by omega
  have hX : n * P = t * (k * P) + δ * P := by rw [hδ]; ring
  have hq : n * P / t = k * P + δ * P / t := by
    rw [hX, Nat.mul_add_div ht]
  have hr : n * P % t = δ * P % t := by
    rw [hX, Nat.mul_add_mod]
  rw [hq, hr] at hcases
  have hdm : t * (δ * P / t) + δ * P % t = δ * P := Nat.div_add_mod _ _
  have hrt : δ * P % t < t := Nat.mod_lt _ ht
  have hbc : δ * P ≤ t * P := Nat.mul_le_mul_right P hδt
  have hk1 : (k + 1) * P = k * P + P := by rw [Nat.add_mul, Nat.one_mul]
  rw [hk1]
  generalize hq' : δ * P / t = q' at *
  generalize δ * P % t = r' at *
  generalize δ * P = b at *
  have hqP : q' ≤ P := by
    have : t * q' ≤ t * P := by omega
    exact Nat.le_of_mul_le_mul_left this ht
  have hfull : q' = P → r' = 0 := by
    intro h; subst h; omega
  have hzero : q' = 0 → r' = b := by
    intro h; subst h; simp at hdm; omega
  rcases hcases with ⟨hlt, hm⟩ | ⟨hgt, hm⟩ | ⟨heq, hm | hm⟩
  · subst hm
    refine ⟨?_, by omega⟩
    by_contra hc
    have : q' = 0 := by omega
    have := hzero this
    omega
  · subst hm
    refine ⟨by omega, ?_⟩
    by_contra hc
    have : q' = P := by omega
    have := hfull this
    omega
  · subst hm
    refine ⟨?_, by omega⟩
    by_contra hc
    have : q' = 0 := by omega
    have := hzero this
    omega
  · subst hm
    refine ⟨by omega, ?_⟩
    by_contra hc
    have : q' = P := by omega
    have := hfull this
    omega

/-- For `0 < n ≤ 2 ^ 24` the unit of the significand of `n / t` is `2 ^ (-s)` with
`s ≥ 0`, and at this unit the excess of `n` over the multiple of `t` below it
is more than half of `t`.  The pair `n = 2 ^ 24`, `t = 1` is left out: its unit is
2. -/
theorem unit_of_quotient (n t : Nat) (hn : 0 < n) (hn' : n ≤ 16777216) (ht : 0 < t)
    (hnt : n < 16777216 ∨ 2 ≤ t) :
    ∃ s : Nat, floorLog2 n t - 23 = -(s : Int) ∧
      t < 2 * ((n - (n - 1) / t * t) * 2 ^ s) := by
  have hL := floorLog2_le n t hn ht
  generalize floorLog2 n t = l at hL
  unfold roundDen roundNum at hL
  have hk1 : (n - 1) / t * t < n := by
    have := Nat.div_mul_le_self (n - 1) t
    omega
  have e24 : (2 : Nat) ^ 24 = 16777216 := by decide
  by_cases hl : 0 ≤ l
  · obtain ⟨L, rfl⟩ : ∃ L : Nat, l = (L : Int) := ⟨l.toNat, by omega⟩
    rw [show ((L : Int)).toNat = L by omega, show (-(L : Int)).toNat = 0 by omega, pow_zero,
      Nat.mul_one] at hL
    have hL23 : L ≤ 23 := by
      by_contra hc
      have h24 : 2 ^ 24 ≤ 2 ^ L := Nat.pow_le_pow_right (by decide) (by omega)
      have h1 : 1 * 2 ^ L ≤ t * 2 ^ L := Nat.mul_le_mul_right _ ht
      rcases hnt with h | h
      · omega
      · have h2 : 2 * 2 ^ L ≤ t * 2 ^ L := Nat.mul_le_mul_right _ h
        omega
    refine ⟨23 - L, by omega, ?_⟩
    have hpow : 2 ^ (23 - L) * 2 ^ L = 8388608 := by
      rw [← pow_add, show 23 - L + L = 23 by omega]
      decide
    by_contra hc
    have hc' : 2 * ((n - (n - 1) / t * t) * 2 ^ (23 - L)) ≤ t := by omega
    generalize hδ : n - (n - 1) / t * t = δ at hc'
    have hδ1 : 1 ≤ δ := by omega
    have h3 : 2 * (δ * 2 ^ (23 - L)) * 2 ^ L ≤ t * 2 ^ L := Nat.mul_le_mul_right _ hc'
    have h4 : 2 * (δ * 2 ^ (23 - L)) * 2 ^ L = δ * 16777216 := by
      rw [Nat.mul_assoc, Nat.mul_assoc, hpow]; omega
    rw [h4] at h3
    have hδeq : δ = 1 := by omega
    have hneq : n = 16777216 := by omega
    have hteq : t * 2 ^ L = n := by omega
    have ht2 : 2 ≤ t := by omega
    have hd1 : t ∣ n := ⟨2 ^ L, hteq.symm⟩
    have hd2 : t ∣ (n - 1) / t * t := ⟨(n - 1) / t, Nat.mul_comm _ _⟩
    have hd3 : t ∣ n - (n - 1) / t * t := Nat.dvd_sub' hd1 hd2
    rw [hδ, hδeq] at hd3
    have := Nat.le_of_dvd (by decide) hd3
    omega
  · refine ⟨(23 - l).toNat, by omega, ?_⟩
    have hsplit : (23 - l).toNat = 23 + (-l).toNat := by omega
    have hP : 2 ^ (23 - l).toNat = 8388608 * 2 ^ (-l).toNat := by
      rw [hsplit, pow_add]; rfl
    rw [show l.toNat = 0 by omega, pow_zero, Nat.mul_one] at hL
    have hpos : 1 ≤ 2 ^ (-l).toNat := Nat.pow_pos (by decide)
    have h24 : 2 ^ 24 ≤ 2 ^ (23 - l).toNat := Nat.pow_le_pow_right (by decide) (by omega)
    by_cases hk : (n - 1) / t = 0
    · rw [hk, Nat.zero_mul, Nat.sub_zero, hP]
      have : n * (8388608 * 2 ^ (-l).toNat) = 8388608 * (n * 2 ^ (-l).toNat) := by ring
      rw [this]
      omega
    · have htn : t < n := by
        by_contra hc
        exact hk (Nat.div_eq_of_lt (by omega))
      have hδ1 : 1 ≤ n - (n - 1) / t * t := by omega
      have : 2 ^ (23 - l).toNat ≤ (n - (n - 1) / t * t) * 2 ^ (23 - l).toNat :=
        Nat.le_mul_of_pos_left _ hδ1
      omega

/-- The ceiling of the rounded quotient `n / t` is the ceiling of the exact
quotient, for `0 < n ≤ 2 ^ 24`. -/
theorem f32Ceil_f32Round (n t : Nat) (hn : 0 < n) (hn' : n ≤ 16777216) (ht : 0 < t)
    (hnt : n < 16777216 ∨ 2 ≤ t) :
    f32Ceil (f32Round false n t) = ⟨Int.ofNat ((n - 1) / t + 1), 0⟩ := by
  obtain ⟨s, hs, hts⟩ := unit_of_quotient n t hn hn' ht hnt
  have hk1 : (n - 1) / t * t < n := by
    have := Nat.div_mul_le_self (n - 1) t
    omega
  have hk2 : n ≤ ((n - 1) / t + 1) * t := by
    have h := Nat.div_add_mod (n - 1) t
    have hm := Nat.mod_lt (n - 1) ht
    rw [Nat.add_mul, Nat.one_mul, Nat.mul_comm]
    omega
  obtain ⟨hlo, hhi⟩ := roundSignificand_between n t s ((n - 1) / t) ht hk1 hk2 hts
  unfold f32Round
  rw [if_neg (by omega)]
  simp only [hs]
  rw [show (-(s : Int)).toNat = 0 by omega, show (-(-(s : Int))).toNat = s by omega, pow_zero,
    Int.mul_one, f32Ceil_norm]
  have e1 : Int.ofNat (roundSignificand n t (-(s : Int)))
      = ((roundSignificand n t (-(s : Int)) : Nat) : Int) := rfl
  have e2 : ((2 : Int) ^ s) = (((2 ^ s : Nat)) : Int) := by push_cast; rfl
  have hceil := neg_ediv_neg_of_bounds (roundSignificand n t (-(s : Int))) ((n - 1) / t) (2 ^ s)
    hlo hhi
  simp only [Bool.false_eq_true, if_false]
  rw [e1, e2, hceil]
  rfl

/-- An integer up to `2 ^ 24` converts to `float` without rounding. -/
theorem f32OfInt32_exact (n : Nat) (hn : n ≤ 16777216) :
    f32OfInt32 (n : Int) = ⟨(n : Int), 0⟩ := by
  by_cases htop : n = 16777216
  · subst htop; decide
  unfold f32OfInt32 f32Round
  rw [show decide ((n : Int) < 0) = false from decide_eq_false (by omega), Int.natAbs_ofNat]
  by_cases h0 : n = 0
  · subst h0; rfl
  · rw [if_neg h0]
    obtain ⟨s, hs, _⟩ := unit_of_quotient n 1 (by omega) hn (by decide) (Or.inl (by omega))
    have hcases := roundSignificand_cases n 1 (-(s : Int))
    have hN : roundNum n (-(s : Int)) = n * 2 ^ s := by
      unfold roundNum
      rw [show (-(-(s : Int))).toNat = s by omega]
    have hD : roundDen 1 (-(s : Int)) = 1 := by
      unfold roundDen
      rw [show (-(s : Int)).toNat = 0 by omega, pow_zero, Nat.mul_one]
    rw [hN, hD, Nat.mod_one, Nat.div_one] at hcases
    have hm : roundSignificand n 1 (-(s : Int)) = n * 2 ^ s := by
      rcases hcases with ⟨_, h⟩ | ⟨h, _⟩ | ⟨h, _⟩
      · exact h
      · omega
      · omega
    simp only [hs, hm]
    rw [show (-(s : Int)).toNat = 0 by omega, show (-(-(s : Int))).toNat = s by omega, pow_zero,
      Int.mul_one]
    simp only [Bool.false_eq_true, if_false]
    have e1 : Int.ofNat (n * 2 ^ s) = (n : Int) * 2 ^ s := by
      show ((n * 2 ^ s : Nat) : Int) = _
      push_cast; rfl
    rw [e1]
    exact norm_mul_pow _ _

/-- An integer from `2 ^ 24` on converts to an integral `float` that is at least
`2 ^ 24`. -/
theorem f32OfInt32_large (t : Nat) (ht : 16777216 ≤ t) :
    ∃ V : Nat, f32OfInt32 (t : Int) = ⟨(V : Int), 0⟩ ∧ 16777216 ≤ V := by
  unfold f32OfInt32 f32Round
  rw [show decide ((t : Int) < 0) = false from decide_eq_false (by omega), Int.natAbs_ofNat,
    if_neg (by omega)]
  simp only [Bool.false_eq_true, if_false]
  have hL := floorLog2_le t 1 (by omega) (by decide)
  generalize floorLog2 t 1 = l at hL ⊢
  have hcases := roundSignificand_cases t 1 (l - 23)
  generalize roundSignificand t 1 (l - 23) = m at hcases ⊢
  unfold roundDen roundNum at hL hcases
  by_cases he : l - 23 ≤ 0
  · obtain ⟨s, hs⟩ : ∃ s : Nat, l - 23 = -(s : Int) := ⟨(23 - l).toNat, by omega⟩
    rw [hs] at hcases ⊢
    rw [show (-(s : Int)).toNat = 0 by omega, show (-(-(s : Int))).toNat = s by omega, pow_zero,
      Nat.mul_one, Nat.mod_one, Nat.div_one] at hcases
    have hm : m = t * 2 ^ s := by
      rcases hcases with ⟨_, h⟩ | ⟨h, _⟩ | ⟨h, _⟩
      · exact h
      · omega
      · omega
    refine ⟨t, ?_, ht⟩
    rw [show (-(s : Int)).toNat = 0 by omega, show (-(-(s : Int))).toNat = s by omega, pow_zero,
      Int.mul_one, hm]
    have e1 : Int.ofNat (t * 2 ^ s) = (t : Int) * 2 ^ s := by
      show ((t * 2 ^ s : Nat) : Int) = _
      push_cast; rfl
    rw [e1]
    exact norm_mul_pow _ _
  · obtain ⟨E, hE⟩ : ∃ E : Nat, l - 23 = (E : Int) := ⟨(l - 23).toNat, by omega⟩
    have hE1 : 1 ≤ E := by omega
    rw [hE] at hcases ⊢
    rw [show ((E : Int)).toNat = E by omega, show (-(E : Int)).toNat = 0 by omega, pow_zero,
      Nat.mul_one, Nat.one_mul] at hcases
    rw [show l.toNat = 23 + E by omega, show (-l).toNat = 0 by omega, pow_zero, Nat.mul_one,
      Nat.one_mul, pow_add] at hL
    have hq : 2 ^ 23 ≤ t / 2 ^ E := (Nat.le_div_iff_mul_le (Nat.pow_pos (by decide))).2 hL
    have hm : t / 2 ^ E ≤ m := by
      rcases hcases with ⟨_, h⟩ | ⟨_, h⟩ | ⟨_, h | h⟩ <;> omega
    refine ⟨m * 2 ^ E, ?_, ?_⟩
    · rw [show ((E : Int)).toNat = E by omega, show (-(E : Int)).toNat = 0 by omega]
      unfold F32.norm
      have e1 : Int.ofNat m * 2 ^ E = ((m * 2 ^ E : Nat) : Int) := by
        push_cast; rfl
      rw [e1]
    · have h1 : 2 ^ 23 * 2 ^ E ≤ m * 2 ^ E := Nat.mul_le_mul_right _ (by omega)
      have h2 : 2 ^ 23 * 2 ^ 1 ≤ 2 ^ 23 * 2 ^ E :=
        Nat.mul_le_mul_left _ (Nat.pow_le_pow_right (by decide) hE1)
      have e24 : (2 : Nat) ^ 23 * 2 ^ 1 = 16777216 := by decide
      omega

/-- Division of a size up to `2 ^ 24` by the integral float `V ≥ 2`, rounded up
and converted back: the ceiling of the exact quotient. -/
theorem ceil_div_of_float (n V : Nat) (hn : 0 < n) (hn' : n ≤ 16777216) (hV : 2 ≤ V) :
    (f32Div ⟨(n : Int), 0⟩ ⟨(V : Int), 0⟩).bind (fun q => f32ToInt32 (f32Ceil q)) =
      some (Int.ofNat ((n - 1) / V + 1)) := by
  unfold f32Div
  have hV0 : ¬ ((V : Int) = 0) := by omega
  simp only [hV0, if_false, Option.some_bind, pow_zero, Nat.mul_one, Int.natAbs_ofNat]
  have hsn : decide ((n : Int) < 0) = false := decide_eq_false (by omega)
  have hsV : decide ((V : Int) < 0) = false := decide_eq_false (by omega)
  rw [hsn, hsV, show (false != false) = false from rfl,
    f32Ceil_f32Round n V hn hn' (by omega) (Or.inr hV)]
  unfold f32ToInt32
  have hle : (n - 1) / V + 1 ≤ n := by
    have := Nat.div_le_self (n - 1) V
    omega
  have hz1 : (0 : Int) ≤ Int.ofNat ((n - 1) / V + 1) := Int.ofNat_nonneg _
  have hz2 : Int.ofNat ((n - 1) / V + 1) ≤ (n : Int) := Int.ofNat_le.2 hle
  simp only [pow_zero, Int.tdiv_one]
  rw [if_pos (by omega)]

/-- The expression `static_cast<int32_t>(ceil(float(size) / float(tile)))` for a
size up to `2 ^ 24` and a tile of at least 2: a count of tiles that covers the
size, and the ceiling of `size / tile` when the tile is at most `2 ^ 24`. -/
theorem ceilDivFloat_covers (n t : Nat) (hn : 0 < n) (hn' : n ≤ 16777216) (ht : 2 ≤ t) :
    ∃ d : Nat, ceilDivFloat (n : Int) (t : Int) = some (Int.ofNat d) ∧ n ≤ d * t ∧
      (t ≤ 16777216 → d = (n - 1) / t + 1) := by
  have cover : ∀ a b : Nat, 0 < b → a ≤ ((a - 1) / b + 1) * b := by
    intro a b hb
    have h := Nat.div_add_mod (a - 1) b
    have hm := Nat.mod_lt (a - 1) hb
    rw [Nat.add_mul, Nat.one_mul, Nat.mul_comm]
    omega
  unfold ceilDivFloat
  rw [f32OfInt32_exact n hn']
  by_cases hsmall : t ≤ 16777216
  · rw [f32OfInt32_exact t hsmall, ceil_div_of_float n t hn hn' ht]
    exact ⟨(n - 1) / t + 1, rfl, cover n t (by omega), fun _ => rfl⟩
  · obtain ⟨V, hV, hV24⟩ := f32OfInt32_large t (by omega)
    rw [hV, ceil_div_of_float n V hn hn' (by omega)]
    have hzero : (n - 1) / V = 0 := Nat.div_eq_of_lt (by omega)
    refine ⟨(n - 1) / V + 1, rfl, ?_, fun h => absurd h hsmall⟩
    rw [hzero]
    omega

/-- C1 (amended): for sizes `0 < mM, mN ≤ 2 ^ 24` and group sizes
`0 < groupX, groupY < 2 ^ 29` (so that the tile sizes `4 * group` fit in
`int32_t`) the dispatch grid of `DoMatMul` covers the output:
`dispatchX * tile_cols ≥ mN` and `dispatchY * tile_rows ≥ mM`; for the default
`mM = mN = 1024` and 16 x 16 groups it is 16 x 16. -/
theorem dispatchGrid_covers (mM mN groupX groupY : Nat)
    (hM : 0 < mM) (hM' : mM ≤ 16777216) (hN : 0 < mN) (hN' : mN ≤ 16777216)
    (hX : 0 < groupX) (hX' : groupX < 536870912) (hY : 0 < groupY) (hY' : groupY < 536870912) :
    (∃ dispatchX dispatchY : Nat,
      dispatchGrid (mM : Int) (mN : Int) (groupX : Int) (groupY : Int) =
        some (Int.ofNat dispatchX, Int.ofNat dispatchY) ∧
      mN ≤ dispatchX * (groupX * 4) ∧ mM ≤ dispatchY * (groupY * 4)) ∧
    dispatchGrid 1024 1024 16 16 = some (16, 16) := by
  refine ⟨?_, by decide⟩
  obtain ⟨dx, hdx, hcx, _⟩ := ceilDivFloat_covers mN (groupX * 4) hN hN' (by omega)
  obtain ⟨dy, hdy, hcy, _⟩ := ceilDivFloat_covers mM (groupY * 4) hM hM' (by omega)
  refine ⟨dx, dy, ?_, hcx, hcy⟩
  unfold dispatchGrid mul32 kRowPerThread kColPerThread
  have hx : wrap32 ((groupX : Int) * 4) = ((groupX * 4 : Nat) : Int) := by
    rw [wrap32_of_range _ (by omega) (by omega)]; push_cast; rfl
  have hy : wrap32 ((groupY : Int) * 4) = ((groupY * 4 : Nat) : Int) := by
    rw [wrap32_of_range _ (by omega) (by omega)]; push_cast; rfl
  simp only [hx, hy]
  rw [hdx, hdy]
  rfl

/-- Witness of C1 (amended): a 1000 x 3000 output with 16 x 8 groups. -/
theorem dispatchGrid_covers_witness :
    (∃ dispatchX dispatchY : Nat,
      dispatchGrid ((1000 : Nat) : Int) ((3000 : Nat) : Int) ((16 : Nat) : Int)
          ((8 : Nat) : Int) = some (Int.ofNat dispatchX, Int.ofNat dispatchY) ∧
      3000 ≤ dispatchX * (16 * 4) ∧ 1000 ≤ dispatchY * (8 * 4)) ∧
    dispatchGrid 1024 1024 16 16 = some (16, 16) :=
  dispatchGrid_covers 1000 3000 16 8 (by decide) (by decide) (by decide) (by decide)
    (by decide) (by decide) (by decide) (by decide)

/-! ## The CPU reference on sizes that are not square -/

/-- C11, evaluated at `mM = 1`, `mN = 3`, `mK = 2` with `input1 = [1, 1]` (1 x 2) and
`input2 = [1, 2, 3, 4, 5, 6]` (2 x 3): the product is `[5, 7, 9]`, the reference
loop reads `mInputData2[k * mK + x]`, that is the elements 0, 2 and 1, 3 and 2, 4
for the three cells, and stores `[4, 6, 8]`. -/
theorem cpuReference_reads_stride_mK :
    cpuReference f32Arith 1 3 2 ([1, 1].map f32OfInt32) ([1, 2, 3, 4, 5, 6].map f32OfInt32) =
      some ([4, 6, 8].map f32OfInt32) ∧
    productMatrix f32Arith 1 3 2 ([1, 1].map f32OfInt32) ([1, 2, 3, 4, 5, 6].map f32OfInt32) =
      [5, 7, 9].map f32OfInt32 ∧
    copyColumn 2 ([1, 2, 3, 4, 5, 6].map f32OfInt32) 0 ([0, 0].map f32OfInt32) =
      some ([1, 3].map f32OfInt32) := by
  decide

/-- C19, evaluated at `mM = 1`, `mN = 1`, `mK = 2` with `mInputData1` of `1 * 2`
and `mInputData2` of `2 * 1` elements: the loop over `x2` reads
`mInputData2[1 * 2 + 0]`, index 2 of a vector of 2 elements, so the run has no
defined result; the row of input 1 is read inside its bounds. -/
theorem cpuReference_reads_past_input2 :
    ([3, 4].map f32OfInt32).length = 2 * 1 ∧ ¬ (1 * 2 + 0 < 2 * 1) ∧
    copyRow 2 ([1, 2].map f32OfInt32) 0 ([0, 0].map f32OfInt32) =
      some ([1, 2].map f32OfInt32) ∧
    copyColumn 2 ([3, 4].map f32OfInt32) 0 ([0, 0].map f32OfInt32) = none ∧
    cpuReference f32Arith 1 1 2 ([1, 2].map f32OfInt32) ([3, 4].map f32OfInt32) = none := by
  decide

/-! ## The kernel parameters -/

/-- C12, as stated, fails at `M = 1`, `N = 2`, `K = 3`, `TILE_K = 64`: the words
written are `1, 3, 2, 64`, with `K` in word 1 and `N` in word 2. -/
theorem constantBufferData_words_not_M_N_K :
    (constantBufferData 1 2 3 64).words = [1, 3, 2, 64] ∧
    (constantBufferData 1 2 3 64).words ≠ [toUInt32 1, toUInt32 2, toUInt32 3, toUInt32 64] := by
  decide

/-- C12 (amended): the kernel parameters that `InitBufferData` writes are
`sizeof(ConstantBufferData) = 16` bytes, four 32-bit words in the order of the
members of the struct, `M`, `K`, `N`, `TILE_K` (word 0 = `M`, word 1 = `K`,
word 2 = `N`, word 3 = `TILE_K`), for every `M`, `N`, `K` and `TILE_K`;
this is the order `M`, `N`, `K`, `TILE_K` exactly when `N` and `K` are equal. -/
theorem constantBufferData_words (mM mN mK mTileK : Int) :
    (constantBufferData mM mN mK mTileK).words =
      [toUInt32 mM, toUInt32 mK, toUInt32 mN, toUInt32 mTileK] ∧
    4 * (constantBufferData mM mN mK mTileK).words.length = sizeofConstantBufferData ∧
    sizeofConstantBufferData = 16 ∧
    ((constantBufferData mM mN mK mTileK).words =
        [toUInt32 mM, toUInt32 mN, toUInt32 mK, toUInt32 mTileK] ↔
      toUInt32 mN = toUInt32 mK) := by
  refine ⟨rfl, rfl, rfl, ?_⟩
  unfold constantBufferData ConstantBufferData.words
  constructor
  · intro h
    simp only [List.cons.injEq, and_true, true_and] at h
    exact h.1.symm
  · intro h
    rw [h]

/-! ## Upload buffers and their destinations -/

/-- C14, as stated, fails for the constant buffer at the default sizes: its
upload buffer has `sizeof(ConstantBufferData) = 16` bytes, the constant buffer
of `CreateBuffers` has `D3D12_CONSTANT_BUFFER_DATA_PLACEMENT_ALIGNMENT = 256`. -/
theorem constant_upload_is_smaller :
    createdSize (uploadBuffers 1024 1024 1024) Buffer.uploadBufferForConstantBufferData
      = some 16 ∧
    createdSize (CreateBuffers D3D12_CONSTANT_BUFFER_DATA_PLACEMENT_ALIGNMENT 1024 1024 1024)
      Buffer.mConstantBuffer = some 256 := by
  decide

/-- C14 (amended): for every M, N and K the upload buffers of the two input
buffers have exactly the byte size of their destinations in `CreateBuffers`,
and each of the three copies reads from its upload buffer as many bytes as
that buffer has; the upload buffer of the constant buffer has
`sizeof(ConstantBufferData) = 16` bytes, while the constant buffer itself has
`D3D12_CONSTANT_BUFFER_DATA_PLACEMENT_ALIGNMENT` bytes, so the two sizes agree
only if that macro is 16. -/
theorem upload_sizes (alignment : Nat) (mM mN mK : Int) :
    (createdSize (uploadBuffers mM mN mK) Buffer.uploadBuffer1 =
      createdSize (CreateBuffers alignment mM mN mK) Buffer.mInputBuffer1) ∧
    (createdSize (uploadBuffers mM mN mK) Buffer.uploadBuffer2 =
      createdSize (CreateBuffers alignment mM mN mK) Buffer.mInputBuffer2) ∧
    createdSize (uploadBuffers mM mN mK) Buffer.uploadBufferForConstantBufferData = some 16 ∧
    createdSize (CreateBuffers alignment mM mN mK) Buffer.mConstantBuffer = some alignment ∧
    ((uploadCopies mM mN mK).map fun c => (c.2.1, c.2.2)) =
      ((uploadBuffers mM mN mK).map fun u => (u.1, u.2.size)) ∧
    (createdSize (uploadBuffers mM mN mK) Buffer.uploadBufferForConstantBufferData =
        createdSize (CreateBuffers alignment mM mN mK) Buffer.mConstantBuffer ↔
      alignment = 16) := by
  refine ⟨rfl, rfl, rfl, rfl, rfl, ?_⟩
  · show (some 16 = some alignment) ↔ alignment = 16
    constructor
    · intro h; injection h with h; exact h.symm
    · intro h; rw [h]

/-! ## The tolerance of the comparison -/

/-- C16 (evaluation of the code): the tolerance that is printed is
`kToleranceULP = 3`, the bound of the comparison is `1 << 3 = 8`; a GPU value
`0x3F800004`, four units in the last place above the CPU value `0x3F800000`
(`1.0f`), is not reported, and no difference up to 8 units is: only a
difference of 9 units is. -/
theorem four_ulp_difference_accepted :
    kToleranceULP = 3 ∧ kToleranceInBytes = 8 ∧
    exceedsTolerance 1065353220 1065353216 = false ∧
    compareOutput 1 1 [1065353220] [1065353216] = some [CheckLine.acceptable] ∧
    exceedsTolerance 1065353224 1065353216 = false ∧
    exceedsTolerance 1065353225 1065353216 = true := by
  decide

/-! ## The generated input lies in the unit interval -/

/-- The value of a float in lowest terms is the value of the fraction. -/
theorem norm_value (a : Int) (s : Nat) :
    (F32.norm a s).num * 2 ^ s = a * 2 ^ (F32.norm a s).scale := by
  induction s generalizing a with
  | zero => rfl
  | succ s ih =>
    unfold F32.norm
    split
    · rename_i h
      have h2 := ih (a / 2)
      have h3 : a = 2 * (a / 2) := by omega
      rw [pow_succ, ← Int.mul_assoc, h2]
      generalize (2 : Int) ^ (F32.norm (a / 2) s).scale = P
      calc a / 2 * P * 2 = (2 * (a / 2)) * P := by ring
        _ = a * P := by rw [← h3]
    · rfl

/-- Rounding to the nearest significand is monotone in the numerator. -/
theorem roundSignificand_mono (n1 n2 d : Nat) (e : Int) (hd : 0 < roundDen d e) (h : n1 ≤ n2) :
    roundSignificand n1 d e ≤ roundSignificand n2 d e := by
  have hN : roundNum n1 e ≤ roundNum n2 e := Nat.mul_le_mul_right _ h
  unfold roundSignificand
  simp only []
  generalize roundNum n1 e = N1 at hN ⊢
  generalize roundNum n2 e = N2 at hN ⊢
  generalize roundDen d e = D at hd ⊢
  have hq : N1 / D ≤ N2 / D := Nat.div_le_div_right hN
  have a1 := Nat.div_add_mod N1 D
  have a2 := Nat.div_add_mod N2 D
  have b1 := Nat.mod_lt N1 hd
  have b2 := Nat.mod_lt N2 hd
  rcases Nat.lt_or_eq_of_le hq with hlt | heq
  · split_ifs <;> omega
  · rw [← heq] at a2 ⊢
    have hr : N1 % D ≤ N2 % D := by omega
    split_ifs <;> omega

/-- Against the denominator 1 the exponent is the position of the leading bit. -/
theorem floorLog2_one (t : Nat) (ht : 0 < t) : floorLog2 t 1 = (bitLog2 t : Int) := by
  obtain ⟨h1, _⟩ := bitLog2_spec t ht
  unfold floorLog2
  simp only []
  have hb : bitLog2 1 = 0 := by decide
  have hc : Int.ofNat (bitLog2 t) - Int.ofNat (bitLog2 1) = (bitLog2 t : Int) := by
    rw [hb]; show ((bitLog2 t : Nat) : Int) - 0 = _; omega
  rw [hc, if_pos]
  unfold roundDen roundNum
  rw [show ((bitLog2 t : Nat) : Int).toNat = bitLog2 t by omega,
    show (-((bitLog2 t : Nat) : Int)).toNat = 0 by omega, pow_zero, Nat.mul_one, Nat.one_mul]
  exact h1

/-- The position of the leading bit is monotone. -/
theorem bitLog2_mono (a b : Nat) (ha : 0 < a) (hab : a ≤ b) : bitLog2 a ≤ bitLog2 b := by
  obtain ⟨h1, _⟩ := bitLog2_spec a ha
  obtain ⟨_, h2⟩ := bitLog2_spec b (by omega)
  have h3 : 2 ^ bitLog2 a < 2 ^ (bitLog2 b + 1) := by omega
  have h4 := (Nat.pow_lt_pow_iff_right (by decide : 1 < 2)).1 h3
  omega


/-- An integer from `2 ^ 24` on converts to its 24-bit significand at the unit
`2 ^ E` of its binade. -/
theorem f32OfInt32_binade (t : Nat) (ht : 16777216 ≤ t) :
    ∃ E m : Nat, bitLog2 t = 23 + E ∧ m = roundSignificand t 1 (E : Int) ∧
      f32OfInt32 (t : Int) = ⟨((m * 2 ^ E : Nat) : Int), 0⟩ ∧ 2 ^ 23 ≤ m ∧ m ≤ 2 ^ 24 := by
  obtain ⟨hb1, hb2⟩ := bitLog2_spec t (by omega)
  have hb : 24 ≤ bitLog2 t := by
    have h3 : 2 ^ 24 < 2 ^ (bitLog2 t + 1) := by
      have e24 : (2 : Nat) ^ 24 = 16777216 := by decide
      omega
    have h4 := (Nat.pow_lt_pow_iff_right (by decide : 1 < 2)).1 h3
    omega
  obtain ⟨E, hE⟩ : ∃ E : Nat, bitLog2 t = 23 + E := ⟨bitLog2 t - 23, by omega⟩
  refine ⟨E, roundSignificand t 1 (E : Int), hE, rfl, ?_, ?_⟩
  · unfold f32OfInt32 f32Round
    rw [show decide ((t : Int) < 0) = false from decide_eq_false (by omega), Int.natAbs_ofNat,
      if_neg (by omega), floorLog2_one t (by omega), hE]
    simp only [Bool.false_eq_true, if_false]
    rw [show ((23 + E : Nat) : Int) - 23 = (E : Int) by omega,
      show ((E : Int)).toNat = E by omega, show (-(E : Int)).toNat = 0 by omega]
    unfold F32.norm
    have e1 : Int.ofNat (roundSignificand t 1 (E : Int)) * 2 ^ E =
        ((roundSignificand t 1 (E : Int) * 2 ^ E : Nat) : Int) := by
      push_cast; rfl
    rw [e1]
  · have hcases := roundSignificand_cases t 1 (E : Int)
    generalize roundSignificand t 1 (E : Int) = m at hcases ⊢
    unfold roundDen roundNum at hcases
    rw [show ((E : Int)).toNat = E by omega, show (-(E : Int)).toNat = 0 by omega, pow_zero,
      Nat.mul_one, Nat.one_mul] at hcases
    rw [hE] at hb1 hb2
    have hP : 0 < 2 ^ E := Nat.pow_pos (by decide)
    have hq1 : 2 ^ 23 ≤ t / 2 ^ E := by
      apply (Nat.le_div_iff_mul_le hP).2
      rw [← pow_add]; exact hb1
    have hq2 : t / 2 ^ E < 2 ^ 24 := by
      apply (Nat.div_lt_iff_lt_mul hP).2
      rw [← pow_add, show 24 + E = 23 + E + 1 by omega]; exact hb2
    rcases hcases with ⟨_, h⟩ | ⟨_, h⟩ | ⟨_, h | h⟩ <;> omega

/-- The conversion of non-negative integers to `float` is monotone, and its
values are integers. -/
theorem f32OfInt32_mono (r R : Nat) (h : r ≤ R) :
    ∃ A B : Nat, f32OfInt32 (r : Int) = ⟨(A : Int), 0⟩ ∧ f32OfInt32 (R : Int) = ⟨(B : Int), 0⟩ ∧
      A ≤ B ∧ (0 < R → 0 < B) := by
  by_cases hR : R ≤ 16777216
  · exact ⟨r, R, f32OfInt32_exact r (by omega), f32OfInt32_exact R hR, h, fun h0 => h0⟩
  · obtain ⟨E2, m2, hb2, hm2, hv2, hl2, hu2⟩ := f32OfInt32_binade R (by omega)
    have hP2 : 0 < 2 ^ E2 := Nat.pow_pos (by decide)
    have hB : 2 ^ 23 * 2 ^ E2 ≤ m2 * 2 ^ E2 := Nat.mul_le_mul_right _ hl2
    have hBpos : 0 < m2 * 2 ^ E2 :=
      Nat.lt_of_lt_of_le (Nat.mul_pos (Nat.pow_pos (by decide)) hP2) hB
    by_cases hr : r ≤ 16777216
    · refine ⟨r, m2 * 2 ^ E2, f32OfInt32_exact r hr, hv2, ?_, fun _ => hBpos⟩
      have h1 : 1 ≤ E2 := by
        have := bitLog2_mono 16777217 R (by decide) (by omega)
        have e : bitLog2 16777217 = 24 := by decide
        omega
      have h2 : 2 ^ 23 * 2 ^ 1 ≤ 2 ^ 23 * 2 ^ E2 :=
        Nat.mul_le_mul_left _ (Nat.pow_le_pow_right (by decide) h1)
      have e24 : (2 : Nat) ^ 23 * 2 ^ 1 = 16777216 := by decide
      omega
    · obtain ⟨E1, m1, hb1, hm1, hv1, hl1, hu1⟩ := f32OfInt32_binade r (by omega)
      refine ⟨m1 * 2 ^ E1, m2 * 2 ^ E2, hv1, hv2, ?_, fun _ => hBpos⟩
      have hE : E1 ≤ E2 := by
        have := bitLog2_mono r R (by omega) h
        omega
      rcases Nat.lt_or_eq_of_le hE with hlt | heq
      · have h1 : m1 * 2 ^ E1 ≤ 2 ^ 24 * 2 ^ E1 := Nat.mul_le_mul_right _ hu1
        have h2 : 2 ^ 23 * 2 ^ (E1 + 1) ≤ 2 ^ 23 * 2 ^ E2 :=
          Nat.mul_le_mul_left _ (Nat.pow_le_pow_right (by decide) hlt)
        have h3 : (2 : Nat) ^ 24 * 2 ^ E1 = 2 ^ 23 * 2 ^ (E1 + 1) := by
          rw [pow_succ]; ring
        omega
      · subst heq
        have hd : 0 < roundDen 1 (E1 : Int) := by
          unfold roundDen
          exact Nat.mul_pos (by decide) (Nat.pow_pos (by decide))
        have := roundSignificand_mono r R 1 (E1 : Int) hd h
        rw [hm1, hm2]
        exact Nat.mul_le_mul_right _ this


/-- Rounding a fraction `n / d` of the unit interval: the float is in the unit
interval too, and it is 1 when `n = d`. -/
theorem f32Round_unit (n d : Nat) (hd : 0 < d) (h : n ≤ d) :
    F32.le ⟨0, 0⟩ (f32Round false n d) ∧ F32.le (f32Round false n d) ⟨1, 0⟩ ∧
      (n = d → f32Round false n d = ⟨1, 0⟩) := by
  by_cases h0 : n = 0
  · unfold f32Round
    rw [if_pos h0]
    exact ⟨by decide, by decide, fun e => absurd (h0 ▸ e).symm (by omega)⟩
  have hn : 0 < n := Nat.pos_of_ne_zero h0
  obtain ⟨s, hs⟩ : ∃ s : Nat, floorLog2 n d - 23 = -(s : Int) := by
    have hb := bitLog2_mono n d hn h
    refine ⟨(23 - floorLog2 n d).toNat, ?_⟩
    unfold floorLog2
    simp only []
    have e1 : Int.ofNat (bitLog2 n) = (bitLog2 n : Int) := rfl
    have e2 : Int.ofNat (bitLog2 d) = (bitLog2 d : Int) := rfl
    rw [e1, e2]
    split <;> omega
  have hcases := roundSignificand_cases n d (-(s : Int))
  have hN : roundNum n (-(s : Int)) = n * 2 ^ s := by
    unfold roundNum
    rw [show (-(-(s : Int))).toNat = s by omega]
  have hD : roundDen d (-(s : Int)) = d := by
    unfold roundDen
    rw [show (-(s : Int)).toNat = 0 by omega, pow_zero, Nat.mul_one]
  rw [hN, hD] at hcases
  have hle : n * 2 ^ s ≤ d * 2 ^ s := Nat.mul_le_mul_right _ h
  have hq : n * 2 ^ s / d ≤ 2 ^ s := Nat.div_le_of_le_mul hle
  have a1 := Nat.div_add_mod (n * 2 ^ s) d
  have hm : roundSignificand n d (-(s : Int)) ≤ 2 ^ s ∧
      (n = d → roundSignificand n d (-(s : Int)) = 2 ^ s) := by
    generalize roundSignificand n d (-(s : Int)) = m at hcases ⊢
    constructor
    · by_cases hlt : n * 2 ^ s / d < 2 ^ s
      · rcases hcases with ⟨_, e⟩ | ⟨_, e⟩ | ⟨_, e | e⟩ <;> omega
      · have heq : n * 2 ^ s / d = 2 ^ s := by omega
        rw [heq] at a1 hcases
        rcases hcases with ⟨_, e⟩ | ⟨_, e⟩ | ⟨_, e | e⟩ <;> omega
    · intro e
      subst e
      rw [Nat.mul_comm n, Nat.mul_mod_left, Nat.mul_div_cancel _ hd] at hcases
      rcases hcases with ⟨_, e⟩ | ⟨_, e⟩ | ⟨_, e | e⟩ <;> omega
  have hval : f32Round false n d =
      F32.norm (Int.ofNat (roundSignificand n d (-(s : Int)))) s := by
    unfold f32Round
    rw [if_neg h0]
    simp only [Bool.false_eq_true, if_false, hs]
    rw [show (-(s : Int)).toNat = 0 by omega, show (-(-(s : Int))).toNat = s by omega, pow_zero,
      Int.mul_one]
  rw [hval]
  obtain ⟨hm1, hm2⟩ := hm
  generalize roundSignificand n d (-(s : Int)) = m at hm1 hm2 ⊢
  have hv := norm_value (Int.ofNat m) s
  have hP : (0 : Int) < 2 ^ s := by positivity
  have hQ : (0 : Int) < 2 ^ (F32.norm (Int.ofNat m) s).scale := by positivity
  have hm0 : (0 : Int) ≤ Int.ofNat m := Int.ofNat_nonneg m
  have hm1' : Int.ofNat m ≤ 2 ^ s := by
    show ((m : Nat) : Int) ≤ 2 ^ s
    exact_mod_cast hm1
  refine ⟨?_, ?_, ?_⟩
  · show (0 : Int) * 2 ^ (F32.norm (Int.ofNat m) s).scale ≤ (F32.norm (Int.ofNat m) s).num * 2 ^ 0
    rw [Int.zero_mul, pow_zero, Int.mul_one]
    have h1 : 0 ≤ (F32.norm (Int.ofNat m) s).num * 2 ^ s := by
      rw [hv]; exact Int.mul_nonneg hm0 (Int.le_of_lt hQ)
    exact nonneg_of_mul_nonneg_left h1 hP
  · show (F32.norm (Int.ofNat m) s).num * 2 ^ 0 ≤ (1 : Int) * 2 ^ (F32.norm (Int.ofNat m) s).scale
    rw [pow_zero, Int.mul_one, Int.one_mul]
    have h1 : (F32.norm (Int.ofNat m) s).num * 2 ^ s ≤
        2 ^ (F32.norm (Int.ofNat m) s).scale * 2 ^ s := by
      rw [hv, Int.mul_comm]
      exact Int.mul_le_mul_of_nonneg_left hm1' (Int.le_of_lt hQ)
    exact le_of_mul_le_mul_right h1 hP
  · intro e
    rw [hm2 e]
    have e1 : Int.ofNat (2 ^ s) = (1 : Int) * 2 ^ s := by
      show ((2 ^ s : Nat) : Int) = _
      push_cast; ring
    rw [e1]
    exact norm_mul_pow 1 s


/-- One generated element: for `0 ≤ r ≤ RAND_MAX` the quotient exists, lies
between 0 and 1, and is 1 when `r = RAND_MAX`. -/
theorem inputElement_unit (RAND_MAX r : Int) (hR : 0 < RAND_MAX) (h0 : 0 ≤ r)
    (h1 : r ≤ RAND_MAX) :
    ∃ v, inputElement RAND_MAX r = some v ∧ F32.le ⟨0, 0⟩ v ∧ F32.le v ⟨1, 0⟩ ∧
      (r = RAND_MAX → v = ⟨1, 0⟩) := by
  obtain ⟨rn, rfl⟩ := Int.eq_ofNat_of_zero_le h0
  obtain ⟨Rn, rfl⟩ := Int.eq_ofNat_of_zero_le (Int.le_of_lt hR)
  obtain ⟨A, B, hA, hB, hAB, hpos⟩ := f32OfInt32_mono rn Rn (by omega)
  have hBpos : 0 < B := hpos (by omega)
  obtain ⟨u1, u2, u3⟩ := f32Round_unit A B hBpos hAB
  refine ⟨f32Round false A B, ?_, u1, u2, ?_⟩
  · unfold inputElement f32Div
    rw [hA, hB]
    simp only []
    rw [if_neg (by omega), show decide ((A : Int) < 0) = false from decide_eq_false (by omega),
      show decide ((B : Int) < 0) = false from decide_eq_false (by omega), Int.natAbs_ofNat,
      Int.natAbs_ofNat, pow_zero, Nat.mul_one, Nat.mul_one]
    rfl
  · intro e
    apply u3
    have e2 : rn = Rn := by omega
    subst e2
    have e3 : (⟨(A : Int), 0⟩ : F32) = ⟨(B : Int), 0⟩ := hA.symm.trans hB
    injection e3 with e4 _
    omega

/-- A traversal all of whose steps succeed returns the list of their results. -/
theorem mapM_eq_some_map {α β : Type} (f : α → Option β) (g : α → β) (l : List α)
    (h : ∀ a ∈ l, f a = some (g a)) : l.mapM f = some (l.map g) := by
  induction l with
  | nil => rfl
  | cons a l ih =>
    rw [List.mapM_cons, h a (List.mem_cons_self a l),
      ih (fun b hb => h b (List.mem_cons_of_mem a hb))]
    rfl

/-- C13, as stated, fails at `r = RAND_MAX`: with `RAND_MAX = 32767` (the value
of the Microsoft C library) and `rand()` returning 32767, the generated element
is `1.0f`, which is not below 1. -/
theorem element_at_RAND_MAX_is_one :
    (0 : Int) ≤ 32767 ∧ (32767 : Int) ≤ 32767 ∧
    inputElement 32767 32767 = some (f32OfInt32 1) ∧
    ¬ F32.lt (f32OfInt32 1) (f32OfInt32 1) ∧
    InitializeUploadBufferForInputBuffer 32767 4 (fun _ => 32767) = some [f32OfInt32 1] := by
  decide

/-- C13 (amended): when every result of `rand()` is in `0 .. RAND_MAX`, the
function generates `bufferSize / sizeof(float)` elements, each of them in the
closed interval `[0, 1]`: at least 0 and at most 1, with 1 generated exactly
where `rand()` returned `RAND_MAX`. -/
theorem generated_elements_in_closed_unit_interval (RAND_MAX : Int) (bufferSize : Nat)
    (rand : Nat → Int) (hR : 0 < RAND_MAX)
    (hrand : ∀ i, 0 ≤ rand i ∧ rand i ≤ RAND_MAX) :
    ∃ inputData, InitializeUploadBufferForInputBuffer RAND_MAX bufferSize rand = some inputData ∧
      inputData.length = bufferSize / 4 ∧
      (∀ v ∈ inputData, F32.le (f32OfInt32 0) v ∧ F32.le v (f32OfInt32 1)) ∧
      (∀ i, i < bufferSize / 4 → rand i = RAND_MAX → inputData[i]? = some (f32OfInt32 1)) := by
  have hzero : f32OfInt32 0 = ⟨0, 0⟩ := by decide
  have hone : f32OfInt32 1 = ⟨1, 0⟩ := by decide
  rw [hzero, hone]
  have hel : ∀ i, ∃ v, inputElement RAND_MAX (rand i) = some v ∧ F32.le ⟨0, 0⟩ v ∧
      F32.le v ⟨1, 0⟩ ∧ (rand i = RAND_MAX → v = ⟨1, 0⟩) :=
    fun i => inputElement_unit RAND_MAX (rand i) hR (hrand i).1 (hrand i).2
  have hg : ∀ i, inputElement RAND_MAX (rand i) =
      some ((inputElement RAND_MAX (rand i)).getD ⟨0, 0⟩) := by
    intro i
    obtain ⟨v, hv, _⟩ := hel i
    rw [hv]; rfl
  refine ⟨(List.range (bufferSize / 4)).map
    (fun i => (inputElement RAND_MAX (rand i)).getD ⟨0, 0⟩), ?_, ?_, ?_, ?_⟩
  · exact mapM_eq_some_map _ _ _ (fun i _ => hg i)
  · rw [List.length_map, List.length_range]
  · intro v hv
    obtain ⟨i, _, rfl⟩ := List.mem_map.1 hv
    obtain ⟨w, hw, l0, l1, _⟩ := hel i
    rw [hw]
    exact ⟨l0, l1⟩
  · intro i hi e
    obtain ⟨w, hw, _, _, l2⟩ := hel i
    rw [List.getElem?_map, List.getElem?_range hi, Option.map_some', hw, l2 e]
    rfl

/-- Witness of C13 (amended): `RAND_MAX = 32767`, a buffer of 8 bytes, and
`rand()` returning 16384 and then 32767. -/
theorem generated_elements_in_closed_unit_interval_witness :
    ∃ inputData, InitializeUploadBufferForInputBuffer 32767 8
        (fun i => if i = 0 then 16384 else 32767) = some inputData ∧
      inputData.length = 8 / 4 ∧
      (∀ v ∈ inputData, F32.le (f32OfInt32 0) v ∧ F32.le v (f32OfInt32 1)) ∧
      (∀ i, i < 8 / 4 → (fun i => if i = 0 then (16384 : Int) else 32767) i = 32767 →
        inputData[i]? = some (f32OfInt32 1)) :=
  generated_elements_in_closed_unit_interval 32767 8 (fun i => if i = 0 then 16384 else 32767)
    (by decide) (fun i => by beta_reduce; split <;> decide)

/-! ## The descriptor heap and the root tables -/

/-- C15: for a descriptor size `size > 0` whose four descriptors fit the
heap's address range, `CreateBufferViews` writes the constant-buffer view, the
views of input 1 and input 2 and the view of the output at the slots 0, 1, 2, 3
of the heap, four pairwise distinct handles inside the heap of
`heapNumDescriptors = 4` descriptors; the root tables of `DoMatMul` start at the
offsets 0, 1 and 3 times the descriptor size, and the descriptors their ranges
(1 CBV, 2 SRV, 1 UAV) cover are, offset by offset and kind by kind, the ones
that `CreateBufferViews` wrote. -/
theorem descriptor_slots (cpuStart gpuStart size : Nat) (hpos : 0 < size)
    (hsize : heapNumDescriptors * size ≤ 4294967296)
    (hcpu : cpuStart + heapNumDescriptors * size ≤ 18446744073709551616)
    (hgpu : gpuStart + heapNumDescriptors * size ≤ 18446744073709551616) :
    CreateBufferViews cpuStart size =
      [⟨cpuStart + 0 * size, DescriptorRangeType.CBV, Buffer.mConstantBuffer⟩,
       ⟨cpuStart + 1 * size, DescriptorRangeType.SRV, Buffer.mInputBuffer1⟩,
       ⟨cpuStart + 2 * size, DescriptorRangeType.SRV, Buffer.mInputBuffer2⟩,
       ⟨cpuStart + 3 * size, DescriptorRangeType.UAV, Buffer.mOutputBuffer⟩] ∧
    (CreateBufferViews cpuStart size).length = heapNumDescriptors ∧
    ((CreateBufferViews cpuStart size).map fun v => v.ptr).Nodup ∧
    (∀ v ∈ CreateBufferViews cpuStart size,
      cpuStart ≤ v.ptr ∧ v.ptr + size ≤ cpuStart + heapNumDescriptors * size) ∧
    rootDescriptorTables gpuStart size =
      [gpuStart + 0 * size, gpuStart + 1 * size, gpuStart + 3 * size] ∧
    (boundDescriptors gpuStart size).map (fun p => (p.1 - gpuStart, p.2)) =
      (CreateBufferViews cpuStart size).map (fun v => (v.ptr - cpuStart, v.rangeType)) := by
  unfold heapNumDescriptors at hsize hcpu hgpu
  have o2 : descriptorOffset size 2 = 2 * size := by
    unfold descriptorOffset; rw [Nat.mod_eq_of_lt (by omega)]; omega
  have o3 : descriptorOffset size 3 = 3 * size := by
    unfold descriptorOffset; rw [Nat.mod_eq_of_lt (by omega)]; omega
  have c1 : wrap64 (cpuStart + size) = cpuStart + 1 * size := by
    unfold wrap64; rw [Nat.mod_eq_of_lt (by omega)]; omega
  have c2 : wrap64 (cpuStart + 2 * size) = cpuStart + 2 * size := by
    unfold wrap64; rw [Nat.mod_eq_of_lt (by omega)]
  have c3 : wrap64 (cpuStart + 3 * size) = cpuStart + 3 * size := by
    unfold wrap64; rw [Nat.mod_eq_of_lt (by omega)]
  have g1 : wrap64 (gpuStart + size) = gpuStart + 1 * size := by
    unfold wrap64; rw [Nat.mod_eq_of_lt (by omega)]; omega
  have g3 : wrap64 (gpuStart + 3 * size) = gpuStart + 3 * size := by
    unfold wrap64; rw [Nat.mod_eq_of_lt (by omega)]
  have hviews : CreateBufferViews cpuStart size =
      [⟨cpuStart + 0 * size, DescriptorRangeType.CBV, Buffer.mConstantBuffer⟩,
       ⟨cpuStart + 1 * size, DescriptorRangeType.SRV, Buffer.mInputBuffer1⟩,
       ⟨cpuStart + 2 * size, DescriptorRangeType.SRV, Buffer.mInputBuffer2⟩,
       ⟨cpuStart + 3 * size, DescriptorRangeType.UAV, Buffer.mOutputBuffer⟩] := by
    unfold CreateBufferViews
    rw [o2, o3, c1, c2, c3, Nat.zero_mul, Nat.add_zero]
  have htables : rootDescriptorTables gpuStart size =
      [gpuStart + 0 * size, gpuStart + 1 * size, gpuStart + 3 * size] := by
    unfold rootDescriptorTables
    rw [o3, g1, g3, Nat.zero_mul, Nat.add_zero]
  refine ⟨hviews, rfl, ?_, ?_, htables, ?_⟩
  · rw [hviews]
    simp only [List.map_cons, List.map_nil, List.nodup_cons, List.mem_cons, List.mem_nil_iff,
      or_false, not_or, List.nodup_nil, and_true, not_false_eq_true]
    refine ⟨⟨?_, ?_, ?_⟩, ⟨?_, ?_⟩, ?_⟩ <;> omega
  · intro v hv
    rw [hviews] at hv
    simp only [List.mem_cons, List.mem_nil_iff, or_false] at hv
    unfold heapNumDescriptors
    rcases hv with rfl | rfl | rfl | rfl <;> constructor <;> dsimp only <;> omega
  · unfold boundDescriptors
    rw [htables, hviews]
    simp only [descriptorRanges, tableDescriptors, List.zip_cons_cons, List.zip_nil_right,
      List.flatMap_cons, List.flatMap_nil, List.map_cons, List.map_nil, List.append_nil,
      List.cons_append, List.nil_append, List.map_append,
      show List.range 1 = [0] from rfl, show List.range 2 = [0, 1] from rfl]
    simp only [List.cons.injEq, Prod.mk.injEq, and_true]
    refine ⟨?_, ?_, ?_, ?_⟩ <;> omega

/-- Witness of C15: descriptors of 32 bytes, the heap at the CPU address 4096
and the GPU address 8192. -/
theorem descriptor_slots_witness :
    CreateBufferViews 4096 32 =
      [⟨4096 + 0 * 32, DescriptorRangeType.CBV, Buffer.mConstantBuffer⟩,
       ⟨4096 + 1 * 32, DescriptorRangeType.SRV, Buffer.mInputBuffer1⟩,
       ⟨4096 + 2 * 32, DescriptorRangeType.SRV, Buffer.mInputBuffer2⟩,
       ⟨4096 + 3 * 32, DescriptorRangeType.UAV, Buffer.mOutputBuffer⟩] ∧
    (CreateBufferViews 4096 32).length = heapNumDescriptors ∧
    ((CreateBufferViews 4096 32).map fun v => v.ptr).Nodup ∧
    (∀ v ∈ CreateBufferViews 4096 32,
      4096 ≤ v.ptr ∧ v.ptr + 32 ≤ 4096 + heapNumDescriptors * 32) ∧
    rootDescriptorTables 8192 32 = [8192 + 0 * 32, 8192 + 1 * 32, 8192 + 3 * 32] ∧
    (boundDescriptors 8192 32).map (fun p => (p.1 - 8192, p.2)) =
      (CreateBufferViews 4096 32).map (fun v => (v.ptr - 4096, v.rangeType)) :=
  descriptor_slots 4096 8192 32 (by decide) (by decide) (by decide) (by decide)

/-! ## The calls of a run -/

/-- The constructor up to the end of `InitQueue` makes setup calls only. -/
theorem constructQueue_calls_setup (env : DeviceEnv) (settings : Settings)
    (fenceValue timestampFrequency : Nat) :
    ∀ c ∈ (constructQueue env settings (newObject fenceValue timestampFrequency)).object.calls,
      isSetupCall c = true := by
  have hI : ∀ c ∈ (InitIntelExtension env (newObject fenceValue timestampFrequency)).2.calls,
      isSetupCall c = true := by
    obtain ⟨cs, h1, h2⟩ := InitIntelExtension_calls env (newObject fenceValue timestampFrequency)
    rw [h1]
    intro c hc
    rcases List.mem_append.1 hc with h | h
    · exact absurd h (List.not_mem_nil c)
    · have := h2 c h
      cases c <;> simp_all [isNegotiationCall, isSetupCall]
  have hQ : ∀ s : D3D12MatMul, (∀ c ∈ s.calls, isSetupCall c = true) →
      ∀ c ∈ (InitQueue env s).object.calls, isSetupCall c = true := by
    intro s hs
    obtain ⟨cs, h1, h2⟩ := InitQueue_calls env s
    rw [h1]
    intro c hc
    rcases List.mem_append.1 hc with h | h
    · exact hs c h
    · rcases List.mem_cons.1 h with h | h
      · rw [h]; split <;> rfl
      · rcases h2 c h with e | e | e <;> rw [e] <;> rfl
  unfold constructQueue
  split
  · exact hQ _ (fun c hc => absurd hc (List.not_mem_nil c))
  · split
    · exact hQ _ hI
    · exact hQ _ hI

/-- Replaying two sequences of calls one after the other. -/
theorem replayStates_append (st0 st : Buffer → ResourceState) (a b : List Call)
    (h : replayStates st0 a = some st) : replayStates st0 (a ++ b) = replayStates st b := by
  unfold replayStates at h ⊢
  rw [List.foldlM_append, h]
  rfl

/-- Setup calls leave the states of the buffers as they are. -/
theorem replayStates_setup (st : Buffer → ResourceState) (cs : List Call)
    (h : ∀ c ∈ cs, isSetupCall c = true) : replayStates st cs = some st := by
  induction cs with
  | nil => rfl
  | cons c cs ih =>
    have hc := h c (List.mem_cons_self c cs)
    have hstep : stepStates st c = some st := by
      cases c <;> first | rfl | (exfalso; simp [isSetupCall] at hc)
    unfold replayStates at ih ⊢
    rw [List.foldlM_cons, hstep]
    exact ih (fun d hd => h d (List.mem_cons_of_mem c hd))

/-- Setup calls contain no transition barrier. -/
theorem barriersOf_setup (cs : List Call) (h : ∀ c ∈ cs, isSetupCall c = true) :
    barriersOf cs = [] := by
  unfold barriersOf
  rw [List.filter_eq_nil_iff]
  intro c hc
  have := h c hc
  cases c <;> first | (simp; done) | (exfalso; simp [isSetupCall] at this)


/-- The states in which the buffers are created. -/
theorem snapshot_creationState (alignment : Nat) (mM mN mK : Int) :
    snapshot (creationState alignment mM mN mK) =
      [ResourceState.COPY_DEST, ResourceState.COPY_DEST, ResourceState.COPY_DEST,
       ResourceState.UNORDERED_ACCESS, ResourceState.COPY_DEST, ResourceState.GENERIC_READ,
       ResourceState.GENERIC_READ, ResourceState.GENERIC_READ, ResourceState.COPY_DEST] := rfl

/-- The calls of `InitBufferData` find the buffers as they were created and
leave the two inputs and the constant buffer ready for the kernel. -/
theorem InitBufferData_states (st0 st : Buffer → ResourceState) (s : D3D12MatMul)
    (h : replayStates st0 s.calls = some st)
    (hs : snapshot st =
      [ResourceState.COPY_DEST, ResourceState.COPY_DEST, ResourceState.COPY_DEST,
       ResourceState.UNORDERED_ACCESS, ResourceState.COPY_DEST, ResourceState.GENERIC_READ,
       ResourceState.GENERIC_READ, ResourceState.GENERIC_READ, ResourceState.COPY_DEST]) :
    ∃ st1, replayStates st0 (InitBufferData s).calls = some st1 ∧
      snapshot st1 =
        [ResourceState.VERTEX_AND_CONSTANT_BUFFER, ResourceState.NON_PIXEL_SHADER_RESOURCE,
         ResourceState.NON_PIXEL_SHADER_RESOURCE, ResourceState.UNORDERED_ACCESS,
         ResourceState.COPY_DEST, ResourceState.GENERIC_READ, ResourceState.GENERIC_READ,
         ResourceState.GENERIC_READ, ResourceState.COPY_DEST] ∧
      (barriersOf (InitBufferData s).calls).length = (barriersOf s.calls).length + 3 := by
  simp only [snapshot, List.cons.injEq, and_true] at hs
  obtain ⟨h1, h2, h3, h4, h5, h6, h7, h8, h9⟩ := hs
  refine ⟨setState (setState (setState st Buffer.mInputBuffer1
    ResourceState.NON_PIXEL_SHADER_RESOURCE) Buffer.mInputBuffer2
    ResourceState.NON_PIXEL_SHADER_RESOURCE) Buffer.mConstantBuffer
    ResourceState.VERTEX_AND_CONSTANT_BUFFER, ?_, ?_, ?_⟩
  · unfold InitBufferData WaitForGPUCompletion D3D12MatMul.call
    simp only [List.append_assoc]
    rw [replayStates_append st0 st _ _ h]
    simp [replayStates, stepStates, setState, readableByCopy, h1, h2, h3, h4, h5, h6, h7, h8, h9]
  · simp [snapshot, setState, h1, h2, h3, h4, h5, h6, h7, h8, h9]
  · unfold InitBufferData WaitForGPUCompletion D3D12MatMul.call
    simp [barriersOf, List.filter_append]

/-- The calls of `DoMatMul` find the buffers ready for the kernel and leave the
states as they are. -/
theorem DoMatMul_states (st0 st : Buffer → ResourceState) (s : D3D12MatMul)
    (h : replayStates st0 s.calls = some st)
    (hs : snapshot st =
      [ResourceState.VERTEX_AND_CONSTANT_BUFFER, ResourceState.NON_PIXEL_SHADER_RESOURCE,
       ResourceState.NON_PIXEL_SHADER_RESOURCE, ResourceState.UNORDERED_ACCESS,
       ResourceState.COPY_DEST, ResourceState.GENERIC_READ, ResourceState.GENERIC_READ,
       ResourceState.GENERIC_READ, ResourceState.COPY_DEST]) :
    replayStates st0 (DoMatMul s).calls = some st ∧
      (barriersOf (DoMatMul s).calls).length = (barriersOf s.calls).length := by
  simp only [snapshot, List.cons.injEq, and_true] at hs
  obtain ⟨h1, h2, h3, h4, h5, h6, h7, h8, h9⟩ := hs
  constructor
  · unfold DoMatMul WaitForGPUCompletion D3D12MatMul.call
    simp only [List.append_assoc]
    rw [replayStates_append st0 st _ _ h]
    simp [replayStates, stepStates, h1, h2, h3, h4, h5]
  · unfold DoMatMul WaitForGPUCompletion D3D12MatMul.call
    simp [barriersOf, List.filter_append]

/-- The calls of `CheckGPUResult` find the output in `UNORDERED_ACCESS`, move it
to `COPY_SOURCE` for the copy and back, and leave every state as it was. -/
theorem CheckGPUResult_states (st0 st : Buffer → ResourceState) (s : D3D12MatMul)
    (h : replayStates st0 s.calls = some st)
    (hs : snapshot st =
      [ResourceState.VERTEX_AND_CONSTANT_BUFFER, ResourceState.NON_PIXEL_SHADER_RESOURCE,
       ResourceState.NON_PIXEL_SHADER_RESOURCE, ResourceState.UNORDERED_ACCESS,
       ResourceState.COPY_DEST, ResourceState.GENERIC_READ, ResourceState.GENERIC_READ,
       ResourceState.GENERIC_READ, ResourceState.COPY_DEST]) :
    ∃ st1, replayStates st0 (CheckGPUResult s).calls = some st1 ∧ snapshot st1 = snapshot st ∧
      (barriersOf (CheckGPUResult s).calls).length = (barriersOf s.calls).length + 2 := by
  have hs0 := hs
  simp only [snapshot, List.cons.injEq, and_true] at hs
  obtain ⟨h1, h2, h3, h4, h5, h6, h7, h8, h9⟩ := hs
  refine ⟨setState (setState st Buffer.mOutputBuffer ResourceState.COPY_SOURCE)
    Buffer.mOutputBuffer ResourceState.UNORDERED_ACCESS, ?_, ?_, ?_⟩
  · unfold CheckGPUResult WaitForGPUCompletion D3D12MatMul.call
    simp only [List.append_assoc]
    rw [replayStates_append st0 st _ _ h]
    simp [replayStates, stepStates, setState, readableByCopy, h1, h2, h3, h4, h5, h6, h7, h8, h9]
  · simp [snapshot, setState, h1, h2, h3, h4, h5, h6, h7, h8, h9]
  · unfold CheckGPUResult WaitForGPUCompletion D3D12MatMul.call
    simp [barriersOf, List.filter_append]

/-- Any number of calls of `CheckGPUResult` in a row. -/
theorem CheckGPUResult_iterate_states (st0 : Buffer → ResourceState) (checks : Nat)
    (s : D3D12MatMul) (st : Buffer → ResourceState)
    (h : replayStates st0 s.calls = some st)
    (hs : snapshot st =
      [ResourceState.VERTEX_AND_CONSTANT_BUFFER, ResourceState.NON_PIXEL_SHADER_RESOURCE,
       ResourceState.NON_PIXEL_SHADER_RESOURCE, ResourceState.UNORDERED_ACCESS,
       ResourceState.COPY_DEST, ResourceState.GENERIC_READ, ResourceState.GENERIC_READ,
       ResourceState.GENERIC_READ, ResourceState.COPY_DEST]) :
    ∃ st1, replayStates st0 (CheckGPUResult^[checks] s).calls = some st1 ∧
      snapshot st1 = snapshot st ∧
      (barriersOf (CheckGPUResult^[checks] s).calls).length =
        (barriersOf s.calls).length + 2 * checks := by
  induction checks with
  | zero => exact ⟨st, h, rfl, rfl⟩
  | succ n ih =>
    obtain ⟨st1, r1, e1, b1⟩ := ih
    rw [Function.iterate_succ_apply']
    obtain ⟨st2, r2, e2, b2⟩ := CheckGPUResult_states st0 st1 _ r1 (e1.trans hs)
    exact ⟨st2, r2, e2.trans e1, by rw [b2, b1]; omega⟩


/-- The replay rejects a barrier whose `before` is not the state of its buffer,
a copy from a buffer that is not readable, and a dispatch before the inputs
are ready. -/
theorem replayStates_rejects :
    (replayStates (creationState 256 1024 1024 1024)
      [Call.ResourceBarrier Buffer.mOutputBuffer ResourceState.COPY_SOURCE
        ResourceState.UNORDERED_ACCESS]).isSome = false ∧
    (replayStates (creationState 256 1024 1024 1024)
      [Call.CopyBufferRegion Buffer.readbackBuffer Buffer.mOutputBuffer]).isSome = false ∧
    (replayStates (creationState 256 1024 1024 1024) [Call.Dispatch]).isSome = false :=
  ⟨rfl, rfl, rfl⟩

/-! ## Barriers, copies and dispatches find the states they name -/

/-- C17: replayed from the states in which `CreateBuffer` creates the buffers,
every call of a run (constructor with `InitBufferData`, `DoMatMul`, then any
number `checks` of calls of `CheckGPUResult`) finds the states it needs: each
barrier its buffer in the state `before`, each copy its destination in
`COPY_DEST` and its source readable, the dispatch the output in
`UNORDERED_ACCESS` and the inputs in their shader states.  The output buffer
is in `UNORDERED_ACCESS` after the run, for every number of checks, so each
`CheckGPUResult` leaves it as it found it; a run that gets past `InitQueue`
records `3 + 2 * checks` barriers. -/
theorem barriers_match_states (env : DeviceEnv) (settings : Settings)
    (checks fenceValue timestampFrequency alignment : Nat) (mM mN mK : Int) :
    ∃ st, replayStates (creationState alignment mM mN mK)
        (runProgram env settings checks fenceValue timestampFrequency).calls = some st ∧
      st Buffer.mOutputBuffer = ResourceState.UNORDERED_ACCESS ∧
      st Buffer.mOutputBuffer = creationState alignment mM mN mK Buffer.mOutputBuffer ∧
      snapshot st =
        (if (constructQueue env settings (newObject fenceValue timestampFrequency)).fatal.isSome
          then snapshot (creationState alignment mM mN mK)
          else
            [ResourceState.VERTEX_AND_CONSTANT_BUFFER, ResourceState.NON_PIXEL_SHADER_RESOURCE,
             ResourceState.NON_PIXEL_SHADER_RESOURCE, ResourceState.UNORDERED_ACCESS,
             ResourceState.COPY_DEST, ResourceState.GENERIC_READ, ResourceState.GENERIC_READ,
             ResourceState.GENERIC_READ, ResourceState.COPY_DEST]) ∧
      (barriersOf (runProgram env settings checks fenceValue timestampFrequency).calls).length =
        (if (constructQueue env settings (newObject fenceValue timestampFrequency)).fatal.isSome
          then 0 else 3 + 2 * checks) := by
  have hsetup := constructQueue_calls_setup env settings fenceValue timestampFrequency
  have h0 := replayStates_setup (creationState alignment mM mN mK) _ hsetup
  have b0 := barriersOf_setup _ hsetup
  unfold runProgram
  cases hf : (constructQueue env settings (newObject fenceValue timestampFrequency)).fatal with
  | some e =>
    refine ⟨creationState alignment mM mN mK, h0, rfl, rfl, ?_, ?_⟩
    · simp
    · simp [b0]
  | none =>
    obtain ⟨st1, r1, e1, c1⟩ := InitBufferData_states _ _ _ h0
      (snapshot_creationState alignment mM mN mK)
    obtain ⟨r2, c2⟩ := DoMatMul_states _ _ _ r1 e1
    obtain ⟨st3, r3, e3, c3⟩ := CheckGPUResult_iterate_states _ checks _ _ r2 e1
    have e4 := e3.trans e1
    have hout : st3 Buffer.mOutputBuffer = ResourceState.UNORDERED_ACCESS := by
      have := e4
      simp only [snapshot, List.cons.injEq, and_true] at this
      exact this.2.2.2.1
    refine ⟨st3, r3, hout, hout, ?_, ?_⟩
    · simpa using e4
    · rw [c3, c2, c1, b0]
      simp

/-! ## Submissions and their waits -/

/-- Replaying two sequences of calls one after the other. -/
theorem replayPhase_append (p0 p : ListPhase) (a b : List Call)
    (h : replayPhase p0 a = some p) : replayPhase p0 (a ++ b) = replayPhase p b := by
  unfold replayPhase at h ⊢
  rw [List.foldlM_append, h]
  rfl

/-- Setup calls leave the list open. -/
theorem replayPhase_setup (cs : List Call) (h : ∀ c ∈ cs, isSetupCall c = true) :
    replayPhase ListPhase.recording cs = some ListPhase.recording := by
  induction cs with
  | nil => rfl
  | cons c cs ih =>
    have hc := h c (List.mem_cons_self c cs)
    have hstep : stepPhase ListPhase.recording c = some ListPhase.recording := by
      cases c <;> first | rfl | (exfalso; simp [isSetupCall] at hc)
    unfold replayPhase at ih ⊢
    rw [List.foldlM_cons, hstep]
    exact ih (fun d hd => h d (List.mem_cons_of_mem c hd))

/-- Setup calls contain no submission. -/
theorem submissionsOf_setup (cs : List Call) (h : ∀ c ∈ cs, isSetupCall c = true) :
    submissionsOf cs = [] := by
  unfold submissionsOf
  rw [List.filter_eq_nil_iff]
  intro c hc
  have := h c hc
  cases c <;> first | (simp; done) | (exfalso; simp [isSetupCall] at this)

/-- The calls of `InitBufferData` record into the open list, close it, submit
it and wait. -/
theorem InitBufferData_phase (s : D3D12MatMul)
    (h : replayPhase ListPhase.recording s.calls = some ListPhase.recording) :
    replayPhase ListPhase.recording (InitBufferData s).calls = some ListPhase.closed ∧
      (submissionsOf (InitBufferData s).calls).length = (submissionsOf s.calls).length + 1 := by
  constructor
  · unfold InitBufferData WaitForGPUCompletion D3D12MatMul.call
    simp only [List.append_assoc]
    rw [replayPhase_append _ _ _ _ h]
    simp [replayPhase, stepPhase]
  · unfold InitBufferData WaitForGPUCompletion D3D12MatMul.call
    simp [submissionsOf, List.filter_append]

/-- The calls of `DoMatMul` reset the closed list, record, close, submit and
wait before the timestamps are mapped. -/
theorem DoMatMul_phase (s : D3D12MatMul)
    (h : replayPhase ListPhase.recording s.calls = some ListPhase.closed) :
    replayPhase ListPhase.recording (DoMatMul s).calls = some ListPhase.closed ∧
      (submissionsOf (DoMatMul s).calls).length = (submissionsOf s.calls).length + 1 := by
  constructor
  · unfold DoMatMul WaitForGPUCompletion D3D12MatMul.call
    simp only [List.append_assoc]
    rw [replayPhase_append _ _ _ _ h]
    simp [replayPhase, stepPhase, isRecordedCommand]
  · unfold DoMatMul WaitForGPUCompletion D3D12MatMul.call
    simp [submissionsOf, List.filter_append]

/-- The calls of `CheckGPUResult` reset the closed list, record, close, submit
and wait before the readback buffer is mapped. -/
theorem CheckGPUResult_phase (s : D3D12MatMul)
    (h : replayPhase ListPhase.recording s.calls = some ListPhase.closed) :
    replayPhase ListPhase.recording (CheckGPUResult s).calls = some ListPhase.closed ∧
      (submissionsOf (CheckGPUResult s).calls).length = (submissionsOf s.calls).length + 1 := by
  constructor
  · unfold CheckGPUResult WaitForGPUCompletion D3D12MatMul.call
    simp only [List.append_assoc]
    rw [replayPhase_append _ _ _ _ h]
    simp [replayPhase, stepPhase, isRecordedCommand]
  · unfold CheckGPUResult WaitForGPUCompletion D3D12MatMul.call
    simp [submissionsOf, List.filter_append]

/-- Any number of calls of `CheckGPUResult` in a row. -/
theorem CheckGPUResult_iterate_phase (checks : Nat) (s : D3D12MatMul)
    (h : replayPhase ListPhase.recording s.calls = some ListPhase.closed) :
    replayPhase ListPhase.recording (CheckGPUResult^[checks] s).calls = some ListPhase.closed ∧
      (submissionsOf (CheckGPUResult^[checks] s).calls).length =
        (submissionsOf s.calls).length + checks := by
  induction checks with
  | zero => exact ⟨h, rfl⟩
  | succ n ih =>
    obtain ⟨r1, c1⟩ := ih
    rw [Function.iterate_succ_apply']
    obtain ⟨r2, c2⟩ := CheckGPUResult_phase _ r1
    exact ⟨r2, by rw [c2, c1]; omega⟩

/-- The replay rejects a submission of a list that is still open, and after a
submission a `Reset`, a `Map`, and a wait armed for another value than the
one signalled. -/
theorem replayPhase_rejects :
    replayPhase ListPhase.recording [Call.ExecuteCommandLists] = none ∧
    replayPhase ListPhase.recording [Call.Close, Call.ExecuteCommandLists, Call.Reset] = none ∧
    replayPhase ListPhase.recording
      [Call.Close, Call.ExecuteCommandLists, Call.Map Buffer.readbackBuffer] = none ∧
    replayPhase ListPhase.recording
      [Call.Close, Call.ExecuteCommandLists, Call.Signal 1, Call.Map Buffer.readbackBuffer]
      = none ∧
    replayPhase ListPhase.recording
      [Call.Close, Call.ExecuteCommandLists, Call.Signal 1, Call.SetEventOnCompletion 1,
        Call.Reset] = none ∧
    replayPhase ListPhase.recording
      [Call.Close, Call.ExecuteCommandLists, Call.Signal 1, Call.SetEventOnCompletion 2]
      = none := by
  decide

/-- C18: in the calls of every run (constructor with `InitBufferData`,
`DoMatMul`, then `checks` calls of `CheckGPUResult`, none or one in `main`) each
`ExecuteCommandLists` comes when the list has been closed, and the calls right
after it are the three of `WaitForGPUCompletion`: the signal of the fence, the
arming of the event for the signalled value, and the wait.  No `Reset`, no `Map`
and no other call comes between a submission and the end of its wait.  A run
that gets past `InitQueue` makes `2 + checks` submissions and ends with the list
closed and nothing in flight. -/
theorem submissions_are_waited_for (env : DeviceEnv) (settings : Settings)
    (checks fenceValue timestampFrequency : Nat) :
    replayPhase ListPhase.recording
        (runProgram env settings checks fenceValue timestampFrequency).calls =
      some (if (constructQueue env settings (newObject fenceValue timestampFrequency)).fatal.isSome
        then ListPhase.recording else ListPhase.closed) ∧
    (submissionsOf (runProgram env settings checks fenceValue timestampFrequency).calls).length =
      (if (constructQueue env settings (newObject fenceValue timestampFrequency)).fatal.isSome
        then 0 else 2 + checks) := by
  have hsetup := constructQueue_calls_setup env settings fenceValue timestampFrequency
  have h0 := replayPhase_setup _ hsetup
  have b0 := submissionsOf_setup _ hsetup
  unfold runProgram
  cases hf : (constructQueue env settings (newObject fenceValue timestampFrequency)).fatal with
  | some e =>
    constructor
    · simpa using h0
    · simp [b0]
  | none =>
    obtain ⟨r1, c1⟩ := InitBufferData_phase _ h0
    obtain ⟨r2, c2⟩ := DoMatMul_phase _ r1
    obtain ⟨r3, c3⟩ := CheckGPUResult_iterate_phase checks _ r2
    constructor
    · simpa using r3
    · rw [c3, c2, c1, b0]
      simp

end CmdThrottlePolicy
